import Mathlib

/-! TopoLinux DistoX driver: wire protocol engine.

Shallow embedding of the host-side DistoX driver (`src/distox/DistoX.h`,
`src/distox/Protocol.h`, `src/basic/set_calibmode.cpp`) and proofs about it.

Conventions of the embedding:
* a byte (`unsigned char`) is a `Nat`; every store into an `unsigned char` object goes
  through `toByte` (reduction modulo 256);
* an 8-byte array `unsigned char [8]` is a `List Nat`; `byteAt b i` is `b[i]`;
* a function that talks to the device takes the transport state and returns the new one,
  together with its C++ return value and its output parameters.
-/

namespace TopoLinux

/-! ## Bytes and buffers -/

/-- Value kept by an `unsigned char` object when `v` is stored into it. -/
def toByte (v : Nat) : Nat := v % 256

/-- Element `b[i]` of a byte array. -/
def byteAt (b : List Nat) (i : Nat) : Nat := b.getD i 0

/-- The local `unsigned char buf[8]` before anything is stored into it: eight bytes with the
indeterminate content `junk` (missing positions read as 0). -/
def localBuf8 (junk : List Nat) : List Nat :=
  (List.range 8).map (fun i => toByte (junk.getD i 0))

/-- Copy of the bytes `data` over the beginning of `buf`, as a transport read into `buf`
does; the positions past `data` keep their content. -/
def overlay : List Nat → List Nat → List Nat
  | [], _ => []
  | bs, [] => bs
  | _ :: bs, d :: ds => toByte d :: overlay bs ds

/-! ## Transport -/

/-- Modelled from the spec: the byte-stream transport `Serial` (`Serial.h` is not among the
sources): "a byte-stream endpoint with blocking write(bytes), read(buffer, maxlen) → nread,
open/close/reconnect"; a read "may return 0 (no data within its own timeout) or a
negative/failure indication". The outcomes of `Open` (`opens`), of the coming `Read` calls
(`rx`: return value and delivered bytes) and of the coming `Write` calls (`wres`: return
value) are scripted; `written` records, oldest first, every block of bytes handed to
`Write`. -/
structure Serial where
  opens : Bool := true
  rx : List (Int × List Nat) := []
  wres : List Int := []
  written : List (List Nat) := []
deriving DecidableEq, Repr

/-- Modelled from the spec: `Serial::Open()`; reports whether the line could be opened. -/
def Serial.Open (s : Serial) : Bool × Serial := (s.opens, s)

/-- Modelled from the spec: `Serial::Close()`. -/
def Serial.Close (s : Serial) : Serial := s

/-- Modelled from the spec: `Serial::Write(buf, n)`; hands the block to the transport and
returns the scripted result (the number of bytes of the block when nothing is scripted). -/
def Serial.Write (s : Serial) (block : List Nat) : Int × Serial :=
  match s.wres with
  | [] => ((block.length : Int), { s with written := s.written ++ [block] })
  | r :: rs => (r, { s with wres := rs, written := s.written ++ [block] })

/-- Modelled from the spec: `Serial::Read(buf, maxlen)`; copies at most `maxlen` delivered
bytes into `buf` and returns the scripted count (0, nothing delivered, when nothing is
scripted). -/
def Serial.Read (s : Serial) (buf : List Nat) (maxlen : Nat) : Int × List Nat × Serial :=
  match s.rx with
  | [] => (0, buf, s)
  | (nr, data) :: rest => (nr, overlay buf (data.take maxlen), { s with rx := rest })

/-! ## `set_calibmode.cpp` -/

/-- The function `read_8000` of `set_calibmode.cpp`: addressed status read at 0x8000.
Arguments: the serial line, the current content of the output byte `*mode`, `do_write`, and
the indeterminate initial content of the local `buf`. Result: the returned `int`, the content
of `*mode` afterwards, the serial line afterwards. -/
def read_8000 (serial : Serial) (mode : Nat) (do_write : Bool) (junk : List Nat) :
    Int × Nat × Serial :=
  let addr : Nat := 0x8000
  let buf := localBuf8 junk
  let (buf, serial) :=
    if do_write then
      let buf := buf.set 0 (toByte 0x38)
      let buf := buf.set 1 (toByte (addr &&& 0xff))
      let buf := buf.set 2 (toByte ((addr >>> 8) &&& 0xff))
      (buf, (serial.Write (buf.take 3)).2)
    else (buf, serial)
  let (nr, buf, serial) := serial.Read buf 8
  if nr > 0 then
    if byteAt buf 0 ≠ 0x38 then (-1, mode, serial)
    else
      let reply_addr := (byteAt buf 2 <<< 8) ||| byteAt buf 1
      if reply_addr ≠ addr then (-2, mode, serial)
      else (nr, byteAt buf 3, serial)
  else if nr < 0 then (-3, mode, serial)
  else (0, mode, serial)

/-- The function `send_command` of `set_calibmode.cpp`. -/
def send_command (serial : Serial) (byte : Nat) : Bool × Serial :=
  let (n, serial) := serial.Write [toByte byte]
  (n == 1, serial)

/-! ## Nonlinear coefficient codec (`DistoX.h`) -/

/-- C conversion `(int)x` of a real number: truncation toward zero. -/
def truncToInt (x : ℚ) : Int := if 0 ≤ x then ⌊x⌋ else ⌈x⌉

/-- The function `COEFF2NL` of `DistoX.h`, over exact rationals; `FN` is the scale constant of
`Factors.h` (not among the sources), taken as a parameter. -/
def COEFF2NL (FN : ℚ) (c : Nat) : ℚ :=
  let c0 : Int := 1 + (c : Int)
  let c0 : Int := if c0 > 128 then c0 - 256 else c0
  (c0 : ℚ) / FN

/-- The function `double2NL` of `DistoX.h`, over exact rationals. `v & 0xff` on the
two's-complement `int` is `v % 256`. -/
def double2NL (FN : ℚ) (x : ℚ) : Nat :=
  let x := x * FN
  let v : Int := (if x ≥ 0 then truncToInt (x + 1/2) else -truncToInt (-x + 1/2)) - 1
  let v : Int := if v ≤ 0 then 0x100 + v else v
  toByte (v % 256).toNat

/-! ## Packets and queues (`Protocol.h`) -/

/-- The macro `PACKET_TYPE`: the low six bits of byte 0. -/
def PACKET_TYPE (b : List Nat) : Nat := byteAt b 0 &&& 0x3f

/-- The macro `PACKET_DATA`. -/
def PACKET_DATA : Nat := 0x01

/-- The macro `PACKET_G`. -/
def PACKET_G : Nat := 0x02

/-- The macro `PACKET_M`. -/
def PACKET_M : Nat := 0x03

/-- The macro `PACKET_VECTOR`. -/
def PACKET_VECTOR : Nat := 0x04

/-- The macro `PACKET_REPLY`. -/
def PACKET_REPLY : Nat := 0x38

/-- Modelled from the spec: the template `BufferQueue` (`BufferQueue.h` is not among the
sources), a FIFO whose "entries are consumed exactly once, in arrival order". -/
structure BufferQueue (α : Type) where
  items : List α := []
deriving DecidableEq, Repr

/-- Modelled from the spec: `BufferQueue::Size()`, the number of queued entries. -/
def BufferQueue.Size {α : Type} (q : BufferQueue α) : Nat := q.items.length

/-- Modelled from the spec: `BufferQueue::Put(x)`, which appends `x` at the back. -/
def BufferQueue.Put {α : Type} (q : BufferQueue α) (x : α) : BufferQueue α :=
  { items := q.items ++ [x] }

/-- Modelled from the spec: `BufferQueue::Get(b)`, which removes the oldest entry into `b`
and returns true, or returns false on an empty queue and leaves `b` alone. -/
def BufferQueue.Get {α : Type} (q : BufferQueue α) (b : α) : Bool × α × BufferQueue α :=
  match q.items with
  | [] => (false, b, q)
  | x :: xs => (true, x, { items := xs })

/-- The enumeration `ProtoError` of `Protocol.h`. -/
inductive ProtoError where
  | PROTO_OK
  | PROTO_READ
  | PROTO_WRITE
  | PROTO_COMMAND
  | PROTO_ADDR
  | PROTO_PACKET
  | PROTO_CONNECT
  | PROTO_TIMEOUT
  | PROTO_MAX
deriving DecidableEq, Repr

/-- Operations performed on a `Protocol` object, as recorded in its trace. -/
inductive ProtoOp where
  | Open (ok : Bool)
  | Close
  | Read8000 (result : Option Nat)
  | SendCommandByte (byte : Nat)
  | ReadData (err : ProtoError)
  | ReadDataNumber (number : Int)
  | ReadCalibration (err : ProtoError)
  | WriteCalibration (err : ProtoError)
deriving DecidableEq, Repr

/-- Scripted outcomes of the member functions of `Protocol` that `Protocol.h` only declares
and `DistoX.h` or `Protocol.h` call: the results of the coming `ReadData` calls, of the
coming `ReadDataNumber` calls, of the coming `ReadHeadTailX1` calls (`none` is a failed read,
`some (head, tail)` a successful one), of the coming `ReadCalibration` calls (result and
bytes delivered) and of the coming `WriteCalibration` calls. -/
structure ProtoScript where
  dataReads : List ProtoError := []
  dataNumbers : List Int := []
  headTails : List (Option (Nat × Nat)) := []
  coeffReads : List (ProtoError × List Nat) := []
  coeffWrites : List ProtoError := []
deriving DecidableEq, Repr

/-- The class `Protocol` of `Protocol.h`: the serial line and the three queues. The member
functions that `Protocol.h` only declares are scripted: `status` holds the outcomes of the
coming `Read8000` calls, `script` those of the other ones. `trace` records, oldest first, the
operations performed. -/
structure Protocol where
  serial : Serial := {}
  data_queue : BufferQueue (List Nat) := {}
  calib_queue : BufferQueue (List Nat) := {}
  command_queue : BufferQueue Nat := {}
  status : List (Option Nat) := []
  trace : List ProtoOp := []
  script : ProtoScript := {}
deriving DecidableEq, Repr

/-- The member `Protocol::Open`: `return serial.Open();`. -/
def Protocol.Open (p : Protocol) : Bool × Protocol :=
  let (ok, serial) := p.serial.Open
  (ok, { p with serial := serial, trace := p.trace ++ [ProtoOp.Open ok] })

/-- The member `Protocol::Close`: `serial.Close();`. -/
def Protocol.Close (p : Protocol) : Protocol :=
  { p with serial := p.serial.Close, trace := p.trace ++ [ProtoOp.Close] }

/-- Modelled from the spec: `Protocol::Read8000(&mode)` (defined in `Protocol.cpp`, not among
the sources; `Protocol.h`: "read from memory ... the eight bytes at address 0x8000, mode:
distox status byte (output), return true if successful"). The next scripted outcome decides:
`some m` is a successful read, which stores the byte `m` into `*mode`; `none`, or nothing
scripted, is a failed read, which leaves `*mode` untouched as `read_8000` does. Result: the
returned `bool`, the content of `*mode` afterwards, the protocol afterwards. -/
def Protocol.Read8000 (p : Protocol) (mode : Nat) : Bool × Nat × Protocol :=
  match p.status with
  | [] => (false, mode, { p with trace := p.trace ++ [ProtoOp.Read8000 none] })
  | none :: rest =>
      (false, mode, { p with status := rest, trace := p.trace ++ [ProtoOp.Read8000 none] })
  | some m :: rest =>
      (true, toByte m,
        { p with status := rest, trace := p.trace ++ [ProtoOp.Read8000 (some (toByte m))] })

/-- Modelled from the spec: `Protocol::SendCommandByte(byte)` (defined in `Protocol.cpp`, not
among the sources): sends the "single-byte command". Its `bool` result is used by no caller
in the sources and is taken to be true. -/
def Protocol.SendCommandByte (p : Protocol) (byte : Nat) : Bool × Protocol :=
  (true, { p with trace := p.trace ++ [ProtoOp.SendCommandByte (toByte byte)] })

set_option linter.unusedVariables false in
/-- The member `Protocol::NextData(b1, b2)` (DistoX2): the paired consumer of the data queue.
Result: the returned `bool`, the contents of `b1` and `b2` afterwards, the protocol
afterwards. -/
def Protocol.NextData (p : Protocol) (b1 b2 : List Nat) :
    Bool × List Nat × List Nat × Protocol :=
  if hsize : p.data_queue.Size ≥ 2 then
    let got1 := p.data_queue.Get b1
    if !got1.1 then (false, got1.2.1, b2, { p with data_queue := got1.2.2 })
    else if PACKET_TYPE got1.2.1 = PACKET_DATA then
      let got2 := got1.2.2.Get b2
      if !got2.1 then (false, got1.2.1, got2.2.1, { p with data_queue := got2.2.2 })
      else (PACKET_TYPE got2.2.1 == PACKET_VECTOR, got1.2.1, got2.2.1,
        { p with data_queue := got2.2.2 })
    else
      Protocol.NextData { p with data_queue := got1.2.2 } got1.2.1 b2
  else (false, b1, b2, p)
termination_by p.data_queue.Size
decreasing_by
  simp only [BufferQueue.Size, BufferQueue.Get] at hsize ⊢
  cases hq : p.data_queue.items with
  | nil => simp [hq] at hsize
  | cons x xs => simp

/-! ## Device modes (`DistoX.h`) -/

/-- The macro `STATUS_CALIB`. -/
def STATUS_CALIB : Nat := 0x08

/-- The macro `STATUS_SILENT`. -/
def STATUS_SILENT : Nat := 0x10

/-- The macro `IS_STATUS_CALIB`. -/
def IS_STATUS_CALIB (s : Nat) : Bool := (s &&& STATUS_CALIB) == STATUS_CALIB

/-- The macro `IS_STATUS_SILENT`. -/
def IS_STATUS_SILENT (s : Nat) : Bool := (s &&& STATUS_SILENT) == STATUS_SILENT

/-- The loop `for (int k = 0; k<3; ++k)` of `DistoX::readMode`, with `n` iterations left. -/
def DistoX.readModeLoop : Nat → Protocol → Nat → Int → Int × Protocol
  | 0, mProto, _, ret => (ret, mProto)
  | n + 1, mProto, mode, ret =>
    let (ok, mode, mProto) := mProto.Read8000 mode
    let ret : Int := if ok then (mode : Int) else ret
    DistoX.readModeLoop n mProto mode ret

/-- The member `DistoX::readMode`. Result: the returned `int` and the protocol afterwards. -/
def DistoX.readMode (mProto : Protocol) : Int × Protocol :=
  let ret : Int := -1
  let (ok, mProto) := mProto.Open
  if !ok then (ret, mProto)
  else
    let mode : Nat := 0x00
    let (ret, mProto) := DistoX.readModeLoop 3 mProto mode ret
    let mProto := mProto.Close
    (ret, mProto)

/-- The first loop of `DistoX::toggleCalib` (read the status, stop at the first success),
with `n` iterations left. Result: `mode` and the protocol afterwards. -/
def DistoX.toggleCalibReadLoop : Nat → Protocol → Nat → Nat × Protocol
  | 0, mProto, mode => (mode, mProto)
  | n + 1, mProto, mode =>
    let (ok, mode, mProto) := mProto.Read8000 mode
    if ok then (mode, mProto)
    else DistoX.toggleCalibReadLoop n mProto mode

/-- The second loop of `DistoX::toggleCalib` (send the command, re-read, stop when the
re-read succeeds with a byte other than `mode`), with `n` iterations left. Result: `mode1`
and the protocol afterwards. -/
def DistoX.toggleCalibSendLoop (mode : Nat) : Nat → Protocol → Nat → Nat × Protocol
  | 0, mProto, mode1 => (mode1, mProto)
  | n + 1, mProto, mode1 =>
    let (_, mProto) :=
      if (mode &&& STATUS_CALIB) != 0 then mProto.SendCommandByte 0x30
      else mProto.SendCommandByte 0x31
    let (ok, mode1, mProto) := mProto.Read8000 mode1
    if ok && mode1 != mode then (mode1, mProto)
    else DistoX.toggleCalibSendLoop mode n mProto mode1

/-- The member `DistoX::toggleCalib`. Result: the returned `int` and the protocol
afterwards. -/
def DistoX.toggleCalib (mProto : Protocol) : Int × Protocol :=
  let ret : Int := -1
  let (ok, mProto) := mProto.Open
  if !ok then (ret, mProto)
  else
    let mode : Nat := 0x00
    let (mode, mProto) := DistoX.toggleCalibReadLoop 3 mProto mode
    let (ret, mProto) :=
      if mode != 0x00 then
        let mode1 : Nat := 0x00
        let mode2 : Nat := mode
        let mode2 : Nat :=
          if (mode2 &&& STATUS_CALIB) != 0 then toByte (mode2 &&& 0xf7)
          else toByte (mode2 ||| STATUS_CALIB)
        let (mode1, mProto) := DistoX.toggleCalibSendLoop mode 3 mProto mode1
        if mode1 == mode2 then
          if (mode &&& STATUS_CALIB) != 0 then ((0 : Int), mProto) else ((1 : Int), mProto)
        else ((-1 : Int), mProto)
      else (ret, mProto)
    let mProto := mProto.Close
    (ret, mProto)

/-- The loop of `DistoX::setCalib` (send the command, re-read, stop when the re-read succeeds
with the expected byte `mode2`), with `n` iterations left. Result: `ret` and the protocol
afterwards. -/
def DistoX.setCalibLoop (on' : Bool) (mode2 : Nat) : Nat → Protocol → Nat → Int → Int × Protocol
  | 0, mProto, _, ret => (ret, mProto)
  | n + 1, mProto, mode1, ret =>
    let (_, mProto) := mProto.SendCommandByte (if on' then 0x31 else 0x30)
    let (ok, mode1, mProto) := mProto.Read8000 mode1
    if ok && mode1 == mode2 then
      ((if (mode1 &&& STATUS_CALIB) != 0 then 1 else 0), mProto)
    else DistoX.setCalibLoop on' mode2 n mProto mode1 ret

/-- The member `DistoX::setCalib`. Result: the returned `int` and the protocol afterwards. -/
def DistoX.setCalib (mProto : Protocol) (on' : Bool) : Int × Protocol :=
  let ret : Int := -1
  let (ok, mProto) := mProto.Open
  if !ok then (ret, mProto)
  else
    let mode : Nat := 0x00
    let (ok, mode, mProto) := mProto.Read8000 mode
    let (ret, mProto) :=
      if ok then
        let calib : Bool := (mode &&& STATUS_CALIB) != 0
        if calib != on' then
          let mode1 : Nat := 0x00
          let mode2 : Nat := toByte (mode ^^^ STATUS_CALIB)
          DistoX.setCalibLoop on' mode2 3 mProto mode1 ret
        else ((if calib then 1 else 0), mProto)
      else (ret, mProto)
    let mProto := mProto.Close
    (ret, mProto)

/-- The loop of `DistoX::setSilent`, with `n` iterations left. Result: `ret` and the protocol
afterwards. -/
def DistoX.setSilentLoop (on' : Bool) (mode2 : Nat) : Nat → Protocol → Nat → Int → Int × Protocol
  | 0, mProto, _, ret => (ret, mProto)
  | n + 1, mProto, mode1, ret =>
    let (_, mProto) := mProto.SendCommandByte (if on' then 0x33 else 0x32)
    let (ok, mode1, mProto) := mProto.Read8000 mode1
    if ok && mode1 == mode2 then
      ((if (mode1 &&& STATUS_SILENT) != 0 then 1 else 0), mProto)
    else DistoX.setSilentLoop on' mode2 n mProto mode1 ret

/-- The member `DistoX::setSilent`. Result: the returned `int` and the protocol afterwards. -/
def DistoX.setSilent (mProto : Protocol) (on' : Bool) : Int × Protocol :=
  let ret : Int := -1
  let (ok, mProto) := mProto.Open
  if !ok then (ret, mProto)
  else
    let mode : Nat := 0x00
    let (ok, mode, mProto) := mProto.Read8000 mode
    let (ret, mProto) :=
      if ok then
        let silent : Bool := (mode &&& STATUS_SILENT) == 0
        if silent != on' then
          let mode1 : Nat := 0x00
          let mode2 : Nat := toByte (mode ^^^ STATUS_SILENT)
          DistoX.setSilentLoop on' mode2 3 mProto mode1 ret
        else ((if silent then 1 else 0), mProto)
      else (ret, mProto)
    let mProto := mProto.Close
    (ret, mProto)

/-! ## Reading traces -/

/-- The command bytes sent, oldest first, in a trace. -/
def sentBytes : List ProtoOp → List Nat
  | [] => []
  | ProtoOp.SendCommandByte b :: t => b :: sentBytes t
  | _ :: t => sentBytes t

/-- The outcomes of the status reads, oldest first, in a trace. -/
def statusReads : List ProtoOp → List (Option Nat)
  | [] => []
  | ProtoOp.Read8000 r :: t => r :: statusReads t
  | _ :: t => statusReads t

/-- The status byte delivered by the last successful status read of a trace, if any. -/
def lastStatus (t : List ProtoOp) : Option Nat :=
  ((statusReads t).reverse.find? Option.isSome).join

/-- The operations performed between the protocol states `before` and `after`. -/
def performed (before after : Protocol) : List ProtoOp :=
  after.trace.drop before.trace.length

/-- Whether the outcome of a status read is a success that delivers exactly the byte
`expected`. -/
def delivers (expected : Nat) : Option Nat → Bool
  | some m => toByte m == expected
  | none => false

/-- Outcome number `k` of the coming status reads of a script; past the end of the script
the reads fail. -/
def outcomeAt (s : List (Option Nat)) (k : Nat) : Option Nat := s.getD k none

/-- The operations of `j` rounds "send the command byte `cmd`, read the status" run against
the scripted status outcomes `s`. -/
def sendReadRounds (cmd : Nat) : Nat → List (Option Nat) → List ProtoOp
  | 0, _ => []
  | j + 1, [] =>
    ProtoOp.SendCommandByte (toByte cmd) :: ProtoOp.Read8000 none :: sendReadRounds cmd j []
  | j + 1, o :: s =>
    ProtoOp.SendCommandByte (toByte cmd) :: ProtoOp.Read8000 (o.map toByte) ::
      sendReadRounds cmd j s

/-! ## Unsupported mode toggles (`DistoX.h`) -/

/-- The member `DistoX::setGrad` ("not supported"): `on = on; return -1;`. Result: the
returned `int` and the protocol afterwards. -/
def DistoX.setGrad (mProto : Protocol) (on' : Bool) : Int × Protocol :=
  let _on : Bool := on'
  (-1, mProto)

/-- The member `DistoX::setCompass` ("not supported"): `on = on; return -1;`. Result: the
returned `int` and the protocol afterwards. -/
def DistoX.setCompass (mProto : Protocol) (on' : Bool) : Int × Protocol :=
  let _on : Bool := on'
  (-1, mProto)

/-! ## Measurement and calibration codec (`Protocol.h`, `DistoX.h`)

The `double` results are modelled by exact rationals. -/

/-- Difference `a - b` of two `unsigned int` values (32 bits): it wraps modulo 2^32. -/
def uintSub (a b : Nat) : Nat := (a % 4294967296 + 4294967296 - b % 4294967296) % 4294967296

/-- Conversion `(int16_t)v`: the low 16 bits of `v` read as a two's-complement number. -/
def toInt16 (v : Nat) : Int :=
  if v % 65536 < 32768 then ((v % 65536 : Nat) : Int) else ((v % 65536 : Nat) : Int) - 65536

/-- The macro `DATA_2_DISTANCE`. -/
def DATA_2_DISTANCE (b : List Nat) : Nat :=
  ((byteAt b 0 &&& 0x40) <<< 10) ||| byteAt b 1 ||| (byteAt b 2 <<< 8)

/-- The macro `DATA_2_COMPASS`. -/
def DATA_2_COMPASS (b : List Nat) : Nat := byteAt b 3 ||| (byteAt b 4 <<< 8)

/-- The macro `DATA_2_CLINO`. -/
def DATA_2_CLINO (b : List Nat) : Nat := byteAt b 5 ||| (byteAt b 6 <<< 8)

/-- The macro `DATA_2_ROLL_X1` (DistoX1: the roll is 8-bit). -/
def DATA_2_ROLL_X1 (b : List Nat) : Nat := byteAt b 7

/-- The macro `DATA_2_ACC`. -/
def DATA_2_ACC (b : List Nat) : Nat := byteAt b 1 ||| (byteAt b 2 <<< 8)

/-- The macro `DATA_2_MAG`. -/
def DATA_2_MAG (b : List Nat) : Nat := byteAt b 3 ||| (byteAt b 4 <<< 8)

/-- The macro `DATA_2_DIP`. -/
def DATA_2_DIP (b : List Nat) : Nat := byteAt b 5 ||| (byteAt b 6 <<< 8)

/-- The macro `DISTANCE_METERS`. -/
def DISTANCE_METERS (d : Nat) : ℚ := (d : ℚ) / 1000

/-- The macro `COMPASS_DEGREES`. -/
def COMPASS_DEGREES (b : Nat) : ℚ := ((b : ℚ) * 180) / 0x8000

/-- The macro `CLINO_DEGREES`, applied to an `unsigned int` as `nextMeasurementX1` and
`nextMeasurementX2` do. -/
def CLINO_DEGREES (c : Nat) : ℚ :=
  if c < 0x8000 then ((c : ℚ) * 90) / 0x4000
  else ((uintSub 0x10000 c : ℚ) * (-90)) / 0x4000

/-- The macro `ROLL_DEGREES_X1`. -/
def ROLL_DEGREES_X1 (r : Nat) : ℚ := ((r : ℚ) * 180) / 0x0080

/-- The macro `ROLL_DEGREES_X2`. -/
def ROLL_DEGREES_X2 (r : Nat) : ℚ := ((r : ℚ) * 180) / 0x8000

/-- The macro `DIP_DEGREES`, applied to an `unsigned int` as `nextMeasurementX2` does
(`unsigned int ip`): both branches of the conditional are `unsigned int`, so `(d) - 65536`
is the wrapping difference. -/
def DIP_DEGREES (d : Nat) : ℚ :=
  (((if d < 32768 then d else uintSub d 65536 : Nat) : ℚ) * 90) / 0x4000

/-- The macro `CALIB_2_X`. -/
def CALIB_2_X (b : List Nat) : Int := toInt16 (byteAt b 1 ||| (byteAt b 2 <<< 8))

/-- The macro `CALIB_2_Y`. -/
def CALIB_2_Y (b : List Nat) : Int := toInt16 (byteAt b 3 ||| (byteAt b 4 <<< 8))

/-- The macro `CALIB_2_Z`. -/
def CALIB_2_Z (b : List Nat) : Int := toInt16 (byteAt b 5 ||| (byteAt b 6 <<< 8))

/-- The macro `C_2_D` of `DistoX.h`: the signed 16-bit little-endian word at `c[k]`. -/
def C_2_D (c : List Nat) (k : Nat) : Int := toInt16 (byteAt c k ||| (byteAt c (k + 1) <<< 8))

/-- The function `vector2double` of `read_calib.cpp`. -/
def vector2double (b1 b2 : Nat) : ℚ :=
  let v : Int := ((toByte b1 ||| (toByte b2 <<< 8) : Nat) : Int)
  let v : Int := if v > 32768 then 65538 - v else v
  (v : ℚ) / 24000

/-- The function `matrix2double` of `read_calib.cpp`. -/
def matrix2double (b1 b2 : Nat) : ℚ :=
  let v : Int := ((toByte b1 ||| (toByte b2 <<< 8) : Nat) : Int)
  let v : Int := if v > 32768 then 65538 - v else v
  (v : ℚ) / 16384

/-! ## Queue consumers (`Protocol.h`, `DistoX.h`) -/

/-- The member `Protocol::NextData(b)` (DistoX1), the one-array overload:
`return data_queue.Get( b ) && PACKET_TYPE( b ) == PACKET_DATA;`. Result: the returned
`bool`, the content of `b` afterwards, the protocol afterwards. -/
def Protocol.NextData1 (p : Protocol) (b : List Nat) : Bool × List Nat × Protocol :=
  let got := p.data_queue.Get b
  (got.1 && PACKET_TYPE got.2.1 == PACKET_DATA, got.2.1, { p with data_queue := got.2.2 })

set_option linter.unusedVariables false in
/-- The member `Protocol::NextCalib(b1, b2)`: the paired consumer of the calibration queue.
Result: the returned `bool`, the contents of `b1` and `b2` afterwards, the protocol
afterwards. -/
def Protocol.NextCalib (p : Protocol) (b1 b2 : List Nat) :
    Bool × List Nat × List Nat × Protocol :=
  if hsize : p.calib_queue.Size ≥ 2 then
    let got1 := p.calib_queue.Get b1
    if !got1.1 then (false, got1.2.1, b2, { p with calib_queue := got1.2.2 })
    else if PACKET_TYPE got1.2.1 = PACKET_G then
      let got2 := got1.2.2.Get b2
      if !got2.1 then (false, got1.2.1, got2.2.1, { p with calib_queue := got2.2.2 })
      else (PACKET_TYPE got2.2.1 == PACKET_M, got1.2.1, got2.2.1,
        { p with calib_queue := got2.2.2 })
    else
      Protocol.NextCalib { p with calib_queue := got1.2.2 } got1.2.1 b2
  else (false, b1, b2, p)
termination_by p.calib_queue.Size
decreasing_by
  simp only [BufferQueue.Size, BufferQueue.Get] at hsize ⊢
  cases hq : p.calib_queue.items with
  | nil => simp [hq] at hsize
  | cons x xs => simp

/-- Output parameters of `DistoX::nextMeasurementX1`: `dist`, `compass`, `clino`, `roll`. -/
structure MeasurementX1 where
  dist : ℚ
  compass : ℚ
  clino : ℚ
  roll : ℚ
deriving DecidableEq

/-- Output parameters of `DistoX::nextMeasurementX2`, the roll apart: `dist`, `compass`,
`clino`, `acc`, `mag`, `dip`. The output `roll` is left out: the macro `DATA_2_ROLL_X2` it is
computed with has misplaced parentheses in `Protocol.h` and no value can be read off it. -/
structure MeasurementX2 where
  dist : ℚ
  compass : ℚ
  clino : ℚ
  acc : Nat
  mag : Nat
  dip : ℚ
deriving DecidableEq

/-- Output parameters of `DistoX::nextCalibration`: six `int16_t` values. -/
structure CalibrationXYZ where
  gx : Int
  gy : Int
  gz : Int
  mx : Int
  my : Int
  mz : Int
deriving DecidableEq, Repr

/-- The member `DistoX::nextMeasurementX1`. Arguments: the protocol, the current content of
the output parameters, the indeterminate initial content of the local array `b`. Result: the
returned `bool`, the output parameters afterwards, the protocol afterwards. -/
def DistoX.nextMeasurementX1 (mProto : Protocol) (out : MeasurementX1) (junk : List Nat) :
    Bool × MeasurementX1 × Protocol :=
  let b := localBuf8 junk
  let (ok, b, mProto) := mProto.NextData1 b
  if !ok then (false, out, mProto)
  else
    let id := DATA_2_DISTANCE b
    let ib := DATA_2_COMPASS b
    let ic := DATA_2_CLINO b
    let ir := DATA_2_ROLL_X1 b
    (true,
      { dist := DISTANCE_METERS id, compass := COMPASS_DEGREES ib, clino := CLINO_DEGREES ic,
        roll := ROLL_DEGREES_X1 ir },
      mProto)

/-- The member `DistoX::nextMeasurementX2`, the roll apart (see `MeasurementX2`). Arguments:
the protocol, the current content of the output parameters, the indeterminate initial
contents of the local arrays `b1` and `b2`. Result: the returned `bool`, the output
parameters afterwards, the protocol afterwards. -/
def DistoX.nextMeasurementX2 (mProto : Protocol) (out : MeasurementX2)
    (junk1 junk2 : List Nat) : Bool × MeasurementX2 × Protocol :=
  let b1 := localBuf8 junk1
  let b2 := localBuf8 junk2
  let (ok, b1, b2, mProto) := mProto.NextData b1 b2
  if !ok then (false, out, mProto)
  else
    let id := DATA_2_DISTANCE b1
    let ib := DATA_2_COMPASS b1
    let ic := DATA_2_CLINO b1
    let ip := DATA_2_DIP b2
    (true,
      { dist := DISTANCE_METERS id, compass := COMPASS_DEGREES ib, clino := CLINO_DEGREES ic,
        acc := DATA_2_ACC b2, mag := DATA_2_MAG b2, dip := DIP_DEGREES ip },
      mProto)

/-- The member `DistoX::nextCalibration`. Arguments: the protocol, the current content of
the output parameters, the indeterminate initial contents of the local arrays `b1` and `b2`.
Result: the returned `bool`, the output parameters afterwards, the protocol afterwards. -/
def DistoX.nextCalibration (mProto : Protocol) (out : CalibrationXYZ)
    (junk1 junk2 : List Nat) : Bool × CalibrationXYZ × Protocol :=
  let b1 := localBuf8 junk1
  let b2 := localBuf8 junk2
  let (ok, b1, b2, mProto) := mProto.NextCalib b1 b2
  if !ok then (false, out, mProto)
  else
    (true,
      { gx := CALIB_2_X b1, gy := CALIB_2_Y b1, gz := CALIB_2_Z b1,
        mx := CALIB_2_X b2, my := CALIB_2_Y b2, mz := CALIB_2_Z b2 },
      mProto)

/-- Low byte of the little-endian two's-complement 16-bit word that stores `x`. -/
def int16Low (x : Int) : Nat := (x % 65536).toNat % 256

/-- High byte of the little-endian two's-complement 16-bit word that stores `x`. -/
def int16High (x : Int) : Nat := (x % 65536).toNat / 256

/-! ## Firmware upload (`firmware_write.cpp`) -/

/-- Modelled from the spec: the C stream `FILE` opened on the firmware image (file input is
an external collaborator): the bytes of the file and the read position. -/
structure FILE where
  content : List Nat
  pos : Nat := 0
deriving DecidableEq, Repr

/-- A local `unsigned char buf[n]` before anything is stored into it: `n` bytes with the
indeterminate content `junk` (missing positions read as 0). -/
def localBuf (n : Nat) (junk : List Nat) : List Nat :=
  (List.range n).map (fun i => toByte (junk.getD i 0))

/-- The call `memset(buf + off, v, count)`. -/
def memset (buf : List Nat) (off v count : Nat) : List Nat :=
  buf.take off ++ overlay (buf.drop off) (List.replicate count v)

/-- The call `fread(buf + off, 1, count, fp)`: copies the next bytes of the file, at most
`count`, and advances the read position. Result: the number of bytes read, the buffer and
the stream afterwards. -/
def fread (buf : List Nat) (off count : Nat) (fp : FILE) : Nat × List Nat × FILE :=
  let data := (fp.content.drop fp.pos).take count
  (data.length, buf.take off ++ overlay (buf.drop off) data,
    { fp with pos := fp.pos + data.length })

/-- The body of the `for` loop of `firmware_write` for the page `addr`. Result: false when
the body executes `return false`, true when the loop goes on; the serial line, the stream and
`buf` afterwards. -/
def firmware_write_page (dry_run : Bool) (addr : Nat) (serial : Serial) (fp : FILE)
    (buf : List Nat) : Bool × Serial × FILE × List Nat :=
  let buf := memset buf 3 0 256
  let (_, buf, fp) := fread buf 3 256 fp
  if addr < 0x08 then (true, serial, fp, buf)
  else
    let buf := buf.set 1 (toByte (addr &&& 0xff))
    let buf := buf.set 2 0
    let (nr, buf, serial) :=
      if dry_run then ((8 : Int), buf, serial)
      else
        let (_, serial) := serial.Write (buf.take 259)
        serial.Read buf 8
    if nr > 0 then
      if byteAt buf 0 ≠ 0x3b then (false, serial, fp, buf)
      else
        let reply_addr := (byteAt buf 2 <<< 8) ||| byteAt buf 1
        if reply_addr ≠ addr then (false, serial, fp, buf)
        else (true, serial, fp, buf)
    else if nr < 0 then (false, serial, fp, buf)
    else (false, serial, fp, buf)

/-- The loop `for ( unsigned int addr=0; addr<end_addr; ++addr )` of `firmware_write`, with
`n = end_addr - addr` iterations left. Result: the value returned by `firmware_write`, the
serial line and the stream afterwards. -/
def firmware_write_loop (dry_run : Bool) :
    Nat → Nat → Serial → FILE → List Nat → Bool × Serial × FILE
  | 0, _, serial, fp, _ => (true, serial, fp)
  | n + 1, addr, serial, fp, buf =>
    let (go, serial, fp, buf) := firmware_write_page dry_run addr serial fp buf
    if go then firmware_write_loop dry_run n (addr + 1) serial fp buf
    else (false, serial, fp)

/-- The function `firmware_write` of `firmware_write.cpp`. Arguments: the serial line, the
stream (`none` is the `NULL` pointer), `end_addr`, `dry_run`, and the indeterminate initial
content of the local `buf`. Result: the returned `bool`, the serial line and the stream
afterwards. -/
def firmware_write (serial : Serial) (fp : Option FILE) (end_addr : Nat) (dry_run : Bool)
    (junk : List Nat) : Bool × Serial × Option FILE :=
  match fp with
  | none => (false, serial, none)
  | some fp =>
    let buf := localBuf (256 + 3) junk
    let buf := buf.set 0 0x3b
    let buf := buf.set 1 0
    let buf := buf.set 2 0
    let (r, serial, fp) := firmware_write_loop dry_run end_addr 0 serial fp buf
    (r, serial, some fp)

/-- The computation of `end_addr` in `main` of `firmware_write.cpp`:
`unsigned int end_addr = (stat_buf.st_size + 255)/256;` for a file of `st_size` bytes. -/
def main_end_addr (st_size : Nat) : Nat := ((st_size + 255) / 256) % 4294967296

/-- The 256 bytes of a file at the offsets `[256*p, 256*p + 256)`, with zeros past the end of
the file. -/
def pageOfFile (content : List Nat) (p : Nat) : List Nat :=
  (List.range 256).map (fun i => content.getD (256 * p + i) 0)

/-- The 259-byte request that writes the page `p` of a file: opcode 0x3b, page address,
zero, then the 256 bytes of the page. -/
def pageRequest (content : List Nat) (p : Nat) : List Nat :=
  [0x3b, p, 0x00] ++ pageOfFile content p

/-- The 8-byte acknowledgement of the write of page `p`: the opcode 0x3b and the echoed
address. -/
def pageAck (p : Nat) : Int × List Nat := (8, [0x3b, p, 0x00, 0, 0, 0, 0, 0])

/-! ## Bootloader page read (`bootloader_read.cpp`) -/

/-- The call `fwrite(buf, 1, count, fp)` on an output stream: appends the first `count`
bytes of `buf` to the file. Result: the number of bytes written and the stream afterwards. -/
def fwrite (buf : List Nat) (count : Nat) (fp : FILE) : Nat × FILE :=
  (count, { content := fp.content ++ buf.take count, pos := fp.pos + count })

/-- The loop `for (int k=0; k<32; ++k)` of `bootloader_read` taken when `fp == NULL` (the
frames are printed), with `n` iterations left. Result: false when the loop executes
`return false`, and the serial line afterwards. -/
def bootloader_read_print : Nat → Serial → List Nat → Bool × Serial
  | 0, serial, _ => (true, serial)
  | n + 1, serial, buf =>
    let (nr, buf, serial) := serial.Read buf 8
    if nr < 0 then (false, serial)
    else bootloader_read_print n serial buf

/-- The loop `for (int k=0; k<32; ++k)` of `bootloader_read` taken when `fp != NULL` (the
frames are written to the file), with `n` iterations left. Result: false when the loop
executes `return false`, the serial line and the stream afterwards. -/
def bootloader_read_dump : Nat → Serial → List Nat → FILE → Bool × Serial × FILE
  | 0, serial, _, fp => (true, serial, fp)
  | n + 1, serial, buf, fp =>
    let (nr, buf, serial) := serial.Read buf 8
    let (_, fp) := fwrite buf 8 fp
    if nr < 0 then (false, serial, fp)
    else bootloader_read_dump n serial buf fp

/-- The function `bootloader_read` of `bootloader_read.cpp`. Arguments: the serial line, the
`unsigned int` page address, the output stream (`none` is the `NULL` pointer) and the
indeterminate initial content of the local `buf`. Result: the returned `bool`, the serial
line and the stream afterwards. -/
def bootloader_read (serial : Serial) (addr : Nat) (fp : Option FILE) (junk : List Nat) :
    Bool × Serial × Option FILE :=
  let addr := addr &&& 0x00ff
  let buf := localBuf8 junk
  let buf := buf.set 0 (toByte 0x3a)
  let buf := buf.set 1 (toByte (addr &&& 0xff))
  let buf := buf.set 2 (toByte ((addr >>> 8) &&& 0xff))
  let (_, serial) := serial.Write (buf.take 3)
  let (nr, buf, serial) := serial.Read buf 8
  if nr > 0 then
    if byteAt buf 0 ≠ 0x3a then (false, serial, fp)
    else
      let reply_addr := (byteAt buf 2 <<< 8) ||| byteAt buf 1
      if reply_addr ≠ addr then (false, serial, fp)
      else
        match fp with
        | none =>
          let (r, serial) := bootloader_read_print 32 serial buf
          (r, serial, none)
        | some fp =>
          let (r, serial, fp) := bootloader_read_dump 32 serial buf fp
          (r, serial, some fp)
  else if nr < 0 then (false, serial, fp)
  else (false, serial, fp)

/-! ## Command queue and data count (`Protocol.h`) -/

/-- The member `Protocol::WriteByte`. -/
def Protocol.WriteByte (p : Protocol) (byte : Nat) : ProtoError × Protocol :=
  let w := p.serial.Write [toByte byte]
  if w.1 ≠ 1 then (ProtoError.PROTO_WRITE, { p with serial := w.2 })
  else (ProtoError.PROTO_OK, { p with serial := w.2 })

/-- The member `Protocol::PutCommand`. -/
def Protocol.PutCommand (p : Protocol) (cmd : Nat) : Protocol :=
  { p with command_queue := p.command_queue.Put (toByte cmd) }

set_option linter.unusedVariables false in
/-- The member `Protocol::WriteCommands`. Arguments: the protocol and the indeterminate
initial content of the local `cmd`. Result: the returned error code and the protocol
afterwards. -/
def Protocol.WriteCommands (p : Protocol) (cmd : Nat) : ProtoError × Protocol :=
  if hsize : p.command_queue.Size > 0 then
    let got := p.command_queue.Get cmd
    let cmd := got.2.1
    if cmd ≥ 0x30 ∧ cmd ≤ 0x33 then
      let w := Protocol.WriteByte { p with command_queue := got.2.2 } cmd
      if w.1 ≠ ProtoError.PROTO_OK then (w.1, w.2)
      else Protocol.WriteCommands { w.2 with command_queue := got.2.2 } cmd
    else (ProtoError.PROTO_COMMAND, { p with command_queue := got.2.2 })
  else (ProtoError.PROTO_OK, p)
termination_by p.command_queue.Size
decreasing_by
  simp only [BufferQueue.Size, BufferQueue.Get] at hsize ⊢
  cases hq : p.command_queue.items with
  | nil => simp [hq] at hsize
  | cons x xs => simp

/-- Modelled from the spec: `Protocol::ReadHeadTailX1(&head, &tail)` (defined in
`Protocol.cpp`, not among the sources; `Protocol.h`: "read head/tail of the distox internal
data queue, return true if successful"). The next scripted outcome decides: `some (h, t)`
is a successful read, which stores the two `uint16_t` values; `none`, or nothing scripted, is
a failed read, which leaves them untouched. -/
def Protocol.ReadHeadTailX1 (p : Protocol) (head tail : Nat) : Bool × Nat × Nat × Protocol :=
  match p.script.headTails with
  | [] => (false, head, tail, p)
  | none :: rest => (false, head, tail, { p with script := { p.script with headTails := rest } })
  | some (h, t) :: rest =>
    (true, h % 65536, t % 65536, { p with script := { p.script with headTails := rest } })

/-- The member `Protocol::ReadDataNumberX1`. The operands are promoted to `int`; `%` and `/`
of C truncate toward zero. Arguments: the protocol and the indeterminate initial contents of
the locals `head` and `tail`. -/
def Protocol.ReadDataNumberX1 (p : Protocol) (head tail : Nat) : Int × Protocol :=
  let (ok, head, tail, p) := p.ReadHeadTailX1 head tail
  if !ok then (-1, p)
  else (Int.tdiv (Int.tmod ((head : Int) + 0x8000 - (tail : Int)) 0x8000) 8, p)

/-! ## Download and coefficients (`DistoX.h`) -/

/-- Modelled from the spec: `Protocol::ReadData()` (defined in `Protocol.cpp`, not among the
sources; `Protocol.h`: "read a data packet, return protocol error code"). The next scripted
result is returned; with nothing scripted the device is silent and the result is
`PROTO_TIMEOUT`. The effect on the queues is left out. -/
def Protocol.ReadData (p : Protocol) : ProtoError × Protocol :=
  match p.script.dataReads with
  | [] =>
    (ProtoError.PROTO_TIMEOUT,
      { p with trace := p.trace ++ [ProtoOp.ReadData ProtoError.PROTO_TIMEOUT] })
  | e :: rest =>
    (e, { p with script := { p.script with dataReads := rest },
                 trace := p.trace ++ [ProtoOp.ReadData e] })

/-- Modelled from the spec: `Protocol::ReadDataNumber()` as `DistoX::download` calls it (not
among the sources; `Protocol.h` has `ReadDataNumberX1`: "get the number of data on the
DistoX, -1 on error"). The next scripted number is returned; with nothing scripted the read
fails and the result is -1. -/
def Protocol.ReadDataNumber (p : Protocol) : Int × Protocol :=
  match p.script.dataNumbers with
  | [] => (-1, { p with trace := p.trace ++ [ProtoOp.ReadDataNumber (-1)] })
  | n :: rest =>
    (n, { p with script := { p.script with dataNumbers := rest },
                 trace := p.trace ++ [ProtoOp.ReadDataNumber n] })

/-- Modelled from the spec: `Protocol::ReadCalibration(byte)` (defined in `Protocol.cpp`, not
among the sources; `Protocol.h`: "read the calibration data from the disto, return protocol
error code"). The next scripted outcome gives the result and the bytes stored into `byte`;
with nothing scripted the result is `PROTO_TIMEOUT` and `byte` is untouched. -/
def Protocol.ReadCalibration (p : Protocol) (byte : List Nat) :
    ProtoError × List Nat × Protocol :=
  match p.script.coeffReads with
  | [] =>
    (ProtoError.PROTO_TIMEOUT, byte,
      { p with trace := p.trace ++ [ProtoOp.ReadCalibration ProtoError.PROTO_TIMEOUT] })
  | (e, data) :: rest =>
    (e, overlay byte data,
      { p with script := { p.script with coeffReads := rest },
               trace := p.trace ++ [ProtoOp.ReadCalibration e] })

/-- Modelled from the spec: `Protocol::WriteCalibration(calib)` (defined in `Protocol.cpp`,
not among the sources; `Protocol.h`: "write calibration data to the disto, return protocol
error code"). The next scripted result is returned; with nothing scripted the result is
`PROTO_TIMEOUT`. -/
def Protocol.WriteCalibration (p : Protocol) (_calib : List Nat) : ProtoError × Protocol :=
  match p.script.coeffWrites with
  | [] =>
    (ProtoError.PROTO_TIMEOUT,
      { p with trace := p.trace ++ [ProtoOp.WriteCalibration ProtoError.PROTO_TIMEOUT] })
  | e :: rest =>
    (e, { p with script := { p.script with coeffWrites := rest },
                 trace := p.trace ++ [ProtoOp.WriteCalibration e] })

/-- The member `DistoX::readCoeffs`. Result: the returned `bool`, the content of `byte`
afterwards, the protocol afterwards. -/
def DistoX.readCoeffs (mProto : Protocol) (byte : List Nat) : Bool × List Nat × Protocol :=
  let (ok, mProto) := mProto.Open
  if !ok then (false, byte, mProto)
  else
    let (e, byte, mProto) := mProto.ReadCalibration byte
    let ret : Bool := e == ProtoError.PROTO_OK
    let mProto := mProto.Close
    (ret, byte, mProto)

/-- The member `DistoX::writeCoeffs`. Result: the returned `bool` and the protocol
afterwards. -/
def DistoX.writeCoeffs (mProto : Protocol) (byte : List Nat) : Bool × Protocol :=
  let (ok, mProto) := mProto.Open
  if !ok then (false, mProto)
  else
    let (e, mProto) := mProto.WriteCalibration byte
    let ret : Bool := e == ProtoError.PROTO_OK
    let mProto := mProto.Close
    (ret, mProto)

/-- Calls received by a `DistoXListener`. -/
inductive ListenerCall where
  | distoxReset
  | distoxDownload (nr : Nat)
  | distoxDone
deriving DecidableEq, Repr

/-- The statement `if ( mListener ) mListener->call`: `none` is the `NULL` listener, `some l`
a listener that has received the calls `l`, oldest first. -/
def notifyListener (mListener : Option (List ListenerCall)) (call : ListenerCall) :
    Option (List ListenerCall) :=
  mListener.map (fun l => l ++ [call])

/-- The variables of `DistoX::download` while its loops run: `number`, `cnt`, `err`, the
protocol and the listener. `retryChecks` is an observation added to the model: the values of
`retry` at the evaluations of the test `retry < 0`, oldest first. -/
structure DownloadState where
  number : Int
  cnt : Nat
  err : ProtoError
  mProto : Protocol
  mListener : Option (List ListenerCall)
  retryChecks : List Int := []
deriving DecidableEq, Repr

set_option linter.unusedVariables false in
/-- The loop `while ( number != 0 && ( err = mProto.ReadData() ) == PROTO_OK )` of
`DistoX::download`. The `int number` is an unbounded integer here. -/
def DistoX.downloadWhile (st : DownloadState) : DownloadState :=
  if st.number ≠ 0 then
    let r := st.mProto.ReadData
    if hok : r.1 = ProtoError.PROTO_OK then
      let cnt := st.cnt + 1
      let number := st.number - 1
      let st1 : DownloadState :=
        { st with number := number, cnt := cnt, err := r.1, mProto := r.2,
                  mListener := notifyListener st.mListener (ListenerCall.distoxDownload cnt) }
      if number = 0 then st1
      else DistoX.downloadWhile st1
    else { st with err := r.1, mProto := r.2 }
  else st
termination_by st.mProto.script.dataReads.length
decreasing_by
  cases hs : st.mProto.script.dataReads with
  | nil =>
    have hok1 : st.mProto.ReadData.1 = ProtoError.PROTO_OK := hok
    simp [Protocol.ReadData, hs] at hok1
  | cons e rest => simp [Protocol.ReadData, hs]

/-- The loop `for ( int retry=0; ; ++retry)` of `DistoX::download`, run for at most `fuel`
iterations of its body; `none` when the body would run once more. -/
def DistoX.downloadFor (ask : Bool) : Nat → Int → DownloadState → Option DownloadState
  | 0, _, _ => none
  | fuel + 1, retry, st =>
    let st := DistoX.downloadWhile st
    let st : DownloadState :=
      if st.err = ProtoError.PROTO_TIMEOUT then
        { st with retryChecks := st.retryChecks ++ [retry] }
      else st
    if st.err = ProtoError.PROTO_TIMEOUT ∧ retry < 0 then
      DistoX.downloadFor ask fuel (retry + 1) st
    else if ask then
      let r := st.mProto.ReadDataNumber
      let st : DownloadState := { st with number := r.1, mProto := r.2 }
      if r.1 > 0 then DistoX.downloadFor ask fuel (retry - 1 + 1) st
      else some st
    else some st

/-- The member `DistoX::download`, its `for` loop run for at most `fuel` iterations (`none`
when they do not suffice). Arguments: the protocol, the listener, `number`. Result: the
returned `bool`, the protocol and the listener afterwards, and the observed values of `retry`
(see `DownloadState`). -/
def DistoX.download (fuel : Nat) (mProto : Protocol) (mListener : Option (List ListenerCall))
    (number : Int) : Option (Bool × Protocol × Option (List ListenerCall) × List Int) :=
  let (ok, mProto) := mProto.Open
  if !ok then some (false, mProto, mListener, [])
  else
    let err := ProtoError.PROTO_OK
    let cnt : Nat := 0
    let ask : Bool := number == -1
    let (number, mProto) :=
      if ask then mProto.ReadDataNumber
      else if number == 0 then ((-1 : Int), mProto)
      else (number, mProto)
    match DistoX.downloadFor ask fuel 0
      { number := number, cnt := cnt, err := err, mProto := mProto, mListener := mListener }
    with
    | none => none
    | some st =>
      let mListener := notifyListener st.mListener ListenerCall.distoxDone
      let mProto := st.mProto.Close
      some (true, mProto, mListener, st.retryChecks)

/-- Whether an operation is neither `Open` nor `Close`. -/
def innerOp : ProtoOp → Bool
  | ProtoOp.Open _ => false
  | ProtoOp.Close => false
  | _ => true

/-- Whether the operations of a trace form a closed session: a successful `Open`, then
operations other than `Open` and `Close`, then one `Close`. -/
def closedSession (ops : List ProtoOp) : Prop :=
  ∃ mid : List ProtoOp, ops = ProtoOp.Open true :: mid ++ [ProtoOp.Close] ∧
    mid.all innerOp = true

/-- The results of the `ReadData` calls, oldest first, in a trace. -/
def dataReadResults : List ProtoOp → List ProtoError
  | [] => []
  | ProtoOp.ReadData e :: t => e :: dataReadResults t
  | _ :: t => dataReadResults t

/-- Whether a trace is at the end of a session: nothing follows, or `Close` does. -/
def sessionEnds : List ProtoOp → Bool
  | [] => true
  | ProtoOp.Close :: _ => true
  | _ => false

/-- Whether every failed `ReadData` of a trace is retried only under the guard of
`download`: after a `ReadData` with a result other than `PROTO_OK` either the session ends,
or, with `ask` set, `ReadDataNumber` is called next and a further operation follows only if
it returned a positive number. -/
def guardedRetries (ask : Bool) : List ProtoOp → Bool
  | [] => true
  | ProtoOp.ReadData e :: rest =>
    (e == ProtoError.PROTO_OK || sessionEnds rest ||
      match rest with
      | ProtoOp.ReadDataNumber m :: rest1 => ask && (decide (0 < m) || sessionEnds rest1)
      | _ => false) && guardedRetries ask rest
  | _ :: rest => guardedRetries ask rest

/-- Whether the protocol state `q` is reached from `p` by operations other than `Open` and
`Close`. -/
def extendsTrace (p q : Protocol) : Prop :=
  ∃ ops : List ProtoOp, q.trace = p.trace ++ ops ∧ ops.all innerOp = true

/-- The content of the local `buf` of `read_8000` after the transport read delivered the
bytes `data`: the delivered bytes (at most 8) over the three request bytes and the
indeterminate rest when the request was written, over the indeterminate content otherwise. -/
def read_8000_buf (do_write : Bool) (junk data : List Nat) : List Nat :=
  overlay
    (if do_write then (((localBuf8 junk).set 0 0x38).set 1 0x00).set 2 0x80
      else localBuf8 junk)
    (data.take 8)

/-- The values of the type `int16_t`. -/
def InInt16 (x : Int) : Prop := -32768 ≤ x ∧ x ≤ 32767

instance (x : Int) : Decidable (InInt16 x) := by
  unfold InInt16
  infer_instance

/-! ## Theorems -/

/-- The rounding of `double2NL` applied to an exact integer gives the integer minus one. -/
theorem double2NL_round (k : Int) :
    (if (k : ℚ) ≥ 0 then truncToInt ((k : ℚ) + 1/2) else -truncToInt (-(k : ℚ) + 1/2)) - 1
      = k - 1 := by
  have hfl : ∀ j : Int, 0 ≤ j → truncToInt ((j : ℚ) + 1/2) = j := by
    intro j hj
    have h0 : (0 : ℚ) ≤ (j : ℚ) + 1/2 := by
      have : (0 : ℚ) ≤ (j : ℚ) := by exact_mod_cast hj
      linarith
    unfold truncToInt
    rw [if_pos h0, Int.floor_eq_iff]
    constructor <;> linarith
  by_cases hk : (k : ℚ) ≥ 0
  · rw [if_pos hk, hfl k (by exact_mod_cast hk)]
  · rw [if_neg hk]
    have hk2 : 0 ≤ -k := by
      have : (k : ℚ) < 0 := lt_of_not_ge hk
      have : k < 0 := by exact_mod_cast this
      omega
    have := hfl (-k) hk2
    push_cast at this
    rw [this]
    ring

/-- C2: for every byte `b` and every positive scale `FN`, with exact arithmetic,
`double2NL (COEFF2NL b) = b`. -/
theorem double2NL_COEFF2NL (FN : ℚ) (hFN : 0 < FN) (b : Nat) (hb : b < 256) :
    double2NL FN (COEFF2NL FN b) = b := by
  have hne : FN ≠ 0 := ne_of_gt hFN
  unfold double2NL COEFF2NL
  simp only [div_mul_cancel₀ _ hne, double2NL_round, toByte]
  split_ifs <;> omega

/-- Witness of C2 at the wraparound byte 128 with scale 16384. -/
theorem double2NL_COEFF2NL_witness :
    (0 : ℚ) < 16384 ∧ 128 < 256 ∧ double2NL 16384 (COEFF2NL 16384 128) = 128 :=
  ⟨by norm_num, by decide, double2NL_COEFF2NL 16384 (by norm_num) 128 (by decide)⟩

/-- The local buffer spelled out as its eight bytes. -/
theorem localBuf8_eq (junk : List Nat) :
    localBuf8 junk =
      [toByte (junk.getD 0 0), toByte (junk.getD 1 0), toByte (junk.getD 2 0),
       toByte (junk.getD 3 0), toByte (junk.getD 4 0), toByte (junk.getD 5 0),
       toByte (junk.getD 6 0), toByte (junk.getD 7 0)] := rfl

/-- A list of length 8 is the list of its eight elements. -/
theorem list_length_eight {α : Type} (l : List α) (h : l.length = 8) :
    ∃ a b c d e f g k, l = [a, b, c, d, e, f, g, k] := by
  match l, h with
  | [a, b, c, d, e, f, g, k], _ => exact ⟨a, b, c, d, e, f, g, k, rfl⟩

/-- C1: in `read_8000`, an 8-byte reply whose byte 0 is the opcode 0x38 but whose bytes 1-2,
read little-endian, differ from 0x8000 makes the function return -2 and leaves the output mode
byte as it was. -/
theorem read_8000_wrong_address (serial : Serial) (mode : Nat) (do_write : Bool)
    (junk reply : List Nat) (rest : List (Int × List Nat))
    (hlen : reply.length = 8) (hbytes : ∀ b ∈ reply, b < 256)
    (hrx : serial.rx = (8, reply) :: rest)
    (hop : byteAt reply 0 = 0x38)
    (haddr : (byteAt reply 1 ||| (byteAt reply 2 <<< 8)) ≠ 0x8000) :
    (read_8000 serial mode do_write junk).1 = -2 ∧
      (read_8000 serial mode do_write junk).2.1 = mode := by
  obtain ⟨r0, r1, r2, r3, r4, r5, r6, r7, rfl⟩ := list_length_eight reply hlen
  have h1 : r1 % 256 = r1 := Nat.mod_eq_of_lt (hbytes r1 (by simp))
  have h2 : r2 % 256 = r2 := Nat.mod_eq_of_lt (hbytes r2 (by simp))
  simp only [byteAt, List.getD_cons_zero, List.getD_cons_succ] at hop haddr
  subst hop
  have haddr2 : ¬ (r2 <<< 8 ||| r1 = 32768) := by
    rw [Nat.lor_comm]; exact haddr
  have hw : ∀ (s : Serial) (blk : List Nat), (s.Write blk).2.rx = s.rx := by
    intro s blk
    unfold Serial.Write
    split <;> rfl
  cases do_write <;>
    simp [read_8000, localBuf8_eq, Serial.Read, hrx, hw, overlay, toByte, byteAt,
      h1, h2, haddr2]

/-- Witness of C1: the reply echoes address 0x8001 instead of 0x8000. -/
theorem read_8000_wrong_address_witness :
    (read_8000 { rx := [(8, [0x38, 0x01, 0x80, 5, 0, 0, 0, 0])] } 7 true []).1 = -2 ∧
      (read_8000 { rx := [(8, [0x38, 0x01, 0x80, 5, 0, 0, 0, 0])] } 7 true []).2.1 = 7 :=
  read_8000_wrong_address { rx := [(8, [0x38, 0x01, 0x80, 5, 0, 0, 0, 0])] } 7 true []
    [0x38, 0x01, 0x80, 5, 0, 0, 0, 0] [] rfl (by decide) rfl (by decide) (by decide)

/-! ### The paired consumer -/

/-- One step of `NextData` on a queue holding at least two frames. -/
theorem NextData_cons_cons (p : Protocol) (b1 b2 f1 f2 : List Nat) (rest : List (List Nat))
    (hq : p.data_queue.items = f1 :: f2 :: rest) :
    p.NextData b1 b2 =
      if PACKET_TYPE f1 = PACKET_DATA then
        (PACKET_TYPE f2 == PACKET_VECTOR, f1, f2, { p with data_queue := { items := rest } })
      else Protocol.NextData { p with data_queue := { items := f2 :: rest } } f1 b2 := by
  rw [Protocol.NextData]
  simp [BufferQueue.Size, BufferQueue.Get, hq]

/-- The call `NextData` on a queue holding fewer than two frames fails and changes nothing. -/
theorem NextData_short (p : Protocol) (b1 b2 : List Nat) (hq : p.data_queue.Size < 2) :
    p.NextData b1 b2 = (false, b1, b2, p) := by
  rw [Protocol.NextData]
  simp [Nat.not_le.mpr hq]

/-- Counterexample to C3: on the queue `[D1, N, D2, V]` (tags DATA, reply, DATA, VECTOR) the
call `NextData(b1, b2)` returns false, it does not return true with `b1 = D2` and `b2 = V`. -/
theorem NextData_noise_counterexample :
    PACKET_TYPE [0x01, 1, 0, 0, 0, 0, 0, 0] = PACKET_DATA ∧
    PACKET_TYPE [0x38, 2, 0, 0, 0, 0, 0, 0] ≠ PACKET_DATA ∧
    PACKET_TYPE [0x38, 2, 0, 0, 0, 0, 0, 0] ≠ PACKET_VECTOR ∧
    PACKET_TYPE [0x01, 3, 0, 0, 0, 0, 0, 0] = PACKET_DATA ∧
    PACKET_TYPE [0x04, 4, 0, 0, 0, 0, 0, 0] = PACKET_VECTOR ∧
    (Protocol.NextData
      { data_queue := { items := [[0x01, 1, 0, 0, 0, 0, 0, 0], [0x38, 2, 0, 0, 0, 0, 0, 0],
          [0x01, 3, 0, 0, 0, 0, 0, 0], [0x04, 4, 0, 0, 0, 0, 0, 0]] } } [] []).1 = false := by
  refine ⟨by decide, by decide, by decide, by decide, by decide, ?_⟩
  rw [NextData_cons_cons _ _ _ _ _ _ rfl]
  decide

/-- C3 (amended): on a queue holding exactly `[D1, N, D2, V]` with `D1`, `D2` of type DATA,
`V` of type VECTOR and `N` of neither type, the first call of `NextData(b1, b2)` returns false
with `b1 = D1` and `b2 = N`, leaving `[D2, V]` queued; the next call returns true with
`b1 = D2` and `b2 = V`, leaving the queue empty; a further call returns false. -/
theorem NextData_noise_second_call (p : Protocol) (b1 b2 D1 N D2 V : List Nat)
    (hq : p.data_queue.items = [D1, N, D2, V])
    (hD1 : PACKET_TYPE D1 = PACKET_DATA) (hD2 : PACKET_TYPE D2 = PACKET_DATA)
    (hV : PACKET_TYPE V = PACKET_VECTOR)
    (hN : PACKET_TYPE N ≠ PACKET_DATA ∧ PACKET_TYPE N ≠ PACKET_VECTOR) :
    p.NextData b1 b2 = (false, D1, N, { p with data_queue := { items := [D2, V] } }) ∧
    Protocol.NextData { p with data_queue := { items := [D2, V] } } D1 N
      = (true, D2, V, { p with data_queue := { items := [] } }) ∧
    Protocol.NextData { p with data_queue := { items := [] } } D2 V
      = (false, D2, V, { p with data_queue := { items := [] } }) := by
  refine ⟨?_, ?_, NextData_short _ D2 V (by simp [BufferQueue.Size])⟩
  · rw [NextData_cons_cons p b1 b2 D1 N [D2, V] hq, if_pos hD1]
    simp [hN.2]
  · rw [NextData_cons_cons _ D1 N D2 V [] rfl, if_pos hD2]
    simp [hV]

/-- Witness of C3 (amended) with a reply-type frame as the noise. -/
theorem NextData_noise_second_call_witness :
    Protocol.NextData
      { data_queue := { items := [[0x01, 1, 0, 0, 0, 0, 0, 0], [0x38, 2, 0, 0, 0, 0, 0, 0],
          [0x01, 3, 0, 0, 0, 0, 0, 0], [0x04, 4, 0, 0, 0, 0, 0, 0]] } } [] []
      = (false, [0x01, 1, 0, 0, 0, 0, 0, 0], [0x38, 2, 0, 0, 0, 0, 0, 0],
          { data_queue := { items := [[0x01, 3, 0, 0, 0, 0, 0, 0], [0x04, 4, 0, 0, 0, 0, 0, 0]] } }) ∧
    Protocol.NextData
      { data_queue := { items := [[0x01, 3, 0, 0, 0, 0, 0, 0], [0x04, 4, 0, 0, 0, 0, 0, 0]] } }
      [0x01, 1, 0, 0, 0, 0, 0, 0] [0x38, 2, 0, 0, 0, 0, 0, 0]
      = (true, [0x01, 3, 0, 0, 0, 0, 0, 0], [0x04, 4, 0, 0, 0, 0, 0, 0],
          { data_queue := { items := [] } }) ∧
    Protocol.NextData { data_queue := { items := [] } }
      [0x01, 3, 0, 0, 0, 0, 0, 0] [0x04, 4, 0, 0, 0, 0, 0, 0]
      = (false, [0x01, 3, 0, 0, 0, 0, 0, 0], [0x04, 4, 0, 0, 0, 0, 0, 0],
          { data_queue := { items := [] } }) :=
  NextData_noise_second_call
    { data_queue := { items := [[0x01, 1, 0, 0, 0, 0, 0, 0], [0x38, 2, 0, 0, 0, 0, 0, 0],
        [0x01, 3, 0, 0, 0, 0, 0, 0], [0x04, 4, 0, 0, 0, 0, 0, 0]] } } [] []
    [0x01, 1, 0, 0, 0, 0, 0, 0] [0x38, 2, 0, 0, 0, 0, 0, 0]
    [0x01, 3, 0, 0, 0, 0, 0, 0] [0x04, 4, 0, 0, 0, 0, 0, 0]
    rfl (by decide) (by decide) (by decide) (by decide)

/-! ### Status reads and traces -/

/-- A failed status read: nothing scripted. -/
theorem Read8000_nil (p : Protocol) (mode : Nat) (h : p.status = []) :
    p.Read8000 mode
      = (false, mode, { p with trace := p.trace ++ [ProtoOp.Read8000 none] }) := by
  unfold Protocol.Read8000
  rw [h]

/-- The status read against a scripted outcome. -/
theorem Read8000_cons (p : Protocol) (mode : Nat) (o : Option Nat) (rest : List (Option Nat))
    (h : p.status = o :: rest) :
    p.Read8000 mode
      = (o.isSome, (o.map toByte).getD mode,
          { p with status := rest, trace := p.trace ++ [ProtoOp.Read8000 (o.map toByte)] }) := by
  unfold Protocol.Read8000
  rw [h]
  cases o <;> rfl

/-- A byte store keeps what is below 256. -/
theorem toByte_lt (v : Nat) : toByte v < 256 := Nat.mod_lt _ (by decide)

/-- A byte store is idempotent. -/
theorem toByte_toByte (v : Nat) : toByte (toByte v) = toByte v := Nat.mod_mod _ _

/-- The loop of `setCalib` stops at the first round `k` whose re-read delivers the expected
byte: it has then run `k + 1` rounds and reports the calibration bit of the expected byte. -/
theorem setCalibLoop_stop (on' : Bool) (mode2 : Nat) :
    ∀ (n k : Nat) (p : Protocol) (mode1 : Nat) (ret : Int), k < n →
      delivers mode2 (outcomeAt p.status k) = true →
      (∀ j < k, delivers mode2 (outcomeAt p.status j) = false) →
      DistoX.setCalibLoop on' mode2 n p mode1 ret
        = ((if (mode2 &&& STATUS_CALIB) != 0 then 1 else 0),
            { p with status := p.status.drop (k + 1),
                     trace := p.trace ++
                       sendReadRounds (if on' then 0x31 else 0x30) (k + 1) p.status }) := by
  intro n
  induction n with
  | zero => intro k p mode1 ret hk; omega
  | succ n ih =>
    intro k p mode1 ret hk hacc hpre
    obtain ⟨serial, dq, cq, kq, status, trace⟩ := p
    cases status with
    | nil => simp [outcomeAt, delivers] at hacc
    | cons o s =>
      cases k with
      | zero =>
        cases o with
        | none => simp [outcomeAt, delivers] at hacc
        | some m =>
          have hm : toByte m = mode2 := by simpa [outcomeAt, delivers] using hacc
          simp [DistoX.setCalibLoop, Protocol.SendCommandByte, Protocol.Read8000, hm,
            sendReadRounds]
      | succ k =>
        have h0 : delivers mode2 o = false := by
          simpa [outcomeAt] using hpre 0 (Nat.succ_pos k)
        have hacc2 : delivers mode2 (outcomeAt s k) = true := by
          simpa [outcomeAt] using hacc
        have hpre2 : ∀ j < k, delivers mode2 (outcomeAt s j) = false := by
          intro j hj
          simpa [outcomeAt] using hpre (j + 1) (by omega)
        cases o with
        | none =>
          simp only [DistoX.setCalibLoop, Protocol.SendCommandByte, Protocol.Read8000,
            Bool.false_and, Bool.false_eq_true, if_false]
          rw [ih k _ _ ret (by omega) hacc2 hpre2]
          simp [sendReadRounds]
        | some m =>
          have hm : (toByte m == mode2) = false := by simpa [delivers] using h0
          simp only [DistoX.setCalibLoop, Protocol.SendCommandByte, Protocol.Read8000,
            Bool.true_and, hm, Bool.false_eq_true, if_false]
          rw [ih k _ _ ret (by omega) hacc2 hpre2]
          simp [sendReadRounds]

/-- The loop of `setCalib` runs all its `n` rounds and keeps `ret` when no re-read delivers
the expected byte. -/
theorem setCalibLoop_exhaust (on' : Bool) (mode2 : Nat) :
    ∀ (n : Nat) (p : Protocol) (mode1 : Nat) (ret : Int),
      (∀ j < n, delivers mode2 (outcomeAt p.status j) = false) →
      DistoX.setCalibLoop on' mode2 n p mode1 ret
        = (ret,
            { p with status := p.status.drop n,
                     trace := p.trace ++
                       sendReadRounds (if on' then 0x31 else 0x30) n p.status }) := by
  intro n
  induction n with
  | zero => intro p mode1 ret _; simp [DistoX.setCalibLoop, sendReadRounds]
  | succ n ih =>
    intro p mode1 ret hpre
    obtain ⟨serial, dq, cq, kq, status, trace⟩ := p
    cases status with
    | nil =>
      simp only [DistoX.setCalibLoop, Protocol.SendCommandByte, Protocol.Read8000,
        Bool.false_and, Bool.false_eq_true, if_false]
      rw [ih _ _ ret (by intro j _; simp [outcomeAt, delivers])]
      simp [sendReadRounds]
    | cons o s =>
      have h0 : delivers mode2 o = false := by
        simpa [outcomeAt] using hpre 0 (Nat.succ_pos n)
      have hpre2 : ∀ j < n, delivers mode2 (outcomeAt s j) = false := by
        intro j hj
        simpa [outcomeAt] using hpre (j + 1) (by omega)
      cases o with
      | none =>
        simp only [DistoX.setCalibLoop, Protocol.SendCommandByte, Protocol.Read8000,
          Bool.false_and, Bool.false_eq_true, if_false]
        rw [ih _ _ ret hpre2]
        simp [sendReadRounds]
      | some m =>
        have hm : (toByte m == mode2) = false := by simpa [delivers] using h0
        simp only [DistoX.setCalibLoop, Protocol.SendCommandByte, Protocol.Read8000,
          Bool.true_and, hm, Bool.false_eq_true, if_false]
        rw [ih _ _ ret hpre2]
        simp [sendReadRounds]

/-- Among the first `n` values of a boolean sequence either none holds or there is a first
one that holds. -/
theorem first_true_or_none (f : Nat → Bool) :
    ∀ n : Nat, (∀ j < n, f j = false) ∨ ∃ k < n, f k = true ∧ ∀ j < k, f j = false := by
  intro n
  induction n with
  | zero => left; intro j hj; omega
  | succ n ih =>
    rcases ih with hnone | ⟨k, hk, hf, hpre⟩
    · cases hfn : f n with
      | false =>
        left
        intro j hj
        rcases Nat.lt_succ_iff_lt_or_eq.mp hj with h | h
        · exact hnone j h
        · rw [h]; exact hfn
      | true => exact Or.inr ⟨n, Nat.lt_succ_self n, hfn, hnone⟩
    · exact Or.inr ⟨k, Nat.lt_succ_of_lt hk, hf, hpre⟩

/-- The operations performed by a call that appends `ops` to the trace. -/
theorem performed_append (p q : Protocol) (ops : List ProtoOp)
    (h : q.trace = p.trace ++ ops) : performed p q = ops := by
  simp [performed, h]

/-- The operations performed up to a state built from `p` by appending `ops` to the trace. -/
theorem performed_update (p : Protocol) (serial : Serial) (dq cq : BufferQueue (List Nat))
    (kq : BufferQueue Nat) (status : List (Option Nat)) (ops : List ProtoOp)
    (script : ProtoScript) :
    performed p ⟨serial, dq, cq, kq, status, p.trace ++ ops, script⟩ = ops :=
  performed_append p _ ops rfl

/-- The bytes sent in a concatenation of traces. -/
theorem sentBytes_append (a b : List ProtoOp) :
    sentBytes (a ++ b) = sentBytes a ++ sentBytes b := by
  induction a with
  | nil => rfl
  | cons x t ih => cases x <;> simp [sentBytes, ih]

/-- The status reads in a concatenation of traces. -/
theorem statusReads_append (a b : List ProtoOp) :
    statusReads (a ++ b) = statusReads a ++ statusReads b := by
  induction a with
  | nil => rfl
  | cons x t ih => cases x <;> simp [statusReads, ih]

/-- The rounds of a send-and-read loop send the command byte once per round. -/
theorem sentBytes_sendReadRounds (cmd : Nat) :
    ∀ (j : Nat) (s : List (Option Nat)),
      sentBytes (sendReadRounds cmd j s) = List.replicate j (toByte cmd) := by
  intro j
  induction j with
  | zero => intro s; rfl
  | succ j ih =>
    intro s
    cases s <;> simp [sendReadRounds, sentBytes, ih, List.replicate_succ]

/-- The rounds of a send-and-read loop read the status once per round. -/
theorem statusReads_sendReadRounds_length (cmd : Nat) :
    ∀ (j : Nat) (s : List (Option Nat)),
      (statusReads (sendReadRounds cmd j s)).length = j := by
  intro j
  induction j with
  | zero => intro s; rfl
  | succ j ih =>
    intro s
    cases s <;> simp [sendReadRounds, statusReads, ih]

/-- The last status read of `j + 1` rounds is the outcome number `j` of the script. -/
theorem statusReads_sendReadRounds_succ (cmd : Nat) :
    ∀ (j : Nat) (s : List (Option Nat)),
      statusReads (sendReadRounds cmd (j + 1) s)
        = statusReads (sendReadRounds cmd j s) ++ [(outcomeAt s j).map toByte] := by
  intro j
  induction j with
  | zero => intro s; cases s <;> simp [sendReadRounds, statusReads, outcomeAt]
  | succ j ih =>
    intro s
    have e1 : ∀ (b : Nat) (r : Option Nat) (t : List ProtoOp),
        statusReads (ProtoOp.SendCommandByte b :: ProtoOp.Read8000 r :: t)
          = r :: statusReads t := fun _ _ _ => rfl
    cases s with
    | nil =>
      show statusReads (ProtoOp.SendCommandByte _ :: ProtoOp.Read8000 _ ::
          sendReadRounds cmd (j + 1) [])
        = statusReads (ProtoOp.SendCommandByte _ :: ProtoOp.Read8000 _ ::
          sendReadRounds cmd j []) ++ _
      rw [e1, e1, ih []]
      simp [outcomeAt]
    | cons o s =>
      show statusReads (ProtoOp.SendCommandByte _ :: ProtoOp.Read8000 _ ::
          sendReadRounds cmd (j + 1) s)
        = statusReads (ProtoOp.SendCommandByte _ :: ProtoOp.Read8000 _ ::
          sendReadRounds cmd j s) ++ _
      rw [e1, e1, ih s]
      simp [outcomeAt]

/-- The last successful status read of a trace whose status reads end with a success. -/
theorem lastStatus_of_statusReads (t : List ProtoOp) (l : List (Option Nat)) (x : Nat)
    (h : statusReads t = l ++ [some x]) : lastStatus t = some x := by
  simp [lastStatus, h]

/-- Bit 3 of a number, tested with the mask 0x08. -/
theorem and_STATUS_CALIB (x : Nat) : ((x &&& STATUS_CALIB) != 0) = x.testBit 3 := by
  have h8 : STATUS_CALIB = 2 ^ 3 := rfl
  rw [h8, Nat.and_two_pow]
  cases x.testBit 3 <;> simp

/-- Flipping bit 3 inverts the calibration test. -/
theorem xor_STATUS_CALIB_test (m : Nat) :
    (((m ^^^ STATUS_CALIB) &&& STATUS_CALIB) != 0) = !((m &&& STATUS_CALIB) != 0) := by
  rw [and_STATUS_CALIB, and_STATUS_CALIB, Nat.testBit_xor]
  have : Nat.testBit STATUS_CALIB 3 = true := by decide
  rw [this]
  cases m.testBit 3 <;> rfl

/-- The exclusive or with the mask 0x08 flips bit 3 and keeps every other bit. -/
theorem xor_STATUS_CALIB_testBit (m i : Nat) :
    (m ^^^ STATUS_CALIB).testBit i = (if i = 3 then !m.testBit i else m.testBit i) := by
  rw [Nat.testBit_xor]
  have h8 : STATUS_CALIB = 2 ^ 3 := rfl
  rw [h8, Nat.testBit_two_pow]
  by_cases h : i = 3
  · subst h; simp
  · have : ¬ (3 = i) := fun h2 => h h2.symm
    simp [h, this]

/-- Flipping bit 3 of a byte gives a byte. -/
theorem toByte_xor_STATUS_CALIB (m : Nat) :
    toByte (toByte m ^^^ STATUS_CALIB) = toByte m ^^^ STATUS_CALIB := by
  unfold toByte
  apply Nat.mod_eq_of_lt
  have h1 : m % 256 < 2 ^ 8 := Nat.mod_lt _ (by decide)
  have h2 : STATUS_CALIB < 2 ^ 8 := by decide
  exact Nat.xor_lt_two_pow h1 h2

/-- A delivering outcome, once stored, is the expected byte. -/
theorem map_toByte_of_delivers (e : Nat) (o : Option Nat) (h : delivers e o = true) :
    o.map toByte = some e := by
  cases o with
  | none => simp [delivers] at h
  | some m => simpa [delivers] using h

/-! ### `setCalib` path by path -/

/-- When `Open` fails `setCalib` returns -1 having done nothing else. -/
theorem setCalib_open_fails (p : Protocol) (on' : Bool) (hopen : p.serial.opens = false) :
    DistoX.setCalib p on' = (-1, { p with trace := p.trace ++ [ProtoOp.Open false] }) := by
  simp [DistoX.setCalib, Protocol.Open, Serial.Open, hopen]

/-- When the initial status read fails `setCalib` returns -1 and sends nothing. -/
theorem setCalib_read_fails (p : Protocol) (on' : Bool) (hopen : p.serial.opens = true)
    (hs : outcomeAt p.status 0 = none) :
    DistoX.setCalib p on'
      = (-1, { p with status := p.status.tail,
                      trace := p.trace ++
                        [ProtoOp.Open true, ProtoOp.Read8000 none, ProtoOp.Close] }) := by
  obtain ⟨serial, dq, cq, kq, status, trace⟩ := p
  simp only at hopen
  cases status with
  | nil =>
    simp [DistoX.setCalib, Protocol.Open, Serial.Open, hopen, Protocol.Read8000,
      Protocol.Close, Serial.Close]
  | cons o s =>
    have ho : o = none := by simpa [outcomeAt] using hs
    subst ho
    simp [DistoX.setCalib, Protocol.Open, Serial.Open, hopen, Protocol.Read8000,
      Protocol.Close, Serial.Close]

/-- When the calibration bit already equals the requested state `setCalib` reads the status
once, sends nothing and reports the state. -/
theorem setCalib_settled (p : Protocol) (on' : Bool) (m : Nat) (rest : List (Option Nat))
    (hopen : p.serial.opens = true) (hs : p.status = some m :: rest)
    (hbit : ((toByte m &&& STATUS_CALIB) != 0) = on') :
    DistoX.setCalib p on'
      = ((if on' then 1 else 0),
          { p with status := rest,
                   trace := p.trace ++
                     [ProtoOp.Open true, ProtoOp.Read8000 (some (toByte m)),
                      ProtoOp.Close] }) := by
  obtain ⟨serial, dq, cq, kq, status, trace⟩ := p
  simp only at hopen hs
  subst hs
  subst hbit
  simp [DistoX.setCalib, Protocol.Open, Serial.Open, hopen, Protocol.Read8000,
    Protocol.Close, Serial.Close]

/-- When the calibration bit differs from the requested state `setCalib` runs its loop with
the expected byte "status with bit 0x08 flipped" and closes. -/
theorem setCalib_toggle (p : Protocol) (on' : Bool) (m : Nat) (rest : List (Option Nat))
    (hopen : p.serial.opens = true) (hs : p.status = some m :: rest)
    (hbit : ((toByte m &&& STATUS_CALIB) != 0) = !on') :
    DistoX.setCalib p on'
      = ((DistoX.setCalibLoop on' (toByte m ^^^ STATUS_CALIB) 3
            { p with status := rest,
                     trace := p.trace ++
                       [ProtoOp.Open true, ProtoOp.Read8000 (some (toByte m))] } 0 (-1)).1,
         (DistoX.setCalibLoop on' (toByte m ^^^ STATUS_CALIB) 3
            { p with status := rest,
                     trace := p.trace ++
                       [ProtoOp.Open true, ProtoOp.Read8000 (some (toByte m))] }
            0 (-1)).2.Close) := by
  obtain ⟨serial, dq, cq, kq, status, trace⟩ := p
  simp only at hopen hs
  subst hs
  have hne : (((toByte m &&& STATUS_CALIB) != 0) != on') = true := by
    rw [hbit]; cases on' <;> rfl
  simp [DistoX.setCalib, Protocol.Open, Serial.Open, hopen, Protocol.Read8000, hne,
    toByte_xor_STATUS_CALIB]

/-- On the toggle path, when round `k < 3` is the first whose re-read delivers the expected
byte, `setCalib` has run `k + 1` rounds and reports the requested state. -/
theorem setCalib_toggle_stop (p : Protocol) (on' : Bool) (m : Nat) (rest : List (Option Nat))
    (k : Nat) (hopen : p.serial.opens = true) (hs : p.status = some m :: rest)
    (hbit : ((toByte m &&& STATUS_CALIB) != 0) = !on') (hk : k < 3)
    (hacc : delivers (toByte m ^^^ STATUS_CALIB) (outcomeAt rest k) = true)
    (hpre : ∀ j < k, delivers (toByte m ^^^ STATUS_CALIB) (outcomeAt rest j) = false) :
    DistoX.setCalib p on'
      = ((if on' then 1 else 0),
          { p with status := rest.drop (k + 1),
                   trace := p.trace ++
                     ([ProtoOp.Open true, ProtoOp.Read8000 (some (toByte m))] ++
                      sendReadRounds (if on' then 0x31 else 0x30) (k + 1) rest ++
                      [ProtoOp.Close]) }) := by
  rw [setCalib_toggle p on' m rest hopen hs hbit,
    setCalibLoop_stop on' _ 3 k _ 0 (-1) hk hacc hpre]
  have hb : (((toByte m ^^^ STATUS_CALIB) &&& STATUS_CALIB) != 0) = on' := by
    rw [xor_STATUS_CALIB_test, hbit]; cases on' <;> rfl
  simp [hb, Protocol.Close, Serial.Close]

/-- On the toggle path, when none of the three re-reads delivers the expected byte,
`setCalib` has run three rounds and returns -1. -/
theorem setCalib_toggle_exhaust (p : Protocol) (on' : Bool) (m : Nat)
    (rest : List (Option Nat))
    (hopen : p.serial.opens = true) (hs : p.status = some m :: rest)
    (hbit : ((toByte m &&& STATUS_CALIB) != 0) = !on')
    (hnone : ∀ j < 3, delivers (toByte m ^^^ STATUS_CALIB) (outcomeAt rest j) = false) :
    DistoX.setCalib p on'
      = (-1,
          { p with status := rest.drop 3,
                   trace := p.trace ++
                     ([ProtoOp.Open true, ProtoOp.Read8000 (some (toByte m))] ++
                      sendReadRounds (if on' then 0x31 else 0x30) 3 rest ++
                      [ProtoOp.Close]) }) := by
  rw [setCalib_toggle p on' m rest hopen hs hbit,
    setCalibLoop_exhaust on' _ 3 _ 0 (-1) hnone]
  simp [Protocol.Close, Serial.Close]

/-- The status reads of a toggle that stops at round `k`: the initial read, `k` re-reads and
the re-read that delivers the expected byte. -/
theorem statusReads_toggle_stop (cmd mb e k : Nat) (rest : List (Option Nat))
    (hacc : delivers e (outcomeAt rest k) = true) :
    statusReads ([ProtoOp.Open true, ProtoOp.Read8000 (some mb)] ++
        sendReadRounds cmd (k + 1) rest ++ [ProtoOp.Close])
      = some mb :: (statusReads (sendReadRounds cmd k rest) ++ [some e]) := by
  simp [statusReads_append, statusReads, statusReads_sendReadRounds_succ,
    map_toByte_of_delivers e _ hacc]

/-- The bytes sent by a toggle of `j` rounds. -/
theorem sentBytes_toggle (cmd mb j : Nat) (rest : List (Option Nat)) :
    sentBytes ([ProtoOp.Open true, ProtoOp.Read8000 (some mb)] ++
        sendReadRounds cmd j rest ++ [ProtoOp.Close])
      = List.replicate j (toByte cmd) := by
  simp [sentBytes_append, sentBytes, sentBytes_sendReadRounds]

/-- A call of `setCalib(true)` that finds the calibration bit set in the status byte sends
no command byte, whether or not `Open` succeeds. -/
theorem setCalib_true_sends_nothing (q : Protocol) (x : Nat) (rest : List (Option Nat))
    (hs : q.status = some x :: rest) (hx : ((toByte x &&& STATUS_CALIB) != 0) = true) :
    sentBytes (performed q (DistoX.setCalib q true).2) = [] := by
  cases hopen : q.serial.opens with
  | false =>
    rw [setCalib_open_fails q true hopen, performed_append q _ [ProtoOp.Open false] rfl]
    rfl
  | true =>
    rw [setCalib_settled q true x rest hopen hs hx, performed_append q _ _ rfl]
    rfl

/-- A call of `setCalib(true)` that returns 1 has read, as its last successful status read, a
byte with the calibration bit set. -/
theorem setCalib_true_last_status (p : Protocol) (h : (DistoX.setCalib p true).1 = 1) :
    ∃ last, lastStatus (performed p (DistoX.setCalib p true).2) = some last ∧
      toByte last = last ∧ ((last &&& STATUS_CALIB) != 0) = true := by
  cases hopen : p.serial.opens with
  | false => rw [setCalib_open_fails p true hopen] at h; simp at h
  | true =>
    cases hs : p.status with
    | nil =>
      rw [setCalib_read_fails p true hopen (by simp [hs, outcomeAt])] at h; simp at h
    | cons o rest =>
      cases o with
      | none =>
        rw [setCalib_read_fails p true hopen (by simp [hs, outcomeAt])] at h; simp at h
      | some m =>
        cases hb : ((toByte m &&& STATUS_CALIB) != 0) with
        | true =>
          refine ⟨toByte m, ?_, toByte_toByte m, hb⟩
          rw [setCalib_settled p true m rest hopen hs hb, performed_append p _ _ rfl]
          simp [lastStatus, statusReads]
        | false =>
          rcases first_true_or_none
              (fun j => delivers (toByte m ^^^ STATUS_CALIB) (outcomeAt rest j)) 3 with
            hnone | ⟨k, hk, hacc, hpre⟩
          · rw [setCalib_toggle_exhaust p true m rest hopen hs hb hnone] at h; simp at h
          · refine ⟨toByte m ^^^ STATUS_CALIB, ?_, toByte_xor_STATUS_CALIB m, ?_⟩
            · rw [setCalib_toggle_stop p true m rest k hopen hs hb hk hacc hpre,
                performed_append p _ _ rfl]
              exact lastStatus_of_statusReads _
                (some (toByte m) :: statusReads (sendReadRounds _ k rest)) _
                (statusReads_toggle_stop _ _ _ _ _ hacc)
            · rw [xor_STATUS_CALIB_test, hb]; rfl

/-- C4: when the status byte read by `setCalib(on)` already has its calibration bit equal to
`on`, the call performs exactly Open, one status read and Close (no command byte, no second
status read) and returns 1 if `on` else 0. Consequently, after a `setCalib(true)` that
returned 1, a second `setCalib(true)` to which the device reports the same status byte as
last time sends no command byte. -/
theorem setCalib_idempotent (p : Protocol) (on' : Bool) (m : Nat) (rest : List (Option Nat))
    (hopen : p.serial.opens = true) (hs : p.status = some m :: rest)
    (hbit : ((toByte m &&& STATUS_CALIB) != 0) = on') :
    (DistoX.setCalib p on').1 = (if on' then 1 else 0) ∧
    performed p (DistoX.setCalib p on').2
      = [ProtoOp.Open true, ProtoOp.Read8000 (some (toByte m)), ProtoOp.Close] ∧
    sentBytes (performed p (DistoX.setCalib p on').2) = [] ∧
    (∀ p1 : Protocol, (DistoX.setCalib p1 true).1 = 1 →
      ∃ last, lastStatus (performed p1 (DistoX.setCalib p1 true).2) = some last ∧
        ∀ (p2 : Protocol) (rest2 : List (Option Nat)), p2.status = some last :: rest2 →
          sentBytes (performed p2 (DistoX.setCalib p2 true).2) = []) := by
  rw [setCalib_settled p on' m rest hopen hs hbit, performed_append p _ _ rfl]
  refine ⟨rfl, rfl, rfl, ?_⟩
  intro p1 h1
  obtain ⟨last, hlast, hbyte, hset⟩ := setCalib_true_last_status p1 h1
  refine ⟨last, hlast, ?_⟩
  intro p2 rest2 hs2
  exact setCalib_true_sends_nothing p2 last rest2 hs2 (by rw [hbyte]; exact hset)

/-- Witness of C4: the device reports 0x0a (calibration bit set) and `setCalib(true)` is
asked. -/
theorem setCalib_idempotent_witness :
    (DistoX.setCalib { status := [some 0x0a] } true).1 = (if true then 1 else 0) ∧
    performed { status := [some 0x0a] } (DistoX.setCalib { status := [some 0x0a] } true).2
      = [ProtoOp.Open true, ProtoOp.Read8000 (some (toByte 0x0a)), ProtoOp.Close] ∧
    sentBytes (performed { status := [some 0x0a] }
      (DistoX.setCalib { status := [some 0x0a] } true).2) = [] ∧
    (∀ p1 : Protocol, (DistoX.setCalib p1 true).1 = 1 →
      ∃ last, lastStatus (performed p1 (DistoX.setCalib p1 true).2) = some last ∧
        ∀ (p2 : Protocol) (rest2 : List (Option Nat)), p2.status = some last :: rest2 →
          sentBytes (performed p2 (DistoX.setCalib p2 true).2) = []) :=
  setCalib_idempotent { status := [some 0x0a] } true 0x0a [] rfl rfl (by decide)

/-- The command byte of `setCalib` is a byte. -/
theorem toByte_calib_command (on' : Bool) :
    toByte (if on' then 0x31 else 0x30) = (if on' then 0x31 else 0x30) := by
  cases on' <;> rfl

/-- C5: every non-negative result of `setCalib(on)` equals (on ? 1 : 0); when such a result
comes after a command was sent, the status reads of the call are the initial read of a byte
`m`, then re-reads, the last of which succeeded with exactly `m` with bit 0x08 flipped and
every other bit identical; and when each of the three re-reads fails or delivers a byte other
than that one (for instance with another bit changed too), the result is -1. -/
theorem setCalib_verified (p : Protocol) (on' : Bool) :
    (0 ≤ (DistoX.setCalib p on').1 → (DistoX.setCalib p on').1 = (if on' then 1 else 0)) ∧
    (0 ≤ (DistoX.setCalib p on').1 →
      sentBytes (performed p (DistoX.setCalib p on').2) ≠ [] →
      ∃ (m m1 : Nat) (mid : List (Option Nat)),
        statusReads (performed p (DistoX.setCalib p on').2) = some m :: (mid ++ [some m1]) ∧
        lastStatus (performed p (DistoX.setCalib p on').2) = some m1 ∧
        m1 = m ^^^ STATUS_CALIB ∧
        ∀ i, m1.testBit i = (if i = 3 then !m.testBit i else m.testBit i)) ∧
    (∀ (m : Nat) (rest : List (Option Nat)), p.serial.opens = true →
      p.status = some m :: rest → ((toByte m &&& STATUS_CALIB) != 0) = !on' →
      (∀ k < 3, ∀ m1, outcomeAt rest k = some m1 → toByte m1 ≠ toByte m ^^^ STATUS_CALIB) →
      (DistoX.setCalib p on').1 = -1) := by
  have hthird : ∀ (m : Nat) (rest : List (Option Nat)), p.serial.opens = true →
      p.status = some m :: rest → ((toByte m &&& STATUS_CALIB) != 0) = !on' →
      (∀ k < 3, ∀ m1, outcomeAt rest k = some m1 → toByte m1 ≠ toByte m ^^^ STATUS_CALIB) →
      (DistoX.setCalib p on').1 = -1 := by
    intro m rest hopen hs hbit hno
    have hnone : ∀ j < 3, delivers (toByte m ^^^ STATUS_CALIB) (outcomeAt rest j) = false := by
      intro j hj
      cases ho : outcomeAt rest j with
      | none => rfl
      | some m1 => simpa [delivers] using hno j hj m1 ho
    rw [setCalib_toggle_exhaust p on' m rest hopen hs hbit hnone]
  refine ⟨?_, ?_, hthird⟩
  all_goals
    cases hopen : p.serial.opens with
    | false =>
      rw [setCalib_open_fails p on' hopen]
      intro h
      simp at h
    | true =>
      cases hs : p.status with
      | nil =>
        rw [setCalib_read_fails p on' hopen (by simp [hs, outcomeAt])]
        intro h
        simp at h
      | cons o rest =>
        cases o with
        | none =>
          rw [setCalib_read_fails p on' hopen (by simp [hs, outcomeAt])]
          intro h
          simp at h
        | some m =>
          by_cases hb : ((toByte m &&& STATUS_CALIB) != 0) = on'
          · rw [setCalib_settled p on' m rest hopen hs hb]
            try simp only [performed_update]
            simp [sentBytes]
          · have hb2 : ((toByte m &&& STATUS_CALIB) != 0) = !on' := by
              cases on' <;> simp_all
            rcases first_true_or_none
                (fun j => delivers (toByte m ^^^ STATUS_CALIB) (outcomeAt rest j)) 3 with
              hnone | ⟨k, hk, hacc, hpre⟩
            · rw [setCalib_toggle_exhaust p on' m rest hopen hs hb2 hnone]
              intro h
              simp at h
            · rw [setCalib_toggle_stop p on' m rest k hopen hs hb2 hk hacc hpre]
              try simp only [performed_update]
              first
                | (intro _; first | rfl | trivial)
                | (intro _ _
                   exact ⟨toByte m, toByte m ^^^ STATUS_CALIB,
                     statusReads (sendReadRounds _ k rest),
                     statusReads_toggle_stop _ _ _ _ _ hacc,
                     lastStatus_of_statusReads _
                       (some (toByte m) :: statusReads (sendReadRounds _ k rest)) _
                       (statusReads_toggle_stop _ _ _ _ _ hacc),
                     rfl, xor_STATUS_CALIB_testBit (toByte m)⟩)

/-- Witness of C5: status 0x02, a failed re-read, then a re-read of 0x0a. -/
theorem setCalib_verified_witness :
    (DistoX.setCalib { status := [some 0x02, none, some 0x0a] } true).1
      = (if true then 1 else 0) ∧
    ∃ (m m1 : Nat) (mid : List (Option Nat)),
      statusReads (performed { status := [some 0x02, none, some 0x0a] }
        (DistoX.setCalib { status := [some 0x02, none, some 0x0a] } true).2)
        = some m :: (mid ++ [some m1]) ∧
      lastStatus (performed { status := [some 0x02, none, some 0x0a] }
        (DistoX.setCalib { status := [some 0x02, none, some 0x0a] } true).2) = some m1 ∧
      m1 = m ^^^ STATUS_CALIB ∧
      ∀ i, m1.testBit i = (if i = 3 then !m.testBit i else m.testBit i) :=
  ⟨(setCalib_verified { status := [some 0x02, none, some 0x0a] } true).1 (by decide),
   (setCalib_verified { status := [some 0x02, none, some 0x0a] } true).2.1
     (by decide) (by decide)⟩

/-- C6: when the initial status read of `setCalib(on)` succeeds with the calibration bit
different from `on`, the call sends between 1 and 3 command bytes, each 0x31 if `on` else
0x30; if round `k < 3` is the first whose re-read delivers the expected byte it stops there,
after `k + 1` commands and `k + 1` re-reads, with result (on ? 1 : 0); if none of the three
re-reads delivers it, three commands were sent and the result is -1. When the initial status
read fails the result is -1 and nothing is sent. -/
theorem setCalib_retry (p : Protocol) (on' : Bool) (m : Nat) (rest : List (Option Nat))
    (hopen : p.serial.opens = true) (hs : p.status = some m :: rest)
    (hbit : ((toByte m &&& STATUS_CALIB) != 0) = !on') :
    (1 ≤ (sentBytes (performed p (DistoX.setCalib p on').2)).length ∧
      (sentBytes (performed p (DistoX.setCalib p on').2)).length ≤ 3 ∧
      ∀ b ∈ sentBytes (performed p (DistoX.setCalib p on').2),
        b = (if on' then 0x31 else 0x30)) ∧
    (∀ k < 3, delivers (toByte m ^^^ STATUS_CALIB) (outcomeAt rest k) = true →
      (∀ j < k, delivers (toByte m ^^^ STATUS_CALIB) (outcomeAt rest j) = false) →
      (DistoX.setCalib p on').1 = (if on' then 1 else 0) ∧
      sentBytes (performed p (DistoX.setCalib p on').2)
        = List.replicate (k + 1) (if on' then 0x31 else 0x30) ∧
      (statusReads (performed p (DistoX.setCalib p on').2)).length = 1 + (k + 1) ∧
      (DistoX.setCalib p on').2.status = rest.drop (k + 1)) ∧
    ((∀ k < 3, delivers (toByte m ^^^ STATUS_CALIB) (outcomeAt rest k) = false) →
      (DistoX.setCalib p on').1 = -1 ∧
      sentBytes (performed p (DistoX.setCalib p on').2)
        = List.replicate 3 (if on' then 0x31 else 0x30)) ∧
    (∀ q : Protocol, q.serial.opens = true → outcomeAt q.status 0 = none →
      (DistoX.setCalib q on').1 = -1 ∧
      sentBytes (performed q (DistoX.setCalib q on').2) = []) := by
  have hstop : ∀ k < 3, delivers (toByte m ^^^ STATUS_CALIB) (outcomeAt rest k) = true →
      (∀ j < k, delivers (toByte m ^^^ STATUS_CALIB) (outcomeAt rest j) = false) →
      (DistoX.setCalib p on').1 = (if on' then 1 else 0) ∧
      sentBytes (performed p (DistoX.setCalib p on').2)
        = List.replicate (k + 1) (if on' then 0x31 else 0x30) ∧
      (statusReads (performed p (DistoX.setCalib p on').2)).length = 1 + (k + 1) ∧
      (DistoX.setCalib p on').2.status = rest.drop (k + 1) := by
    intro k hk hacc hpre
    rw [setCalib_toggle_stop p on' m rest k hopen hs hbit hk hacc hpre]
    rw [performed_update]
    refine ⟨rfl, ?_, ?_, rfl⟩
    · rw [sentBytes_toggle, toByte_calib_command]
    · rw [statusReads_toggle_stop _ _ _ _ _ hacc]
      simp [statusReads_sendReadRounds_length]
      omega
  have hexh : (∀ k < 3, delivers (toByte m ^^^ STATUS_CALIB) (outcomeAt rest k) = false) →
      (DistoX.setCalib p on').1 = -1 ∧
      sentBytes (performed p (DistoX.setCalib p on').2)
        = List.replicate 3 (if on' then 0x31 else 0x30) := by
    intro hnone
    rw [setCalib_toggle_exhaust p on' m rest hopen hs hbit hnone]
    rw [performed_update]
    refine ⟨rfl, ?_⟩
    rw [sentBytes_toggle, toByte_calib_command]
  refine ⟨?_, hstop, hexh, ?_⟩
  · rcases first_true_or_none
        (fun j => delivers (toByte m ^^^ STATUS_CALIB) (outcomeAt rest j)) 3 with
      hnone | ⟨k, hk, hacc, hpre⟩
    · rw [(hexh hnone).2]
      refine ⟨by simp, by simp, ?_⟩
      intro b hb
      exact List.eq_of_mem_replicate hb
    · rw [(hstop k hk hacc hpre).2.1]
      refine ⟨by simp, by simp; omega, ?_⟩
      intro b hb
      exact List.eq_of_mem_replicate hb
  · intro q hq hfail
    rw [setCalib_read_fails q on' hq hfail]
    rw [performed_update]
    exact ⟨rfl, rfl⟩

/-- Witness of C6: status 0x02, a failed re-read, then a re-read of 0x0a, asked to turn
calibration on. -/
theorem setCalib_retry_witness :
    (1 ≤ (sentBytes (performed { status := [some 0x02, none, some 0x0a] }
        (DistoX.setCalib { status := [some 0x02, none, some 0x0a] } true).2)).length ∧
      (sentBytes (performed { status := [some 0x02, none, some 0x0a] }
        (DistoX.setCalib { status := [some 0x02, none, some 0x0a] } true).2)).length ≤ 3 ∧
      ∀ b ∈ sentBytes (performed { status := [some 0x02, none, some 0x0a] }
        (DistoX.setCalib { status := [some 0x02, none, some 0x0a] } true).2),
        b = (if true then 0x31 else 0x30)) ∧
    ((DistoX.setCalib { status := [some 0x02, none, some 0x0a] } true).1
        = (if true then 1 else 0) ∧
      sentBytes (performed { status := [some 0x02, none, some 0x0a] }
        (DistoX.setCalib { status := [some 0x02, none, some 0x0a] } true).2)
        = List.replicate (1 + 1) (if true then 0x31 else 0x30) ∧
      (statusReads (performed { status := [some 0x02, none, some 0x0a] }
        (DistoX.setCalib { status := [some 0x02, none, some 0x0a] } true).2)).length
        = 1 + (1 + 1) ∧
      (DistoX.setCalib { status := [some 0x02, none, some 0x0a] } true).2.status
        = [none, some 0x0a].drop (1 + 1)) :=
  ⟨(setCalib_retry { status := [some 0x02, none, some 0x0a] } true 0x02 [none, some 0x0a]
      rfl rfl (by decide)).1,
   (setCalib_retry { status := [some 0x02, none, some 0x0a] } true 0x02 [none, some 0x0a]
      rfl rfl (by decide)).2.1 1 (by decide) (by decide) (by decide)⟩

/-! ### `readMode` -/

/-- A property of the numbers below 3, spelled out. -/
theorem forall_lt_three (P : Nat → Prop) : (∀ k < 3, P k) ↔ P 0 ∧ P 1 ∧ P 2 := by
  constructor
  · intro h
    exact ⟨h 0 (by decide), h 1 (by decide), h 2 (by decide)⟩
  · rintro ⟨h0, h1, h2⟩ k hk
    match k, hk with
    | 0, _ => exact h0
    | 1, _ => exact h1
    | 2, _ => exact h2

/-- When `Open` fails `readMode` returns -1 having done nothing else. -/
theorem readMode_open_fails (p : Protocol) (hopen : p.serial.opens = false) :
    DistoX.readMode p = (-1, { p with trace := p.trace ++ [ProtoOp.Open false] }) := by
  simp [DistoX.readMode, Protocol.Open, Serial.Open, hopen]

/-- When `Open` succeeds `readMode` reads the status three times and closes; the result is
the byte of the last read that succeeded, -1 when none did. -/
theorem readMode_opened (p : Protocol) (hopen : p.serial.opens = true) :
    DistoX.readMode p
      = (((((outcomeAt p.status 2).orElse fun _ =>
              (outcomeAt p.status 1).orElse fun _ => outcomeAt p.status 0).map
            fun m => (toByte m : Int)).getD (-1)),
          { p with status := p.status.drop 3,
                   trace := p.trace ++
                     [ProtoOp.Open true,
                      ProtoOp.Read8000 ((outcomeAt p.status 0).map toByte),
                      ProtoOp.Read8000 ((outcomeAt p.status 1).map toByte),
                      ProtoOp.Read8000 ((outcomeAt p.status 2).map toByte),
                      ProtoOp.Close] }) := by
  obtain ⟨serial, dq, cq, kq, status, trace⟩ := p
  simp only at hopen
  rcases status with _ | ⟨a, _ | ⟨b, _ | ⟨c, rest⟩⟩⟩
  · simp [DistoX.readMode, DistoX.readModeLoop, Protocol.Open, Serial.Open, hopen,
      Protocol.Read8000, Protocol.Close, Serial.Close, outcomeAt]
  · cases a <;>
      simp [DistoX.readMode, DistoX.readModeLoop, Protocol.Open, Serial.Open, hopen,
        Protocol.Read8000, Protocol.Close, Serial.Close, outcomeAt]
  · cases a <;> cases b <;>
      simp [DistoX.readMode, DistoX.readModeLoop, Protocol.Open, Serial.Open, hopen,
        Protocol.Read8000, Protocol.Close, Serial.Close, outcomeAt]
  · cases a <;> cases b <;> cases c <;>
      simp [DistoX.readMode, DistoX.readModeLoop, Protocol.Open, Serial.Open, hopen,
        Protocol.Read8000, Protocol.Close, Serial.Close, outcomeAt]

/-- The result and the status reads of `readMode` on an open line, from the three
outcomes. -/
theorem readMode_outcomes (o0 o1 o2 : Option Nat) :
    statusReads [ProtoOp.Open true, ProtoOp.Read8000 (o0.map toByte),
        ProtoOp.Read8000 (o1.map toByte), ProtoOp.Read8000 (o2.map toByte), ProtoOp.Close]
      = [o0.map toByte, o1.map toByte, o2.map toByte] ∧
    (((o2.orElse fun _ => o1.orElse fun _ => o0).map fun m => (toByte m : Int)).getD (-1))
      = ((lastStatus [ProtoOp.Open true, ProtoOp.Read8000 (o0.map toByte),
          ProtoOp.Read8000 (o1.map toByte), ProtoOp.Read8000 (o2.map toByte),
          ProtoOp.Close]).map fun m => (m : Int)).getD (-1) ∧
    (∀ m, lastStatus [ProtoOp.Open true, ProtoOp.Read8000 (o0.map toByte),
          ProtoOp.Read8000 (o1.map toByte), ProtoOp.Read8000 (o2.map toByte),
          ProtoOp.Close] = some m → m < 256) ∧
    ((((o2.orElse fun _ => o1.orElse fun _ => o0).map fun m => (toByte m : Int)).getD (-1))
      = -1 ↔ o0 = none ∧ o1 = none ∧ o2 = none) := by
  have hb : ∀ x : Nat, ¬ ((toByte x : Int) = -1) := by
    intro x h
    have : (0 : Int) ≤ (toByte x : Int) := Int.ofNat_nonneg _
    omega
  cases o0 <;> cases o1 <;> cases o2 <;>
    simp [statusReads, lastStatus, toByte_lt, hb]

/-- C9: when `Open` succeeds `readMode` issues exactly three status reads (so at most 3),
those of the next three scripted outcomes, and returns the byte, a value in 0..255, delivered
by the last of them that succeeded, -1 when none did; for every protocol state it returns -1
exactly when `Open` fails or each of the three reads fails. -/
theorem readMode_last_success (p : Protocol) (hopen : p.serial.opens = true) :
    (statusReads (performed p (DistoX.readMode p).2)).length ≤ 3 ∧
    statusReads (performed p (DistoX.readMode p).2)
      = [(outcomeAt p.status 0).map toByte, (outcomeAt p.status 1).map toByte,
         (outcomeAt p.status 2).map toByte] ∧
    (DistoX.readMode p).1
      = ((lastStatus (performed p (DistoX.readMode p).2)).map fun m => (m : Int)).getD (-1) ∧
    (∀ m, lastStatus (performed p (DistoX.readMode p).2) = some m → m < 256) ∧
    (∀ q : Protocol, (DistoX.readMode q).1 = -1 ↔
      (q.serial.opens = false ∨ ∀ k < 3, outcomeAt q.status k = none)) := by
  have h := readMode_outcomes (outcomeAt p.status 0) (outcomeAt p.status 1)
    (outcomeAt p.status 2)
  rw [readMode_opened p hopen, performed_update]
  refine ⟨by rw [h.1]; simp, h.1, h.2.1, h.2.2.1, ?_⟩
  intro q
  cases hq : q.serial.opens with
  | false =>
    rw [readMode_open_fails q hq]
    simp
  | true =>
    rw [readMode_opened q hq, forall_lt_three]
    simpa using (readMode_outcomes (outcomeAt q.status 0) (outcomeAt q.status 1)
      (outcomeAt q.status 2)).2.2.2

/-- Witness of C9: the reads deliver 0x0a, fail, deliver 0x1a; the result is 0x1a. -/
theorem readMode_last_success_witness :
    (DistoX.readMode { status := [some 0x0a, none, some 0x1a] }).1 = 0x1a ∧
    (statusReads (performed { status := [some 0x0a, none, some 0x1a] }
      (DistoX.readMode { status := [some 0x0a, none, some 0x1a] }).2)).length ≤ 3 :=
  ⟨(readMode_last_success { status := [some 0x0a, none, some 0x1a] } rfl).2.2.1.trans
      (by decide),
   (readMode_last_success { status := [some 0x0a, none, some 0x1a] } rfl).1⟩

/-! ### `setSilent` and `toggleCalib` on particular devices -/

/-- C7 (behaviour of the code at the failing input): a device that reports the status byte
0x10 at every read is in silent mode (`IS_STATUS_SILENT`), yet `setSilent(true)` does not
return at once: it sends the command byte 0x33 three times, never reads the byte 0x00 it
expects, and returns -1. With the status byte 0x00, whose silent bit differs from the
requested state, it sends nothing. -/
theorem setSilent_sends_when_silent :
    IS_STATUS_SILENT 0x10 = true ∧
    sentBytes (performed { status := [some 0x10, some 0x10, some 0x10, some 0x10] }
      (DistoX.setSilent { status := [some 0x10, some 0x10, some 0x10, some 0x10] } true).2)
      = [0x33, 0x33, 0x33] ∧
    (DistoX.setSilent { status := [some 0x10, some 0x10, some 0x10, some 0x10] } true).1
      = -1 ∧
    IS_STATUS_SILENT 0x00 = false ∧
    sentBytes (performed { status := [some 0x00, some 0x10] }
      (DistoX.setSilent { status := [some 0x00, some 0x10] } true).2) = [] := by
  decide

/-- C8 (behaviour of the code at the failing input): on the no-op path the result of
`setSilent` is the opposite of the silent bit of the status byte it read: with the status
byte 0x00 (silent bit clear) `setSilent(true)` returns 1, and with the status byte 0x10
(silent bit set) `setSilent(false)` returns 0; no command is sent in either call. -/
theorem setSilent_reports_opposite :
    (DistoX.setSilent { status := [some 0x00] } true).1 = 1 ∧
    lastStatus (performed { status := [some 0x00] }
      (DistoX.setSilent { status := [some 0x00] } true).2) = some 0x00 ∧
    IS_STATUS_SILENT 0x00 = false ∧
    (DistoX.setSilent { status := [some 0x10] } false).1 = 0 ∧
    lastStatus (performed { status := [some 0x10] }
      (DistoX.setSilent { status := [some 0x10] } false).2) = some 0x10 ∧
    IS_STATUS_SILENT 0x10 = true ∧
    sentBytes (performed { status := [some 0x00] }
      (DistoX.setSilent { status := [some 0x00] } true).2) = [] ∧
    sentBytes (performed { status := [some 0x10] }
      (DistoX.setSilent { status := [some 0x10] } false).2) = [] := by
  decide

/-- C10 (behaviour of the code at the failing input): the device reports the status byte
0x08 and then every re-read fails; `toggleCalib` sends 0x30 three times, no re-read succeeds,
and it returns 0, not -1. -/
theorem toggleCalib_unverified_success :
    (DistoX.toggleCalib { status := [some 0x08] }).1 = 0 ∧
    statusReads (performed { status := [some 0x08] }
      (DistoX.toggleCalib { status := [some 0x08] }).2) = [some 0x08, none, none, none] ∧
    sentBytes (performed { status := [some 0x08] }
      (DistoX.toggleCalib { status := [some 0x08] }).2) = [0x30, 0x30, 0x30] := by
  decide

/-! ### Unsupported toggles -/

/-- C11: for every argument, `setGrad` and `setCompass` return -1 and leave the protocol
object exactly as it was: no operation is performed on it (no Open, no write, no read, no
Close), the serial line and the queues are untouched. -/
theorem setGrad_setCompass_unsupported (p : Protocol) (on' : Bool) :
    (DistoX.setGrad p on').1 = -1 ∧ (DistoX.setGrad p on').2 = p ∧
    performed p (DistoX.setGrad p on').2 = [] ∧
    (DistoX.setCompass p on').1 = -1 ∧ (DistoX.setCompass p on').2 = p ∧
    performed p (DistoX.setCompass p on').2 = [] := by
  simp [DistoX.setGrad, DistoX.setCompass, performed]

/-! ### Angles -/

/-- The wrapping difference is the plain one when nothing wraps. -/
theorem uintSub_of_le (a b : Nat) (hb : b ≤ a) (ha : a < 4294967296) :
    uintSub a b = a - b := by
  unfold uintSub
  omega

/-- The wrapping difference when the subtrahend is the larger. -/
theorem uintSub_of_lt (a b : Nat) (hb : a < b) (hb2 : b < 4294967296) :
    uintSub a b = a + 4294967296 - b := by
  unfold uintSub
  omega

/-- The clino of a raw value below 0x8000. -/
theorem CLINO_DEGREES_low (c : Nat) (hc : c < 0x8000) :
    CLINO_DEGREES c = ((c : ℚ) * 90) / 16384 := by
  unfold CLINO_DEGREES
  rw [if_pos hc]

/-- The clino of a 16-bit raw value from 0x8000 on. -/
theorem CLINO_DEGREES_high (c : Nat) (hc : 0x8000 ≤ c) (hc2 : c < 0x10000) :
    CLINO_DEGREES c = (((c : ℚ) - 65536) * 90) / 16384 := by
  unfold CLINO_DEGREES
  rw [if_neg (by omega), uintSub_of_le 0x10000 c (by omega) (by norm_num),
    Nat.cast_sub (by omega)]
  norm_num
  ring

/-- Counterexample to C14: the raw clino 0x6000 is a 16-bit value and `CLINO_DEGREES` maps
it to 135 degrees, outside (-90, +90]. -/
theorem CLINO_DEGREES_range_counterexample :
    0x6000 < 0x10000 ∧ CLINO_DEGREES 0x6000 = 135 ∧
    ¬ (-90 < CLINO_DEGREES 0x6000 ∧ CLINO_DEGREES 0x6000 ≤ 90) := by
  have h : CLINO_DEGREES 0x6000 = 135 := by
    rw [CLINO_DEGREES_low 0x6000 (by norm_num)]
    norm_num
  refine ⟨by norm_num, h, ?_⟩
  rw [h]
  norm_num

/-- C14 (amended): for every 16-bit raw clino value `c`, `CLINO_DEGREES c` lies in
[-180, +180); it lies in (-90, +90] exactly when `c ≤ 0x4000` or `c > 0xc000`. -/
theorem CLINO_DEGREES_range (c : Nat) (hc : c < 0x10000) :
    (-180 ≤ CLINO_DEGREES c ∧ CLINO_DEGREES c < 180) ∧
    ((-90 < CLINO_DEGREES c ∧ CLINO_DEGREES c ≤ 90) ↔ (c ≤ 0x4000 ∨ 0xc000 < c)) := by
  have hcq : (c : ℚ) < 65536 := by exact_mod_cast hc
  have h0 : (0 : ℚ) ≤ (c : ℚ) := Nat.cast_nonneg c
  by_cases hlow : c < 0x8000
  · have hlq : (c : ℚ) < 32768 := by exact_mod_cast hlow
    rw [CLINO_DEGREES_low c hlow]
    refine ⟨⟨by linarith, by linarith⟩, ?_⟩
    constructor
    · rintro ⟨_, h2⟩
      left
      have h3 : (c : ℚ) ≤ 16384 := by linarith
      exact_mod_cast h3
    · intro h
      have hc4 : c ≤ 0x4000 := by omega
      have h3 : (c : ℚ) ≤ 16384 := by exact_mod_cast hc4
      exact ⟨by linarith, by linarith⟩
  · have hhq : (32768 : ℚ) ≤ (c : ℚ) := by exact_mod_cast (Nat.le_of_not_lt hlow)
    rw [CLINO_DEGREES_high c (Nat.le_of_not_lt hlow) hc]
    refine ⟨⟨by linarith, by linarith⟩, ?_⟩
    constructor
    · rintro ⟨h1, _⟩
      right
      have h3 : (49152 : ℚ) < (c : ℚ) := by linarith
      exact_mod_cast h3
    · intro h
      have hc4 : 0xc000 < c := by omega
      have h3 : (49152 : ℚ) < (c : ℚ) := by exact_mod_cast hc4
      exact ⟨by linarith, by linarith⟩

/-- Witness of C14 (amended) at the raw value 0x8000. -/
theorem CLINO_DEGREES_range_witness :
    (-180 ≤ CLINO_DEGREES 0x8000 ∧ CLINO_DEGREES 0x8000 < 180) ∧
    ((-90 < CLINO_DEGREES 0x8000 ∧ CLINO_DEGREES 0x8000 ≤ 90) ↔
      (0x8000 ≤ 0x4000 ∨ 0xc000 < 0x8000)) :=
  CLINO_DEGREES_range 0x8000 (by norm_num)

/-- Counterexample to C15: `CLINO_DEGREES` maps the raw value 0x8000 to -180 degrees, not
to -90. -/
theorem CLINO_DEGREES_boundary_counterexample :
    CLINO_DEGREES 0x8000 = -180 ∧ CLINO_DEGREES 0x8000 ≠ -90 := by
  have h : CLINO_DEGREES 0x8000 = -180 := by
    rw [CLINO_DEGREES_high 0x8000 (by norm_num) (by norm_num)]
    norm_num
  refine ⟨h, ?_⟩
  rw [h]
  norm_num

/-- C15 (amended): `CLINO_DEGREES` maps 0x0000 to 0 degrees, 0x4000 to 90 degrees, 0x8000
to -180 degrees and 0xffff to -90/0x4000 degrees, just below 0. -/
theorem CLINO_DEGREES_boundary :
    CLINO_DEGREES 0x0000 = 0 ∧ CLINO_DEGREES 0x4000 = 90 ∧ CLINO_DEGREES 0x8000 = -180 ∧
    CLINO_DEGREES 0xffff = -90 / 0x4000 ∧ CLINO_DEGREES 0xffff < 0 := by
  have h4 : CLINO_DEGREES 0xffff = -90 / 0x4000 := by
    rw [CLINO_DEGREES_high 0xffff (by norm_num) (by norm_num)]
    norm_num
  refine ⟨?_, ?_, ?_, h4, ?_⟩
  · rw [CLINO_DEGREES_low 0x0000 (by norm_num)]
    norm_num
  · rw [CLINO_DEGREES_low 0x4000 (by norm_num)]
    norm_num
  · rw [CLINO_DEGREES_high 0x8000 (by norm_num) (by norm_num)]
    norm_num
  · rw [h4]
    norm_num

/-! ### Nonlinear coefficient decode -/

/-- Counterexample to C20: for the byte 127 (with scale 1) `COEFF2NL` gives 128, not the
value -128 of `c + 1` wrapped into [-128, 127], and `FN * COEFF2NL(c)` exceeds 127. -/
theorem COEFF2NL_wrap_counterexample :
    127 < 256 ∧ COEFF2NL 1 127 = 128 ∧
    COEFF2NL 1 127 ≠ (((127 : Int) + 1 - 256 : Int) : ℚ) / 1 ∧
    ¬ ((1 : ℚ) * COEFF2NL 1 127 ≤ 127) := by
  have h : COEFF2NL 1 127 = 128 := by
    unfold COEFF2NL
    norm_num
  refine ⟨by norm_num, h, ?_, ?_⟩ <;> rw [h] <;> norm_num

/-- C20 (amended): for every byte `c` in 0..255, `COEFF2NL(c) = k / FN` where `k` is `c + 1`
wrapped into [-127, 128] (`k = c + 1` if `c + 1 ≤ 128`, else `c + 1 - 256`); in particular
`FN * COEFF2NL(c)` is always between -127 and 128. -/
theorem COEFF2NL_wrap (FN : ℚ) (c : Nat) (hc : c < 256) :
    COEFF2NL FN c
      = (((if c + 1 ≤ 128 then (c : Int) + 1 else (c : Int) + 1 - 256) : Int) : ℚ) / FN ∧
    -127 ≤ (if c + 1 ≤ 128 then (c : Int) + 1 else (c : Int) + 1 - 256) ∧
    (if c + 1 ≤ 128 then (c : Int) + 1 else (c : Int) + 1 - 256) ≤ 128 ∧
    -127 ≤ FN * COEFF2NL FN c ∧ FN * COEFF2NL FN c ≤ 128 := by
  have hk : (if (1 + (c : Int) > 128) then 1 + (c : Int) - 256 else 1 + (c : Int))
      = (if c + 1 ≤ 128 then (c : Int) + 1 else (c : Int) + 1 - 256) := by
    split_ifs <;> omega
  have hlo : (-127 : Int) ≤ (if c + 1 ≤ 128 then (c : Int) + 1 else (c : Int) + 1 - 256) := by
    split_ifs <;> omega
  have hhi : (if c + 1 ≤ 128 then (c : Int) + 1 else (c : Int) + 1 - 256) ≤ (128 : Int) := by
    split_ifs <;> omega
  have heq : COEFF2NL FN c
      = (((if c + 1 ≤ 128 then (c : Int) + 1 else (c : Int) + 1 - 256) : Int) : ℚ) / FN := by
    unfold COEFF2NL
    simp only [hk]
  refine ⟨heq, hlo, hhi, ?_⟩
  rw [heq]
  by_cases hFN : FN = 0
  · subst hFN
    norm_num
  · rw [mul_div_cancel₀ _ hFN]
    exact ⟨by exact_mod_cast hlo, by exact_mod_cast hhi⟩

/-- Witness of C20 (amended) at the byte 127 with scale 16384. -/
theorem COEFF2NL_wrap_witness :
    COEFF2NL 16384 127
      = (((if 127 + 1 ≤ 128 then ((127 : Nat) : Int) + 1 else ((127 : Nat) : Int) + 1 - 256)
          : Int) : ℚ) / 16384 ∧
    -127 ≤ (if 127 + 1 ≤ 128 then ((127 : Nat) : Int) + 1 else ((127 : Nat) : Int) + 1 - 256) ∧
    (if 127 + 1 ≤ 128 then ((127 : Nat) : Int) + 1 else ((127 : Nat) : Int) + 1 - 256) ≤ 128 ∧
    -127 ≤ (16384 : ℚ) * COEFF2NL 16384 127 ∧ (16384 : ℚ) * COEFF2NL 16384 127 ≤ 128 :=
  COEFF2NL_wrap 16384 127 (by norm_num)

/-! ### Coefficient decoders of `read_calib.cpp` -/

/-- C19 (behaviour of the code at the failing input): on the byte pair (0xff, 0xff) the
library decode `C_2_D` gives the word -1, while `vector2double` gives 3/24000 and
`matrix2double` gives 3/16384; on the pair (0x00, 0x80) `C_2_D` gives -32768, while
`vector2double` gives 32768/24000. -/
theorem vector2double_disagrees :
    C_2_D [0xff, 0xff] 0 = -1 ∧
    vector2double 0xff 0xff = 3 / 24000 ∧ vector2double 0xff 0xff ≠ ((-1 : Int) : ℚ) / 24000 ∧
    matrix2double 0xff 0xff = 3 / 16384 ∧ matrix2double 0xff 0xff ≠ ((-1 : Int) : ℚ) / 16384 ∧
    C_2_D [0x00, 0x80] 0 = -32768 ∧ vector2double 0x00 0x80 = 32768 / 24000 := by
  have hw : (toByte 0xff ||| (toByte 0xff <<< 8)) = 65535 := by decide
  have hw2 : (toByte 0x00 ||| (toByte 0x80 <<< 8)) = 32768 := by decide
  have h1 : vector2double 0xff 0xff = 3 / 24000 := by
    unfold vector2double
    rw [hw]
    norm_num
  have h2 : matrix2double 0xff 0xff = 3 / 16384 := by
    unfold matrix2double
    rw [hw]
    norm_num
  have h3 : vector2double 0x00 0x80 = 32768 / 24000 := by
    unfold vector2double
    rw [hw2]
    norm_num
  refine ⟨by decide, h1, ?_, h2, ?_, by decide, h3⟩
  · rw [h1]; norm_num
  · rw [h2]; norm_num

/-! ### Dip -/

/-- The call `nextMeasurementX2` on a queue that starts with a DATA frame followed by a
VECTOR frame decodes that pair. -/
theorem nextMeasurementX2_pair (p : Protocol) (out : MeasurementX2) (junk1 junk2 : List Nat)
    (f1 f2 : List Nat) (rest : List (List Nat))
    (hq : p.data_queue.items = f1 :: f2 :: rest)
    (h1 : PACKET_TYPE f1 = PACKET_DATA) (h2 : PACKET_TYPE f2 = PACKET_VECTOR) :
    DistoX.nextMeasurementX2 p out junk1 junk2
      = (true,
          { dist := DISTANCE_METERS (DATA_2_DISTANCE f1),
            compass := COMPASS_DEGREES (DATA_2_COMPASS f1),
            clino := CLINO_DEGREES (DATA_2_CLINO f1),
            acc := DATA_2_ACC f2, mag := DATA_2_MAG f2,
            dip := DIP_DEGREES (DATA_2_DIP f2) },
          { p with data_queue := { items := rest } }) := by
  simp [DistoX.nextMeasurementX2, NextData_cons_cons p _ _ f1 f2 rest hq, h1, h2]

/-- C16 (behaviour of the code at the failing input): the second frame carries the raw dip
`d = 0x8000` (bytes 5 and 6 are 0x00 and 0x80). `nextMeasurementX2` returns true and the dip
it produces is 23592780 degrees, the value of `(d - 65536) * 90 / 0x4000` with the
difference taken in `unsigned int`; it is not negative and not in [-180, 180). -/
theorem nextMeasurementX2_dip_unsigned :
    DATA_2_DIP [0x04, 0, 0, 0, 0, 0x00, 0x80, 0] = 32768 ∧
    (DistoX.nextMeasurementX2
      { data_queue := { items := [[0x01, 0, 0, 0, 0, 0, 0, 0],
          [0x04, 0, 0, 0, 0, 0x00, 0x80, 0]] } }
      { dist := 0, compass := 0, clino := 0, acc := 0, mag := 0, dip := 0 } [] []).1 = true ∧
    (DistoX.nextMeasurementX2
      { data_queue := { items := [[0x01, 0, 0, 0, 0, 0, 0, 0],
          [0x04, 0, 0, 0, 0, 0x00, 0x80, 0]] } }
      { dist := 0, compass := 0, clino := 0, acc := 0, mag := 0, dip := 0 } [] []).2.1.dip
      = 23592780 ∧
    (23592780 : ℚ) ≠ (((32768 : Int) - 65536 : Int) : ℚ) * 90 / 0x4000 ∧
    ¬ ((23592780 : ℚ) < 180) := by
  have hd : DATA_2_DIP [0x04, 0, 0, 0, 0, 0x00, 0x80, 0] = 32768 := by decide
  have hdip : DIP_DEGREES 32768 = 23592780 := by
    have hu : uintSub 32768 65536 = 4294934528 := by decide
    unfold DIP_DEGREES
    rw [if_neg (by norm_num), hu]
    norm_num
  have hrun : DistoX.nextMeasurementX2
      { data_queue := { items := [[0x01, 0, 0, 0, 0, 0, 0, 0],
          [0x04, 0, 0, 0, 0, 0x00, 0x80, 0]] } }
      { dist := 0, compass := 0, clino := 0, acc := 0, mag := 0, dip := 0 } [] []
      = (true,
          { dist := DISTANCE_METERS (DATA_2_DISTANCE [0x01, 0, 0, 0, 0, 0, 0, 0]),
            compass := COMPASS_DEGREES (DATA_2_COMPASS [0x01, 0, 0, 0, 0, 0, 0, 0]),
            clino := CLINO_DEGREES (DATA_2_CLINO [0x01, 0, 0, 0, 0, 0, 0, 0]),
            acc := DATA_2_ACC [0x04, 0, 0, 0, 0, 0x00, 0x80, 0],
            mag := DATA_2_MAG [0x04, 0, 0, 0, 0, 0x00, 0x80, 0],
            dip := DIP_DEGREES (DATA_2_DIP [0x04, 0, 0, 0, 0, 0x00, 0x80, 0]) },
          { data_queue := { items := [] } }) := by
    exact nextMeasurementX2_pair _ _ [] [] _ _ [] rfl (by decide) (by decide)
  rw [hrun]
  refine ⟨hd, rfl, ?_, by norm_num, by norm_num⟩
  show DIP_DEGREES (DATA_2_DIP [0x04, 0, 0, 0, 0, 0x00, 0x80, 0]) = 23592780
  rw [hd, hdip]

/-! ### Distance -/

/-- An element of an array of bytes is a byte. -/
theorem byteAt_lt (b : List Nat) (hbytes : ∀ x ∈ b, x < 256) (i : Nat) : byteAt b i < 256 := by
  unfold byteAt
  rw [List.getD_eq_getElem?_getD]
  cases h : b[i]? with
  | none => simp
  | some x => simpa using hbytes x (List.getElem?_mem h)

/-- The mask 0x40 keeps bit 6. -/
theorem and_0x40 (x : Nat) : x &&& 0x40 = 64 * (x / 64 % 2) := by
  have e : x &&& 2 ^ 6 = (x.testBit 6).toNat * 2 ^ 6 := Nat.and_two_pow x 6
  have t : x.testBit 6 = decide (x / 2 ^ 6 % 2 = 1) := Nat.testBit_to_div_mod
  norm_num at e t
  rw [e, t]
  by_cases h : x / 64 % 2 = 1
  · simp [h]
  · have h0 : x / 64 % 2 = 0 := by omega
    simp [h0]

/-- A little-endian 16-bit word assembled with OR is the sum of its two bytes. -/
theorem word_or_eq_add (lo hi : Nat) (hlo : lo < 256) : lo ||| (hi <<< 8) = lo + 256 * hi := by
  have h := Nat.mul_add_lt_is_or (i := 8) (b := lo) (by simpa using hlo) hi
  rw [Nat.shiftLeft_eq, Nat.lor_comm, Nat.mul_comm hi, ← h]
  norm_num
  omega

/-- The raw distance as a sum: the two low bytes and bit 6 of byte 0 at weight 2^16. -/
theorem DATA_2_DISTANCE_eq (b : List Nat) (h1 : byteAt b 1 < 256) (h2 : byteAt b 2 < 256) :
    DATA_2_DISTANCE b = byteAt b 1 + 256 * byteAt b 2 + 65536 * (byteAt b 0 / 64 % 2) := by
  unfold DATA_2_DISTANCE
  rw [and_0x40, Nat.lor_assoc, word_or_eq_add _ _ h1, Nat.shiftLeft_eq]
  have hlt : byteAt b 1 + 256 * byteAt b 2 < 2 ^ 16 := by
    norm_num
    omega
  have h := Nat.mul_add_lt_is_or (i := 16) hlt (byteAt b 0 / 64 % 2)
  have e : 64 * (byteAt b 0 / 64 % 2) * 2 ^ 10 = 2 ^ 16 * (byteAt b 0 / 64 % 2) := by
    norm_num
    omega
  rw [e, ← h]
  norm_num
  omega

/-- The call `nextMeasurementX1` on a queue that starts with a DATA frame decodes it. -/
theorem nextMeasurementX1_data (p : Protocol) (out : MeasurementX1) (junk : List Nat)
    (b : List Nat) (rest : List (List Nat))
    (hq : p.data_queue.items = b :: rest) (hb : PACKET_TYPE b = PACKET_DATA) :
    DistoX.nextMeasurementX1 p out junk
      = (true,
          { dist := DISTANCE_METERS (DATA_2_DISTANCE b),
            compass := COMPASS_DEGREES (DATA_2_COMPASS b),
            clino := CLINO_DEGREES (DATA_2_CLINO b),
            roll := ROLL_DEGREES_X1 (DATA_2_ROLL_X1 b) },
          { p with data_queue := { items := rest } }) := by
  simp [DistoX.nextMeasurementX1, Protocol.NextData1, BufferQueue.Get, hq, hb]

/-- C17: for every 8-byte frame `b`, `DATA_2_DISTANCE(b)` is
`b[1] + 256*b[2] + 65536*(bit 6 of b[0])`; it is below 2^17; a frame that agrees with `b` on
bit 6 of byte 0 and on bytes 1 and 2 has the same raw distance, whatever its other bits and
bytes; and the distance reported by `nextMeasurementX1` for the DATA frame `b` is this value
divided by 1000. -/
theorem DATA_2_DISTANCE_value (b : List Nat) (_hlen : b.length = 8)
    (hbytes : ∀ x ∈ b, x < 256) :
    DATA_2_DISTANCE b = byteAt b 1 + 256 * byteAt b 2 + 65536 * (byteAt b 0 / 64 % 2) ∧
    DATA_2_DISTANCE b < 2 ^ 17 ∧
    (∀ b' : List Nat, b'.length = 8 → (∀ x ∈ b', x < 256) →
      byteAt b' 0 / 64 % 2 = byteAt b 0 / 64 % 2 → byteAt b' 1 = byteAt b 1 →
      byteAt b' 2 = byteAt b 2 → DATA_2_DISTANCE b' = DATA_2_DISTANCE b) ∧
    (∀ (p : Protocol) (out : MeasurementX1) (junk : List Nat) (rest : List (List Nat)),
      p.data_queue.items = b :: rest → PACKET_TYPE b = PACKET_DATA →
      (DistoX.nextMeasurementX1 p out junk).1 = true ∧
      (DistoX.nextMeasurementX1 p out junk).2.1.dist = (DATA_2_DISTANCE b : ℚ) / 1000) := by
  have h1 := byteAt_lt b hbytes 1
  have h2 := byteAt_lt b hbytes 2
  have heq := DATA_2_DISTANCE_eq b h1 h2
  refine ⟨heq, ?_, ?_, ?_⟩
  · rw [heq]
    have : byteAt b 0 / 64 % 2 < 2 := Nat.mod_lt _ (by decide)
    norm_num
    omega
  · intro b' _ hbytes' e0 e1 e2
    rw [heq, DATA_2_DISTANCE_eq b' (byteAt_lt b' hbytes' 1) (byteAt_lt b' hbytes' 2),
      e0, e1, e2]
  · intro p out junk rest hq hb
    rw [nextMeasurementX1_data p out junk b rest hq hb]
    exact ⟨rfl, rfl⟩

/-- Witness of C17: a DATA frame with bit 6 and bit 7 of byte 0 set. -/
theorem DATA_2_DISTANCE_value_witness :
    DATA_2_DISTANCE [0xc1, 0x34, 0x12, 9, 9, 9, 9, 9]
      = byteAt [0xc1, 0x34, 0x12, 9, 9, 9, 9, 9] 1
        + 256 * byteAt [0xc1, 0x34, 0x12, 9, 9, 9, 9, 9] 2
        + 65536 * (byteAt [0xc1, 0x34, 0x12, 9, 9, 9, 9, 9] 0 / 64 % 2) ∧
    DATA_2_DISTANCE [0xc1, 0x34, 0x12, 9, 9, 9, 9, 9] < 2 ^ 17 :=
  ⟨(DATA_2_DISTANCE_value [0xc1, 0x34, 0x12, 9, 9, 9, 9, 9] rfl (by decide)).1,
   (DATA_2_DISTANCE_value [0xc1, 0x34, 0x12, 9, 9, 9, 9, 9] rfl (by decide)).2.1⟩

/-! ### Calibration samples -/

/-- One step of `NextCalib` on a queue holding at least two frames. -/
theorem NextCalib_cons_cons (p : Protocol) (b1 b2 f1 f2 : List Nat) (rest : List (List Nat))
    (hq : p.calib_queue.items = f1 :: f2 :: rest) :
    p.NextCalib b1 b2 =
      if PACKET_TYPE f1 = PACKET_G then
        (PACKET_TYPE f2 == PACKET_M, f1, f2, { p with calib_queue := { items := rest } })
      else Protocol.NextCalib { p with calib_queue := { items := f2 :: rest } } f1 b2 := by
  rw [Protocol.NextCalib]
  simp [BufferQueue.Size, BufferQueue.Get, hq]

/-- The call `NextCalib` on a queue holding fewer than two frames fails and changes
nothing. -/
theorem NextCalib_short (p : Protocol) (b1 b2 : List Nat) (hq : p.calib_queue.Size < 2) :
    p.NextCalib b1 b2 = (false, b1, b2, p) := by
  rw [Protocol.NextCalib]
  simp [Nat.not_le.mpr hq]

/-- Decoding the little-endian two's-complement word of a 16-bit value gives the value. -/
theorem toInt16_word (x : Int) (hx : InInt16 x) :
    toInt16 (int16Low x ||| (int16High x <<< 8)) = x := by
  obtain ⟨hlo, hhi⟩ := hx
  have hn : 0 ≤ x % 65536 := Int.emod_nonneg _ (by norm_num)
  have hu : ((x % 65536).toNat : Int) = x % 65536 := Int.toNat_of_nonneg hn
  have hlt : (x % 65536).toNat < 65536 := by omega
  unfold int16Low int16High
  rw [word_or_eq_add _ _ (Nat.mod_lt _ (by decide))]
  have hsum : (x % 65536).toNat % 256 + 256 * ((x % 65536).toNat / 256)
      = (x % 65536).toNat := Nat.mod_add_div _ _
  rw [hsum]
  unfold toInt16
  rw [Nat.mod_eq_of_lt hlt]
  split_ifs <;> omega

/-- C18: for six values of type `int16_t`, when the calibration queue starts with a G frame
(tag 0x02) whose bytes 1-6 store `gx, gy, gz` and then an M frame (tag 0x03) whose bytes 1-6
store `mx, my, mz`, each as a little-endian two's-complement 16-bit word, `nextCalibration`
returns true with exactly those six values, negative ones included, and removes the two
frames from the queue. -/
theorem nextCalibration_roundtrip (p : Protocol) (out : CalibrationXYZ)
    (junk1 junk2 : List Nat) (tg eg tm em : Nat) (gx gy gz mx my mz : Int)
    (rest : List (List Nat))
    (hgx : InInt16 gx) (hgy : InInt16 gy) (hgz : InInt16 gz)
    (hmx : InInt16 mx) (hmy : InInt16 my) (hmz : InInt16 mz)
    (hG : PACKET_TYPE [tg, int16Low gx, int16High gx, int16Low gy, int16High gy,
      int16Low gz, int16High gz, eg] = PACKET_G)
    (hM : PACKET_TYPE [tm, int16Low mx, int16High mx, int16Low my, int16High my,
      int16Low mz, int16High mz, em] = PACKET_M)
    (hq : p.calib_queue.items
      = [tg, int16Low gx, int16High gx, int16Low gy, int16High gy,
          int16Low gz, int16High gz, eg] ::
        [tm, int16Low mx, int16High mx, int16Low my, int16High my,
          int16Low mz, int16High mz, em] :: rest) :
    DistoX.nextCalibration p out junk1 junk2
      = (true, { gx := gx, gy := gy, gz := gz, mx := mx, my := my, mz := mz },
          { p with calib_queue := { items := rest } }) := by
  simp [DistoX.nextCalibration, NextCalib_cons_cons p _ _ _ _ rest hq, hG, hM,
    CALIB_2_X, CALIB_2_Y, CALIB_2_Z, byteAt, toInt16_word, hgx, hgy, hgz, hmx, hmy, hmz]

/-- Witness of C18: the sample (100, 200, 16200, 300, 400, 500). -/
theorem nextCalibration_roundtrip_witness :
    DistoX.nextCalibration
      { calib_queue := { items := [[0x02, 100, 0, 200, 0, 72, 63, 0],
          [0x03, 44, 1, 144, 1, 244, 1, 0]] } }
      { gx := 0, gy := 0, gz := 0, mx := 0, my := 0, mz := 0 } [] []
      = (true, { gx := 100, gy := 200, gz := 16200, mx := 300, my := 400, mz := 500 },
          { calib_queue := { items := [] } }) :=
  nextCalibration_roundtrip
    { calib_queue := { items := [[0x02, 100, 0, 200, 0, 72, 63, 0],
        [0x03, 44, 1, 144, 1, 244, 1, 0]] } }
    { gx := 0, gy := 0, gz := 0, mx := 0, my := 0, mz := 0 } [] [] 0x02 0 0x03 0
    100 200 16200 300 400 500 []
    (by decide) (by decide) (by decide) (by decide) (by decide) (by decide)
    (by decide) (by decide) rfl

/-! ### Firmware upload -/

/-- A transport read keeps the length of the buffer. -/
theorem overlay_length : ∀ (b d : List Nat), (overlay b d).length = b.length
  | [], d => by cases d <;> rfl
  | _ :: _, [] => rfl
  | _ :: bs, _ :: ds => by simp [overlay, overlay_length bs ds]

/-- Nothing copied leaves the buffer as it is. -/
theorem overlay_nil (b : List Nat) : overlay b [] = b := by
  cases b <;> rfl

/-- Filling a whole buffer with one value. -/
theorem overlay_replicate_full (v : Nat) :
    ∀ l : List Nat, overlay l (List.replicate l.length v) = List.replicate l.length (toByte v)
  | [] => rfl
  | _ :: l => by simp [overlay, List.replicate_succ, overlay_replicate_full v l]

/-- Copying the beginning of `l` over `n` zero bytes gives the first `n` bytes of `l`, with
zeros past its end. -/
theorem overlay_zeros_take :
    ∀ (n : Nat) (l : List Nat),
      overlay (List.replicate n 0) (l.take n)
        = (List.range n).map (fun i => toByte (l.getD i 0))
  | 0, _ => rfl
  | n + 1, [] => by
    rw [List.take_nil, overlay_nil]
    apply List.ext_getElem
    · simp
    · intro i h1 h2
      simp [toByte]
  | n + 1, x :: l => by
    rw [List.take_succ_cons, List.replicate_succ, List.range_succ_eq_map]
    simp only [overlay, List.map_cons, List.map_map, List.getD_cons_zero]
    rw [overlay_zeros_take n l]
    congr 1

/-- The bytes of a file from the offset `k` on. -/
theorem getD_drop_file (content : List Nat) (k i : Nat) :
    (content.drop k).getD i 0 = content.getD (k + i) 0 := by
  simp [List.getD_eq_getElem?_getD, List.getElem?_drop]

/-- A byte of a file of bytes, stored, is itself. -/
theorem toByte_getD_file (content : List Nat) (hbytes : ∀ x ∈ content, x < 256) (j : Nat) :
    toByte (content.getD j 0) = content.getD j 0 :=
  Nat.mod_eq_of_lt (byteAt_lt content hbytes j)

/-- Reading the next 256 bytes of a file over zero bytes gives its page at that offset. -/
theorem overlay_zeros_page (content : List Nat) (hbytes : ∀ x ∈ content, x < 256)
    (p : Nat) :
    overlay (List.replicate 256 0) ((content.drop (256 * p)).take 256)
      = pageOfFile content p := by
  rw [overlay_zeros_take 256 (content.drop (256 * p))]
  unfold pageOfFile
  apply List.map_congr_left
  intro i _
  rw [getD_drop_file, toByte_getD_file content hbytes]

/-- The next 256 bytes of the stream positioned at page `addr` (or at the end of a shorter
file). -/
theorem drop_pos_eq (content : List Nat) (addr pos : Nat)
    (hpos : pos = min (256 * addr) content.length) :
    content.drop pos = content.drop (256 * addr) := by
  by_cases h : 256 * addr ≤ content.length
  · rw [hpos, Nat.min_eq_left h]
  · have h2 : content.length ≤ 256 * addr := by omega
    rw [hpos, Nat.min_eq_right h2, List.drop_eq_nil_of_le (Nat.le_refl _),
      List.drop_eq_nil_of_le h2]

/-- The read position after the chunk of page `addr` was read. -/
theorem pos_after_page (content : List Nat) (addr pos : Nat)
    (hpos : pos = min (256 * addr) content.length) :
    pos + ((content.drop pos).take 256).length = min (256 * (addr + 1)) content.length := by
  rw [List.length_take, List.length_drop, hpos]
  omega

/-- Clearing and then filling the part of a buffer that follows its first three bytes. -/
theorem fread_memset (fp : FILE) (b0 b1 b2 : Nat) (tail : List Nat) (n : Nat)
    (ht : tail.length = n) :
    (fread (memset (b0 :: b1 :: b2 :: tail) 3 0 n) 3 n fp).2
      = (b0 :: b1 :: b2 :: overlay (List.replicate n 0) ((fp.content.drop fp.pos).take n),
          { fp with pos := fp.pos + ((fp.content.drop fp.pos).take n).length }) := by
  subst ht
  have hm : memset (b0 :: b1 :: b2 :: tail) 3 0 tail.length
      = b0 :: b1 :: b2 :: List.replicate tail.length 0 := by
    show [b0, b1, b2] ++ overlay tail (List.replicate tail.length 0) = _
    rw [overlay_replicate_full 0 tail]
    rfl
  rw [hm]
  rfl

/-- The buffer of `firmware_write` once the chunk of page `addr` has been read into it: its
first three bytes, then the page of the file. -/
theorem fread_page (fp : FILE) (buf : List Nat) (addr : Nat)
    (hbytes : ∀ x ∈ fp.content, x < 256)
    (hpos : fp.pos = min (256 * addr) fp.content.length) (hlen : buf.length = 259) :
    (fread (memset buf 3 0 256) 3 256 fp).2
      = (byteAt buf 0 :: byteAt buf 1 :: byteAt buf 2 :: pageOfFile fp.content addr,
          { fp with pos := min (256 * (addr + 1)) fp.content.length }) := by
  match buf, hlen with
  | b0 :: b1 :: b2 :: tail, hlen =>
    have ht : tail.length = 256 := by
      have : tail.length + 3 = 259 := hlen
      omega
    rw [fread_memset fp b0 b1 b2 tail 256 ht,
      pos_after_page fp.content addr fp.pos hpos, drop_pos_eq fp.content addr fp.pos hpos,
      overlay_zeros_page fp.content hbytes addr]
    rfl

/-- The mask 0xff keeps the low byte. -/
theorem and_0xff (x : Nat) : x &&& 0xff = x % 256 :=
  Nat.and_pow_two_sub_one_eq_mod x 8

/-- A page of a file has 256 bytes. -/
theorem pageOfFile_length (content : List Nat) (p : Nat) :
    (pageOfFile content p).length = 256 := by
  simp [pageOfFile]

/-- A page request has 259 bytes. -/
theorem pageRequest_length (content : List Nat) (p : Nat) :
    (pageRequest content p).length = 259 := by
  simp [pageRequest, pageOfFile_length]

/-- A write records the block handed to the transport. -/
theorem Write_written (s : Serial) (blk : List Nat) :
    (s.Write blk).2.written = s.written ++ [blk] := by
  unfold Serial.Write
  split <;> rfl

/-- A read records nothing among the written blocks. -/
theorem Read_written (s : Serial) (buf : List Nat) (n : Nat) :
    (s.Read buf n).2.2.written = s.written := by
  unfold Serial.Read
  split <;> rfl

/-- A read keeps the length of the buffer. -/
theorem Read_length (s : Serial) (buf : List Nat) (n : Nat) :
    (s.Read buf n).2.1.length = buf.length := by
  unfold Serial.Read
  split
  · rfl
  · exact overlay_length _ _

/-- The loop body of `firmware_write` for a protected page `addr < 8`: the chunk is read and
nothing is sent. -/
theorem firmware_write_page_skip (dry_run : Bool) (addr : Nat) (serial : Serial) (fp : FILE)
    (buf : List Nat) (haddr : addr < 8) (hbytes : ∀ x ∈ fp.content, x < 256)
    (hpos : fp.pos = min (256 * addr) fp.content.length) (hlen : buf.length = 259) :
    firmware_write_page dry_run addr serial fp buf
      = (true, serial, { fp with pos := min (256 * (addr + 1)) fp.content.length },
          byteAt buf 0 :: byteAt buf 1 :: byteAt buf 2 :: pageOfFile fp.content addr) := by
  have hf := fread_page fp buf addr hbytes hpos hlen
  have hf2 : fread (memset buf 3 0 256) 3 256 fp
      = ((fread (memset buf 3 0 256) 3 256 fp).1,
          byteAt buf 0 :: byteAt buf 1 :: byteAt buf 2 :: pageOfFile fp.content addr,
          { fp with pos := min (256 * (addr + 1)) fp.content.length }) := by
    rw [← hf]
  unfold firmware_write_page
  dsimp only
  rw [hf2]
  simp only [haddr, if_true]

/-- The loop body of `firmware_write` for a page `8 ≤ addr < 256` in a real run: the page
request is handed to the transport, then the reply is read and checked. -/
theorem firmware_write_page_send (addr : Nat) (serial : Serial) (fp : FILE)
    (buf : List Nat) (haddr : 8 ≤ addr) (haddr2 : addr < 256)
    (hbytes : ∀ x ∈ fp.content, x < 256)
    (hpos : fp.pos = min (256 * addr) fp.content.length) (hlen : buf.length = 259)
    (hop : byteAt buf 0 = 0x3b) :
    ∃ (go : Bool) (serial1 : Serial) (buf1 : List Nat),
      firmware_write_page false addr serial fp buf
        = (go, serial1, { fp with pos := min (256 * (addr + 1)) fp.content.length }, buf1) ∧
      serial1.written = serial.written ++ [pageRequest fp.content addr] ∧
      buf1.length = 259 ∧ (go = true → byteAt buf1 0 = 0x3b) := by
  have hf := fread_page fp buf addr hbytes hpos hlen
  have hf2 : fread (memset buf 3 0 256) 3 256 fp
      = ((fread (memset buf 3 0 256) 3 256 fp).1,
          byteAt buf 0 :: byteAt buf 1 :: byteAt buf 2 :: pageOfFile fp.content addr,
          { fp with pos := min (256 * (addr + 1)) fp.content.length }) := by
    rw [← hf]
  have hreq : ((byteAt buf 0 :: byteAt buf 1 :: byteAt buf 2 ::
      pageOfFile fp.content addr).set 1 (toByte (addr &&& 0xff))).set 2 0
      = pageRequest fp.content addr := by
    rw [hop, and_0xff]
    unfold toByte
    rw [Nat.mod_mod, Nat.mod_eq_of_lt haddr2]
    rfl
  have htake : (pageRequest fp.content addr).take 259 = pageRequest fp.content addr :=
    List.take_of_length_le (by rw [pageRequest_length])
  have hw : serial.Write (pageRequest fp.content addr)
      = ((serial.Write (pageRequest fp.content addr)).1,
          (serial.Write (pageRequest fp.content addr)).2) := rfl
  have hwr := Read_written (serial.Write (pageRequest fp.content addr)).2
    (pageRequest fp.content addr) 8
  have hln := Read_length (serial.Write (pageRequest fp.content addr)).2
    (pageRequest fp.content addr) 8
  rw [Write_written] at hwr
  rw [pageRequest_length] at hln
  unfold firmware_write_page
  dsimp only
  rw [hf2]
  simp only [Nat.not_lt.mpr haddr, if_false, hreq, htake, Bool.false_eq_true]
  rw [hw]
  dsimp only
  generalize (serial.Write (pageRequest fp.content addr)).2.Read
    (pageRequest fp.content addr) 8 = r at hwr hln ⊢
  obtain ⟨nr, b, s2⟩ := r
  dsimp only at hwr hln ⊢
  by_cases h1 : nr > 0
  · by_cases h2 : byteAt b 0 = 0x3b
    · by_cases h3 : (byteAt b 2 <<< 8 ||| byteAt b 1) = addr
      · exact ⟨true, s2, b, by simp [h1, h2, h3], hwr, hln, fun _ => h2⟩
      · exact ⟨false, s2, b, by simp [h1, h2, h3], hwr, hln, fun h => by simp at h⟩
    · exact ⟨false, s2, b, by simp [h1, h2], hwr, hln, fun h => by simp at h⟩
  · exact ⟨false, s2, b, by simp [h1], hwr, hln, fun h => by simp at h⟩

/-- Whatever the device replies, in a real run with `addr + n ≤ 256` the requests handed to
the transport by the loop of `firmware_write` are those of consecutive pages, from page
`max addr 8` upwards. -/
theorem firmware_write_loop_written (content : List Nat) (hbytes : ∀ x ∈ content, x < 256) :
    ∀ (n addr : Nat) (serial : Serial) (fp : FILE) (buf : List Nat),
      fp.content = content → fp.pos = min (256 * addr) content.length →
      buf.length = 259 → byteAt buf 0 = 0x3b → addr + n ≤ 256 →
      ∃ k, max addr 8 + k ≤ max (addr + n) 8 ∧
        (firmware_write_loop false n addr serial fp buf).2.1.written
          = serial.written ++ (List.range' (max addr 8) k).map (pageRequest content) := by
  intro n
  induction n with
  | zero =>
    intro addr serial fp buf _ _ _ _ _
    exact ⟨0, by omega, by simp [firmware_write_loop]⟩
  | succ n ih =>
    intro addr serial fp buf hc hpos hlen hop hle
    subst hc
    by_cases haddr : addr < 8
    · have hskip := firmware_write_page_skip false addr serial fp buf haddr hbytes hpos hlen
      obtain ⟨k, hk, hw⟩ := ih (addr + 1) serial
        { fp with pos := min (256 * (addr + 1)) fp.content.length }
        (byteAt buf 0 :: byteAt buf 1 :: byteAt buf 2 :: pageOfFile fp.content addr)
        rfl rfl (by simp [pageOfFile_length]) (by simpa [byteAt] using hop) (by omega)
      refine ⟨k, by omega, ?_⟩
      have e : max (addr + 1) 8 = max addr 8 := by omega
      rw [e] at hw
      simp only [firmware_write_loop, hskip, if_true]
      exact hw
    · obtain ⟨go, s1, b1, heq, hw1, hl1, hgo⟩ :=
        firmware_write_page_send addr serial fp buf (by omega) (by omega) hbytes hpos hlen hop
      have e : max addr 8 = addr := by omega
      cases go with
      | false =>
        refine ⟨1, by omega, ?_⟩
        simp [firmware_write_loop, heq, hw1, e]
      | true =>
        obtain ⟨k, hk, hw⟩ := ih (addr + 1) s1
          { fp with pos := min (256 * (addr + 1)) fp.content.length } b1
          rfl rfl hl1 (hgo rfl) (by omega)
        have e2 : max (addr + 1) 8 = addr + 1 := by omega
        refine ⟨k + 1, by omega, ?_⟩
        simp only [firmware_write_loop, heq, if_true]
        rw [hw, hw1, e, e2, List.range'_succ]
        simp

/-- The page count `(N + 255) / 256` is the ceiling of `N / 256`. -/
theorem ceil_div_256 (N : Nat) : (N + 255) / 256 = ⌈(N : ℚ) / 256⌉₊ := by
  apply le_antisymm
  · by_cases hm : (N + 255) / 256 = 0
    · rw [hm]
      exact Nat.zero_le _
    · have hlt : (N + 255) / 256 - 1 < ⌈(N : ℚ) / 256⌉₊ := by
        rw [Nat.lt_ceil, lt_div_iff₀ (by norm_num)]
        have h : ((N + 255) / 256 - 1) * 256 < N := by omega
        exact_mod_cast h
      omega
  · rw [Nat.ceil_le, div_le_iff₀ (by norm_num)]
    have h : N ≤ (N + 255) / 256 * 256 := by omega
    exact_mod_cast h

/-- C13: for a firmware file of `N` bytes, `main` computes
`end_addr = (N + 255) / 256 = ceil(N / 256)` (as long as this fits an `unsigned int`); when
`end_addr ≤ 256`, whatever the device replies, the requests that `firmware_write` hands to the
transport in a real run are those of the pages 8, 9, ... in ascending order up to some page
below `end_addr`, the request of page `p` being `[0x3b, p, 0x00]` followed by the 256 bytes of
the file at the offsets `[256*p, 256*p + 256)`, zero-padded past the end of the file; no
request is made for the first 8 chunks. -/
theorem firmware_write_pages (serial : Serial) (content junk : List Nat)
    (hbytes : ∀ x ∈ content, x < 256) (hend : (content.length + 255) / 256 ≤ 256) :
    (∀ N : Nat, (N + 255) / 256 < 4294967296 →
      main_end_addr N = (N + 255) / 256 ∧ main_end_addr N = ⌈(N : ℚ) / 256⌉₊) ∧
    main_end_addr content.length = ⌈(content.length : ℚ) / 256⌉₊ ∧
    ∃ k, 8 + k ≤ max (main_end_addr content.length) 8 ∧
      (firmware_write serial (some { content := content }) (main_end_addr content.length)
          false junk).2.1.written
        = serial.written ++
            (List.range' 8 k).map (fun p => [0x3b, p, 0x00] ++ pageOfFile content p) := by
  have hm : ∀ M : Nat, (M + 255) / 256 < 4294967296 →
      main_end_addr M = (M + 255) / 256 ∧ main_end_addr M = ⌈(M : ℚ) / 256⌉₊ := by
    intro M hM
    have h1 : main_end_addr M = (M + 255) / 256 := Nat.mod_eq_of_lt hM
    exact ⟨h1, by rw [h1, ceil_div_256]⟩
  have hmN := hm content.length (by omega)
  refine ⟨hm, hmN.2, ?_⟩
  rw [hmN.1]
  have hlen : ((((localBuf (256 + 3) junk).set 0 0x3b).set 1 0).set 2 0).length = 259 := by
    simp [localBuf]
  have hop : byteAt ((((localBuf (256 + 3) junk).set 0 0x3b).set 1 0).set 2 0) 0 = 0x3b := by
    have e : localBuf (256 + 3) junk
        = toByte (junk.getD 0 0) :: (List.range 258).map
            (fun i => toByte (junk.getD (i + 1) 0)) := by
      unfold localBuf
      rw [List.range_succ_eq_map]
      simp [Function.comp_def]
    rw [e]
    rfl
  obtain ⟨k, hk, hw⟩ := firmware_write_loop_written content hbytes ((content.length + 255) / 256) 0
    serial { content := content } _ rfl (by simp) hlen hop (by omega)
  refine ⟨k, by omega, ?_⟩
  have e8 : max 0 8 = 8 := rfl
  rw [e8] at hw
  simp only [firmware_write]
  exact hw

set_option maxRecDepth 100000 in
/-- Witness of C13: a file of 2049 bytes gives `end_addr = 9`; with the write of page 8
acknowledged, the only request is that of page 8, whose first content byte is the byte of the
file at offset 2048. -/
theorem firmware_write_pages_witness :
    (∃ k, 8 + k ≤ max (main_end_addr (List.replicate 2048 1 ++ [7]).length) 8 ∧
      (firmware_write { rx := [pageAck 8] } (some { content := List.replicate 2048 1 ++ [7] })
          (main_end_addr (List.replicate 2048 1 ++ [7]).length) false []).2.1.written
        = ({ rx := [pageAck 8] } : Serial).written ++
            (List.range' 8 k).map
              (fun p => [0x3b, p, 0x00] ++ pageOfFile (List.replicate 2048 1 ++ [7]) p)) ∧
    main_end_addr (List.replicate 2048 1 ++ [7]).length = 9 ∧
    (firmware_write { rx := [pageAck 8] } (some { content := List.replicate 2048 1 ++ [7] })
        9 false []).2.1.written
      = [[0x3b, 8, 0x00, 7] ++ List.replicate 255 0] :=
  ⟨(firmware_write_pages { rx := [pageAck 8] } (List.replicate 2048 1 ++ [7]) []
      (by
        intro x hx
        rcases List.mem_append.mp hx with h | h
        · rw [List.eq_of_mem_replicate h]; decide
        · rw [List.mem_singleton.mp h]; decide)
      (by simp)).2.2,
   by simp [main_end_addr], by decide⟩

set_option maxRecDepth 1000000 in
/-- C12 (behaviour of the code at the failing input): with `end_addr = 257` (the value `main`
computes for a file of 65537 bytes) and a device that acknowledges the writes of the pages
8 to 255, `firmware_write` hands 249 requests of 259 bytes to the transport, and the last
one, made for `addr = 256`, is `[0x3b, 0x00, 0x00, ...]`: a write of the protected page
0x00. -/
theorem firmware_write_wraps_to_page_zero :
    main_end_addr 65537 = 257 ∧
    (firmware_write { rx := (List.range' 8 248).map pageAck } (some { content := [] })
        257 false []).2.1.written.length = 249 ∧
    ((firmware_write { rx := (List.range' 8 248).map pageAck } (some { content := [] })
        257 false []).2.1.written.getD 248 []).length = 259 ∧
    ((firmware_write { rx := (List.range' 8 248).map pageAck } (some { content := [] })
        257 false []).2.1.written.getD 248 []).take 3 = [0x3b, 0x00, 0x00] := by
  decide

/-! ### Scanning of the paired consumers -/

/-- Past frames that are not of type G, `NextCalib` pops the first G frame and the frame
that follows it, and reports whether the latter is of type M. -/
theorem NextCalib_scan (G F : List Nat) (rest : List (List Nat))
    (hG : PACKET_TYPE G = PACKET_G) :
    ∀ (pre : List (List Nat)) (p : Protocol) (b1 b2 : List Nat),
      (∀ f ∈ pre, PACKET_TYPE f ≠ PACKET_G) →
      p.calib_queue.items = pre ++ G :: F :: rest →
      p.NextCalib b1 b2
        = (PACKET_TYPE F == PACKET_M, G, F, { p with calib_queue := { items := rest } }) := by
  intro pre
  induction pre with
  | nil =>
    intro p b1 b2 _ hq
    rw [NextCalib_cons_cons p b1 b2 G F rest (by simpa using hq), if_pos hG]
  | cons n pre ih =>
    intro p b1 b2 hpre hq
    have hn : PACKET_TYPE n ≠ PACKET_G := hpre n (by simp)
    have hpre2 : ∀ f ∈ pre, PACKET_TYPE f ≠ PACKET_G := fun f hf => hpre f (by simp [hf])
    cases hp : pre ++ G :: F :: rest with
    | nil => simp at hp
    | cons f2 tl =>
      rw [NextCalib_cons_cons p b1 b2 n f2 tl (by simpa [hp] using hq), if_neg hn,
        ih _ n b2 hpre2 (by simpa using hp.symm)]

/-- C22: for every calibration queue `N1, ..., Nk, G, M, rest` (`k ≥ 0`, no `Ni` of type G,
`G` of type G, `M` of type M), `NextCalib(b1, b2)` returns true with `b1 = G` and `b2 = M` and
leaves exactly `rest` in the queue; and when the frame that follows the first G frame is not
of type M, `NextCalib` returns false. -/
theorem NextCalib_pair (p : Protocol) (b1 b2 : List Nat) (pre : List (List Nat))
    (G M : List Nat) (rest : List (List Nat))
    (hpre : ∀ f ∈ pre, PACKET_TYPE f ≠ PACKET_G) (hG : PACKET_TYPE G = PACKET_G)
    (hq : p.calib_queue.items = pre ++ G :: M :: rest) :
    (PACKET_TYPE M = PACKET_M →
      p.NextCalib b1 b2 = (true, G, M, { p with calib_queue := { items := rest } })) ∧
    (PACKET_TYPE M ≠ PACKET_M → (p.NextCalib b1 b2).1 = false) := by
  rw [NextCalib_scan G M rest hG pre p b1 b2 hpre hq]
  constructor
  · intro hM
    simp [hM]
  · intro hM
    simp [hM]

/-- Witness of C22: a reply frame and an M frame ahead of the pair, a DATA frame after it. -/
theorem NextCalib_pair_witness :
    Protocol.NextCalib
      { calib_queue := { items := [[0x38, 0, 0, 0, 0, 0, 0, 0], [0x03, 1, 0, 0, 0, 0, 0, 0],
          [0x02, 2, 0, 0, 0, 0, 0, 0], [0x03, 3, 0, 0, 0, 0, 0, 0],
          [0x01, 4, 0, 0, 0, 0, 0, 0]] } } [] []
      = (true, [0x02, 2, 0, 0, 0, 0, 0, 0], [0x03, 3, 0, 0, 0, 0, 0, 0],
          { calib_queue := { items := [[0x01, 4, 0, 0, 0, 0, 0, 0]] } }) :=
  (NextCalib_pair
    { calib_queue := { items := [[0x38, 0, 0, 0, 0, 0, 0, 0], [0x03, 1, 0, 0, 0, 0, 0, 0],
        [0x02, 2, 0, 0, 0, 0, 0, 0], [0x03, 3, 0, 0, 0, 0, 0, 0],
        [0x01, 4, 0, 0, 0, 0, 0, 0]] } } [] []
    [[0x38, 0, 0, 0, 0, 0, 0, 0], [0x03, 1, 0, 0, 0, 0, 0, 0]]
    [0x02, 2, 0, 0, 0, 0, 0, 0] [0x03, 3, 0, 0, 0, 0, 0, 0] [[0x01, 4, 0, 0, 0, 0, 0, 0]]
    (by decide) (by decide) rfl).1 (by decide)

/-- Past frames that are not of type DATA, `NextData` pops the first DATA frame and the
frame that follows it, and reports whether the latter is of type VECTOR. -/
theorem NextData_scan (D F : List Nat) (rest : List (List Nat))
    (hD : PACKET_TYPE D = PACKET_DATA) :
    ∀ (pre : List (List Nat)) (p : Protocol) (b1 b2 : List Nat),
      (∀ f ∈ pre, PACKET_TYPE f ≠ PACKET_DATA) →
      p.data_queue.items = pre ++ D :: F :: rest →
      p.NextData b1 b2
        = (PACKET_TYPE F == PACKET_VECTOR, D, F,
            { p with data_queue := { items := rest } }) := by
  intro pre
  induction pre with
  | nil =>
    intro p b1 b2 _ hq
    rw [NextData_cons_cons p b1 b2 D F rest (by simpa using hq), if_pos hD]
  | cons n pre ih =>
    intro p b1 b2 hpre hq
    have hn : PACKET_TYPE n ≠ PACKET_DATA := hpre n (by simp)
    have hpre2 : ∀ f ∈ pre, PACKET_TYPE f ≠ PACKET_DATA := fun f hf => hpre f (by simp [hf])
    cases hp : pre ++ D :: F :: rest with
    | nil => simp at hp
    | cons f2 tl =>
      rw [NextData_cons_cons p b1 b2 n f2 tl (by simpa [hp] using hq), if_neg hn,
        ih _ n b2 hpre2 (by simpa using hp.symm)]

/-- Counterexample to C29: the queue `[D1, D2, V]` (tags DATA, DATA, VECTOR) contains the
adjacent pair `D2, V`, yet the only call of `NextData(b1, b2)` that finds two frames queued
returns false and leaves the single frame `V`: no call returns true. -/
theorem NextData_loses_pair_counterexample :
    PACKET_TYPE [0x01, 1, 0, 0, 0, 0, 0, 0] = PACKET_DATA ∧
    PACKET_TYPE [0x01, 2, 0, 0, 0, 0, 0, 0] = PACKET_DATA ∧
    PACKET_TYPE [0x04, 3, 0, 0, 0, 0, 0, 0] = PACKET_VECTOR ∧
    (Protocol.NextData
      { data_queue := { items := [[0x01, 1, 0, 0, 0, 0, 0, 0], [0x01, 2, 0, 0, 0, 0, 0, 0],
          [0x04, 3, 0, 0, 0, 0, 0, 0]] } } [] []).1 = false ∧
    (Protocol.NextData
      { data_queue := { items := [[0x01, 1, 0, 0, 0, 0, 0, 0], [0x01, 2, 0, 0, 0, 0, 0, 0],
          [0x04, 3, 0, 0, 0, 0, 0, 0]] } } [] []).2.2.2.data_queue.items
      = [[0x04, 3, 0, 0, 0, 0, 0, 0]] ∧
    (Protocol.NextData
      { data_queue := { items := [[0x04, 3, 0, 0, 0, 0, 0, 0]] } }
      [0x01, 1, 0, 0, 0, 0, 0, 0] [0x01, 2, 0, 0, 0, 0, 0, 0]).1 = false := by
  refine ⟨by decide, by decide, by decide, ?_, ?_, ?_⟩
  · rw [NextData_cons_cons _ _ _ _ _ _ rfl]
    decide
  · rw [NextData_cons_cons _ _ _ _ _ _ rfl]
    decide
  · rw [NextData_short _ _ _ (by decide)]

/-- C29 (amended): for every measurement queue `N1, ..., Nk, D, V, rest` in which no `Ni` is
a DATA frame, `D` is a DATA frame and `V` a VECTOR frame, the first call of `NextData(b1, b2)`
returns true with `b1 = D` and `b2 = V` and leaves `rest`; when a DATA frame stands right
before the pair, as in `[D1, D, V]`, the call returns false and has consumed `D1` and `D`. -/
theorem NextData_pair_after_noise (p : Protocol) (b1 b2 : List Nat) (pre : List (List Nat))
    (D V : List Nat) (rest : List (List Nat))
    (hpre : ∀ f ∈ pre, PACKET_TYPE f ≠ PACKET_DATA) (hD : PACKET_TYPE D = PACKET_DATA)
    (hV : PACKET_TYPE V = PACKET_VECTOR)
    (hq : p.data_queue.items = pre ++ D :: V :: rest) :
    p.NextData b1 b2 = (true, D, V, { p with data_queue := { items := rest } }) ∧
    (∀ (q : Protocol) (D1 : List Nat), PACKET_TYPE D1 = PACKET_DATA →
      q.data_queue.items = D1 :: D :: V :: rest →
      q.NextData b1 b2 = (false, D1, D, { q with data_queue := { items := V :: rest } })) := by
  constructor
  · rw [NextData_scan D V rest hD pre p b1 b2 hpre hq]
    simp [hV]
  · intro q D1 hD1 hq1
    rw [NextData_cons_cons q b1 b2 D1 D (V :: rest) hq1, if_pos hD1]
    have hne : (PACKET_TYPE D == PACKET_VECTOR) = false := by
      rw [hD]
      decide
    rw [hne]

/-- Witness of C29 (amended): a reply frame ahead of the pair. -/
theorem NextData_pair_after_noise_witness :
    Protocol.NextData
      { data_queue := { items := [[0x38, 0, 0, 0, 0, 0, 0, 0], [0x01, 2, 0, 0, 0, 0, 0, 0],
          [0x04, 3, 0, 0, 0, 0, 0, 0]] } } [] []
      = (true, [0x01, 2, 0, 0, 0, 0, 0, 0], [0x04, 3, 0, 0, 0, 0, 0, 0],
          { data_queue := { items := [] } }) :=
  (NextData_pair_after_noise
    { data_queue := { items := [[0x38, 0, 0, 0, 0, 0, 0, 0], [0x01, 2, 0, 0, 0, 0, 0, 0],
        [0x04, 3, 0, 0, 0, 0, 0, 0]] } } [] []
    [[0x38, 0, 0, 0, 0, 0, 0, 0]] [0x01, 2, 0, 0, 0, 0, 0, 0] [0x04, 3, 0, 0, 0, 0, 0, 0] []
    (by decide) (by decide) (by decide) rfl).1

/-! ### Short replies to `read_8000` -/

/-- A write leaves the pending read outcomes as they are. -/
theorem Write_rx (s : Serial) (blk : List Nat) : (s.Write blk).2.rx = s.rx := by
  unfold Serial.Write
  split <;> rfl

/-- The value returned by `read_8000`, the mode byte and the rest of the script, from the
outcome of the transport read. -/
theorem read_8000_eq (serial : Serial) (mode : Nat) (do_write : Bool) (junk data : List Nat)
    (nr : Int) (rest : List (Int × List Nat)) (hrx : serial.rx = (nr, data) :: rest) :
    (read_8000 serial mode do_write junk).1
      = (if nr > 0 then
          if byteAt (read_8000_buf do_write junk data) 0 ≠ 0x38 then -1
          else if (byteAt (read_8000_buf do_write junk data) 2 <<< 8 |||
              byteAt (read_8000_buf do_write junk data) 1) ≠ 0x8000 then -2
          else nr
        else if nr < 0 then -3 else 0) ∧
    (read_8000 serial mode do_write junk).2.1
      = (if nr > 0 ∧ byteAt (read_8000_buf do_write junk data) 0 = 0x38 ∧
            (byteAt (read_8000_buf do_write junk data) 2 <<< 8 |||
              byteAt (read_8000_buf do_write junk data) 1) = 0x8000
          then byteAt (read_8000_buf do_write junk data) 3 else mode) := by
  have hb : ((32768 : Nat) &&& 255) = 0 ∧ ((32768 : Nat) >>> 8 &&& 255) = 128 := by decide
  cases do_write
  · simp only [read_8000, read_8000_buf, Serial.Read, hrx, Bool.false_eq_true, if_false]
    split_ifs <;> simp_all
  · simp only [read_8000, read_8000_buf, Serial.Read, Write_rx, hrx, if_true, toByte]
    split_ifs <;> simp_all

/-- Counterexample to C25: a transport read that returns 4 bytes `38 00 80 0a` is reported
as success (result 4, mode byte 0x0a written); a read that returns the single byte `38` after
the request was written is reported as success too (result 1), the address bytes checked
being those of the request and the mode byte written being the indeterminate content 0x55 of
`buf[3]`. -/
theorem read_8000_short_reply_counterexample :
    (read_8000 { rx := [(4, [0x38, 0x00, 0x80, 0x0a])] } 7 true []).1 = 4 ∧
    (read_8000 { rx := [(4, [0x38, 0x00, 0x80, 0x0a])] } 7 true []).2.1 = 0x0a ∧
    (read_8000 { rx := [(1, [0x38])] } 7 true [0, 0, 0, 0x55]).1 = 1 ∧
    (read_8000 { rx := [(1, [0x38])] } 7 true [0, 0, 0, 0x55]).2.1 = 0x55 := by
  decide

/-- C25 (amended): `read_8000` returns a positive value exactly when the transport read
returns a positive count `nr` and, in `buf` as the read left it, byte 0 is 0x38 and bytes 1-2
read 0x8000; it then returns `nr`, whatever its value from 1 on, and writes byte 3 of `buf`
into the mode byte; otherwise the mode byte is left as it was. The bytes of `buf` that the
read did not deliver are those it held before: the request bytes at positions 0-2 when the
request was written, indeterminate ones elsewhere. -/
theorem read_8000_success (serial : Serial) (mode : Nat) (do_write : Bool)
    (junk data : List Nat) (nr : Int) (rest : List (Int × List Nat))
    (hrx : serial.rx = (nr, data) :: rest) :
    (0 < (read_8000 serial mode do_write junk).1 ↔
      (0 < nr ∧ byteAt (read_8000_buf do_write junk data) 0 = 0x38 ∧
        (byteAt (read_8000_buf do_write junk data) 2 <<< 8 |||
          byteAt (read_8000_buf do_write junk data) 1) = 0x8000)) ∧
    (0 < (read_8000 serial mode do_write junk).1 →
      (read_8000 serial mode do_write junk).1 = nr ∧
      (read_8000 serial mode do_write junk).2.1
        = byteAt (read_8000_buf do_write junk data) 3) ∧
    (¬ 0 < (read_8000 serial mode do_write junk).1 →
      (read_8000 serial mode do_write junk).2.1 = mode) := by
  obtain ⟨h1, h2⟩ := read_8000_eq serial mode do_write junk data nr rest hrx
  rw [h1, h2]
  by_cases hn : nr > 0
  · by_cases h0 : byteAt (read_8000_buf do_write junk data) 0 = 0x38
    · by_cases ha : (byteAt (read_8000_buf do_write junk data) 2 <<< 8 |||
          byteAt (read_8000_buf do_write junk data) 1) = 0x8000
      · simp [hn, h0, ha]
      · simp [hn, h0, ha]
    · simp [hn, h0]
  · by_cases hneg : nr < 0
    · simp [hn, hneg]
    · simp [hn, hneg]

/-- Witness of C25 (amended): a reply of four bytes. -/
theorem read_8000_success_witness :
    (read_8000 { rx := [(4, [0x38, 0x00, 0x80, 0x0a])] } 7 true []).1 = 4 ∧
    (read_8000 { rx := [(4, [0x38, 0x00, 0x80, 0x0a])] } 7 true []).2.1
      = byteAt (read_8000_buf true [] [0x38, 0x00, 0x80, 0x0a]) 3 :=
  (read_8000_success { rx := [(4, [0x38, 0x00, 0x80, 0x0a])] } 7 true []
    [0x38, 0x00, 0x80, 0x0a] 4 [] rfl).2.1 (by decide)

/-- A read consumes one scripted outcome. -/
theorem Read_rx (s : Serial) (buf : List Nat) (n : Nat) :
    (s.Read buf n).2.2.rx = s.rx.drop 1 := by
  unfold Serial.Read
  split <;> simp_all

/-- A read that runs `bootloader_read_dump` to its end appends eight bytes per frame to the
file and consumes one scripted read per frame. -/
theorem bootloader_read_dump_true :
    ∀ (n : Nat) (serial : Serial) (buf : List Nat) (fp : FILE), buf.length = 8 →
      (bootloader_read_dump n serial buf fp).1 = true →
      ∃ bytes : List Nat,
        (bootloader_read_dump n serial buf fp).2.2.content = fp.content ++ bytes ∧
        bytes.length = 8 * n ∧
        (bootloader_read_dump n serial buf fp).2.1.rx = serial.rx.drop n
  | 0, serial, buf, fp, _, _ => ⟨[], by simp [bootloader_read_dump]⟩
  | n + 1, serial, buf, fp, hlen, htrue => by
    have hl : (serial.Read buf 8).2.1.length = 8 := by rw [Read_length, hlen]
    simp only [bootloader_read_dump, fwrite] at htrue ⊢
    split at htrue
    · exact absurd htrue (by simp)
    · rename_i hnr
      rw [if_neg hnr]
      obtain ⟨bytes, h1, h2, h3⟩ := bootloader_read_dump_true n _ _ _ hl htrue
      refine ⟨(serial.Read buf 8).2.1.take 8 ++ bytes, ?_, ?_, ?_⟩
      · rw [h1]; simp
      · simp [h2, hl]; omega
      · rw [h3, Read_rx]; simp [Nat.add_comm]

/-- The request of `bootloader_read` and the first reply in its buffer. -/
theorem bootloader_read_eq (serial : Serial) (addr : Nat) (fp : Option FILE) (junk : List Nat) :
    bootloader_read serial addr fp junk =
      (let buf := (((localBuf8 junk).set 0 0x3a).set 1 (addr % 256)).set 2 0
       let serial := (serial.Write [0x3a, addr % 256, 0]).2
       let r := serial.Read buf 8
       if r.1 > 0 then
         if byteAt r.2.1 0 ≠ 0x3a then (false, r.2.2, fp)
         else if ((byteAt r.2.1 2 <<< 8) ||| byteAt r.2.1 1) ≠ addr % 256 then (false, r.2.2, fp)
         else
           match fp with
           | none => ((bootloader_read_print 32 r.2.2 r.2.1).1,
                      (bootloader_read_print 32 r.2.2 r.2.1).2, none)
           | some f => ((bootloader_read_dump 32 r.2.2 r.2.1 f).1,
                        (bootloader_read_dump 32 r.2.2 r.2.1 f).2.1,
                        some (bootloader_read_dump 32 r.2.2 r.2.1 f).2.2)
       else (false, r.2.2, fp)) := by
  have ha : addr &&& 0xff = addr % 256 := and_0xff addr
  have hb : toByte ((addr % 256) &&& 0xff) = addr % 256 := by
    rw [and_0xff]; simp [toByte]
  have hc : toByte (((addr % 256) >>> 8) &&& 0xff) = 0 := by
    rw [and_0xff, Nat.shiftRight_eq_div_pow]
    have : addr % 256 / 2 ^ 8 = 0 := Nat.div_eq_of_lt (Nat.mod_lt _ (by decide))
    simp [this, toByte]
  have hd : toByte 0x3a = 0x3a := by decide
  unfold bootloader_read
  simp only [ha, hb, hc, hd, localBuf8_eq]
  simp only [List.set_cons_zero, List.set_cons_succ, List.take_succ_cons, List.take_zero]
  cases fp <;> simp

/-- The frames of `bootloader_read` are only read: nothing is written to the line. -/
theorem bootloader_read_print_written :
    ∀ (n : Nat) (serial : Serial) (buf : List Nat),
      (bootloader_read_print n serial buf).2.written = serial.written
  | 0, _, _ => rfl
  | n + 1, serial, buf => by
    simp only [bootloader_read_print]
    split
    · exact Read_written serial buf 8
    · rw [bootloader_read_print_written n]; exact Read_written serial buf 8

/-- The frames of `bootloader_read` are only read: nothing is written to the line. -/
theorem bootloader_read_dump_written :
    ∀ (n : Nat) (serial : Serial) (buf : List Nat) (fp : FILE),
      (bootloader_read_dump n serial buf fp).2.1.written = serial.written
  | 0, _, _, _ => rfl
  | n + 1, serial, buf, fp => by
    simp only [bootloader_read_dump]
    split
    · exact Read_written serial buf 8
    · rw [bootloader_read_dump_written n]; exact Read_written serial buf 8

/-- Copying as many bytes as the buffer holds replaces the buffer. -/
theorem overlay_full : ∀ (b d : List Nat), b.length = d.length → (∀ x ∈ d, x < 256) →
    overlay b d = d
  | [], [], _, _ => rfl
  | [], _ :: _, h, _ => by simp at h
  | _ :: _, [], h, _ => by simp at h
  | _ :: bs, x :: ds, h, hb => by
    have hx : x < 256 := hb x (by simp)
    have ht : overlay bs ds = ds :=
      overlay_full bs ds (by simpa using h) (fun y hy => hb y (by simp [hy]))
    simp [overlay, ht, toByte, Nat.mod_eq_of_lt hx]

/-- C21: for every address, `bootloader_read` hands exactly one block to the line, the
three bytes 0x3a, `addr mod 256`, 0x00. If the first read returns 0 or a negative count, or
delivers eight bytes whose byte 0 is not 0x3a or whose bytes 1-2, read little-endian, are
not `addr mod 256`, it returns false, has consumed that one read only (no content frame is
read) and the output file is as it was. When it returns true with an output file, the file
has grown by exactly 256 bytes and 33 reads (the reply and 32 frames) were consumed. -/
theorem bootloader_read_contract (serial : Serial) (addr : Nat) (fp : Option FILE)
    (junk : List Nat) :
    (bootloader_read serial addr fp junk).2.1.written
      = serial.written ++ [[0x3a, addr % 256, 0x00]] ∧
    (serial.rx = [] →
      (bootloader_read serial addr fp junk).1 = false ∧
      (bootloader_read serial addr fp junk).2.2 = fp) ∧
    (∀ (nr : Int) (reply : List Nat) (rest : List (Int × List Nat)),
      serial.rx = (nr, reply) :: rest →
      (nr ≤ 0 ∨ (reply.length = 8 ∧ (∀ b ∈ reply, b < 256) ∧
        (byteAt reply 0 ≠ 0x3a ∨ ((byteAt reply 2 <<< 8) ||| byteAt reply 1) ≠ addr % 256))) →
      (bootloader_read serial addr fp junk).1 = false ∧
      (bootloader_read serial addr fp junk).2.1.rx = rest ∧
      (bootloader_read serial addr fp junk).2.2 = fp) ∧
    (∀ f : FILE, fp = some f → (bootloader_read serial addr fp junk).1 = true →
      ∃ (f1 : FILE) (bytes : List Nat),
        (bootloader_read serial addr fp junk).2.2 = some f1 ∧
        f1.content = f.content ++ bytes ∧ bytes.length = 256 ∧
        (bootloader_read serial addr fp junk).2.1.rx = serial.rx.drop 33) := by
  have hw : ((serial.Write [0x3a, addr % 256, 0]).2.Read
      ((((localBuf8 junk).set 0 0x3a).set 1 (addr % 256)).set 2 0) 8).2.2.written
      = serial.written ++ [[0x3a, addr % 256, 0x00]] := by
    rw [Read_written, Write_written]
  have hbl : ((serial.Write [0x3a, addr % 256, 0]).2.Read
      ((((localBuf8 junk).set 0 0x3a).set 1 (addr % 256)).set 2 0) 8).2.1.length = 8 := by
    rw [Read_length]; simp [localBuf8]
  have hrx1 : ((serial.Write [0x3a, addr % 256, 0]).2.Read
      ((((localBuf8 junk).set 0 0x3a).set 1 (addr % 256)).set 2 0) 8).2.2.rx
      = serial.rx.drop 1 := by
    rw [Read_rx, Write_rx]
  rw [bootloader_read_eq]
  dsimp only
  refine ⟨?_, ?_, ?_, ?_⟩
  · split
    · split
      · exact hw
      · split
        · exact hw
        · cases fp with
          | none => simp only; rw [bootloader_read_print_written]; exact hw
          | some f => simp only; rw [bootloader_read_dump_written]; exact hw
    · exact hw
  · intro hnil
    have h0 : ((serial.Write [0x3a, addr % 256, 0]).2.Read
        ((((localBuf8 junk).set 0 0x3a).set 1 (addr % 256)).set 2 0) 8).1 = 0 := by
      simp [Serial.Read, Write_rx, hnil]
    simp [h0]
  · intro nr reply rest hrx hfail
    have hr : (serial.Write [0x3a, addr % 256, 0]).2.Read
        ((((localBuf8 junk).set 0 0x3a).set 1 (addr % 256)).set 2 0) 8
        = (nr, overlay ((((localBuf8 junk).set 0 0x3a).set 1 (addr % 256)).set 2 0)
            (reply.take 8),
           { (serial.Write [0x3a, addr % 256, 0]).2 with rx := rest }) := by
      simp [Serial.Read, Write_rx, hrx]
    rw [hr]
    dsimp only
    rcases hfail with hnr | ⟨hlen, hbytes, hbad⟩
    · rw [if_neg (by omega)]
      exact ⟨rfl, rfl, rfl⟩
    · have hov : overlay ((((localBuf8 junk).set 0 0x3a).set 1 (addr % 256)).set 2 0)
          (reply.take 8) = reply := by
        rw [List.take_of_length_le (by omega)]
        exact overlay_full _ _ (by simp [localBuf8, hlen]) hbytes
      rw [hov]
      split
      · rcases hbad with h0 | h1
        · rw [if_pos h0]; exact ⟨rfl, rfl, rfl⟩
        · split
          · exact ⟨rfl, rfl, rfl⟩
          · exact ⟨rfl, rfl, rfl⟩
      · exact ⟨rfl, rfl, rfl⟩
  · intro f hfp htrue
    subst hfp
    split at htrue
    · split at htrue
      · exact absurd htrue (by simp)
      · split at htrue
        · exact absurd htrue (by simp)
        · rename_i hpos h0 h1
          rw [if_pos hpos, if_neg h0, if_neg h1]
          simp only at htrue ⊢
          obtain ⟨bytes, b1, b2, b3⟩ := bootloader_read_dump_true 32 _ _ f hbl htrue
          refine ⟨_, bytes, rfl, b1, by omega, ?_⟩
          rw [b3, hrx1]; simp
    · exact absurd htrue (by simp)

/-- C21 at a concrete page: the echo of page 5 followed by 32 frames is accepted and the
empty output file receives 256 bytes. -/
theorem bootloader_read_contract_witness :
    ∃ (f1 : FILE) (bytes : List Nat),
      (bootloader_read
        { rx := (8, [0x3a, 5, 0, 0, 0, 0, 0, 0]) ::
            List.replicate 32 (8, [1, 2, 3, 4, 5, 6, 7, 8]) } 5 (some ⟨[], 0⟩) []).2.2 = some f1 ∧
      f1.content = (⟨[], 0⟩ : FILE).content ++ bytes ∧ bytes.length = 256 ∧
      (bootloader_read
        { rx := (8, [0x3a, 5, 0, 0, 0, 0, 0, 0]) ::
            List.replicate 32 (8, [1, 2, 3, 4, 5, 6, 7, 8]) } 5 (some ⟨[], 0⟩) []).2.1.rx
        = (({ rx := (8, [0x3a, 5, 0, 0, 0, 0, 0, 0]) ::
            List.replicate 32 (8, [1, 2, 3, 4, 5, 6, 7, 8]) } : Serial).rx).drop 33 :=
  (bootloader_read_contract
    { rx := (8, [0x3a, 5, 0, 0, 0, 0, 0, 0]) ::
        List.replicate 32 (8, [1, 2, 3, 4, 5, 6, 7, 8]) } 5 (some ⟨[], 0⟩) []).2.2.2 ⟨[], 0⟩ rfl
    (by decide)

/-- On an empty command queue `WriteCommands` returns `PROTO_OK` at once. -/
theorem WriteCommands_nil (p : Protocol) (cmd : Nat) (h : p.command_queue.items = []) :
    Protocol.WriteCommands p cmd = (ProtoError.PROTO_OK, p) := by
  rw [Protocol.WriteCommands]
  simp [BufferQueue.Size, h]

/-- One round of the loop of `WriteCommands` on a non-empty command queue. -/
theorem WriteCommands_cons (p : Protocol) (cmd c : Nat) (cs : List Nat)
    (h : p.command_queue.items = c :: cs) :
    Protocol.WriteCommands p cmd =
      if 0x30 ≤ c ∧ c ≤ 0x33 then
        if (Protocol.WriteByte { p with command_queue := { items := cs } } c).1
            ≠ ProtoError.PROTO_OK then
          Protocol.WriteByte { p with command_queue := { items := cs } } c
        else
          Protocol.WriteCommands
            { (Protocol.WriteByte { p with command_queue := { items := cs } } c).2 with
              command_queue := { items := cs } } c
      else (ProtoError.PROTO_COMMAND, { p with command_queue := { items := cs } }) := by
  rw [Protocol.WriteCommands]
  simp [BufferQueue.Size, BufferQueue.Get, h]

/-- A command in 0x30..0x33 whose write succeeds is handed to the line as one block and
consumes one scripted write result. -/
theorem WriteByte_ok (p : Protocol) (c : Nat) (hc : 0x30 ≤ c ∧ c ≤ 0x33)
    (hw : ∀ r ∈ p.serial.wres.take 1, r = 1) :
    Protocol.WriteByte p c =
      (ProtoError.PROTO_OK,
        { p with serial := { p.serial with wres := p.serial.wres.drop 1,
                                           written := p.serial.written ++ [[c]] } }) := by
  have hb : toByte c = c := by unfold toByte; omega
  unfold Protocol.WriteByte Serial.Write
  rw [hb]
  cases hs : p.serial.wres with
  | nil => simp
  | cons r rs =>
    have hr : r = 1 := hw r (by simp [hs])
    subst hr
    simp

/-- While the queued commands are in 0x30..0x33 and their writes succeed, `WriteCommands`
hands them to the line one by one, in order, and goes on with the rest of the queue. -/
theorem WriteCommands_run :
    ∀ (pre : List Nat) (p : Protocol) (cmd : Nat) (post : List Nat),
      p.command_queue.items = pre ++ post →
      (∀ c ∈ pre, 0x30 ≤ c ∧ c ≤ 0x33) →
      (∀ r ∈ p.serial.wres.take pre.length, r = 1) →
      ∃ cmd1 : Nat,
        Protocol.WriteCommands p cmd =
          Protocol.WriteCommands
            { p with command_queue := { items := post },
                     serial := { p.serial with
                       wres := p.serial.wres.drop pre.length,
                       written := p.serial.written ++ pre.map (fun c => [c]) } } cmd1
  | [], p, cmd, post, hq, _, _ => by
    refine ⟨cmd, ?_⟩
    congr 1
    obtain ⟨serial, dq, cq, ⟨items⟩, status, tr, script⟩ := p
    simp only [List.nil_append] at hq
    subst hq
    simp
  | c :: pre, p, cmd, post, hq, hrange, hw => by
    have hc : 0x30 ≤ c ∧ c ≤ 0x33 := hrange c (by simp)
    have hw1 : ∀ r ∈ p.serial.wres.take 1, r = 1 := by
      intro r hr
      apply hw r
      have : p.serial.wres.take 1 = (p.serial.wres.take (c :: pre).length).take 1 := by
        simp [List.take_take]
      rw [this] at hr
      exact List.mem_of_mem_take hr
    rw [WriteCommands_cons p cmd c (pre ++ post) (by simpa using hq), if_pos hc,
      WriteByte_ok { p with command_queue := { items := pre ++ post } } c hc hw1]
    simp only [ne_eq, not_true_eq_false, if_false]
    obtain ⟨cmd1, h1⟩ := WriteCommands_run pre
      { p with command_queue := { items := pre ++ post },
               serial := { p.serial with wres := p.serial.wres.drop 1,
                                         written := p.serial.written ++ [[c]] } }
      c post rfl (fun x hx => hrange x (by simp [hx]))
      (by
        intro r hr
        apply hw r
        simp only [List.length_cons]
        cases hs : p.serial.wres with
        | nil => simp [hs] at hr
        | cons a as =>
          simp only [hs, List.drop_succ_cons, List.drop_zero] at hr
          simp [List.take_succ_cons, hr])
    refine ⟨cmd1, ?_⟩
    rw [h1]
    congr 1
    simp [List.drop_drop, Nat.add_comm]

/-- A failed write of a command in 0x30..0x33: the block is handed to the line and the
result is `PROTO_WRITE`. -/
theorem WriteByte_fails (p : Protocol) (c : Nat) (hc : 0x30 ≤ c ∧ c ≤ 0x33) (r : Int)
    (rs : List Int) (hs : p.serial.wres = r :: rs) (hr : r ≠ 1) :
    Protocol.WriteByte p c =
      (ProtoError.PROTO_WRITE,
        { p with serial := { p.serial with wres := rs,
                                           written := p.serial.written ++ [[c]] } }) := by
  have hb : toByte c = c := by unfold toByte; omega
  unfold Protocol.WriteByte Serial.Write
  rw [hb, hs]
  simp [hr]

/-- The result of `WriteCommands` is `PROTO_OK` exactly when every queued command is in
0x30..0x33 and every write succeeds. -/
theorem WriteCommands_ok_iff :
    ∀ (cmds : List Nat) (p : Protocol) (cmd : Nat), p.command_queue.items = cmds →
      ((Protocol.WriteCommands p cmd).1 = ProtoError.PROTO_OK ↔
        (∀ c ∈ cmds, 0x30 ≤ c ∧ c ≤ 0x33) ∧ (∀ r ∈ p.serial.wres.take cmds.length, r = 1))
  | [], p, cmd, hq => by
    rw [WriteCommands_nil p cmd hq]
    simp
  | c :: cs, p, cmd, hq => by
    rw [WriteCommands_cons p cmd c cs hq]
    by_cases hc : 0x30 ≤ c ∧ c ≤ 0x33
    · rw [if_pos hc]
      cases hs : p.serial.wres with
      | nil =>
        rw [WriteByte_ok _ c hc (by simp [hs])]
        simp only [ne_eq, not_true_eq_false, if_false]
        rw [WriteCommands_ok_iff cs _ c rfl]
        simp [hs, hc]
      | cons r rs =>
        by_cases hr : r = 1
        · rw [WriteByte_ok _ c hc (by simp [hs, hr])]
          simp only [ne_eq, not_true_eq_false, if_false]
          rw [WriteCommands_ok_iff cs _ c rfl]
          simp [hs, hc, hr]
        · rw [WriteByte_fails { p with command_queue := { items := cs } } c hc r rs hs hr]
          simp [hr]
    · rw [if_neg hc]
      constructor
      · intro h; exact absurd h (by simp)
      · intro h; exact absurd (h.1 c (by simp)) hc

/-- C23: `WriteCommands` takes the commands off the command queue in arrival order and
hands a command to the line only if it lies in 0x30..0x33. Its result is `PROTO_OK` exactly
when every queued command is in that range and every write succeeds, and the queue is then
empty. With the queue split as `pre ++ post`, where the commands of `pre` are in range and
their writes succeed: if `post` begins with a command outside the range the result is
`PROTO_COMMAND`, exactly the commands of `pre` have been written, and the commands after the
offending one are still queued; if `post` begins with a command in range whose write fails
the result is `PROTO_WRITE` and the commands after it are still queued. -/
theorem WriteCommands_contract (p : Protocol) (cmd : Nat) (pre post : List Nat)
    (hq : p.command_queue.items = pre ++ post)
    (hrange : ∀ c ∈ pre, 0x30 ≤ c ∧ c ≤ 0x33)
    (hw : ∀ r ∈ p.serial.wres.take pre.length, r = 1) :
    ((Protocol.WriteCommands p cmd).1 = ProtoError.PROTO_OK ↔
      (∀ c ∈ pre ++ post, 0x30 ≤ c ∧ c ≤ 0x33) ∧
      (∀ r ∈ p.serial.wres.take (pre ++ post).length, r = 1)) ∧
    (post = [] →
      (Protocol.WriteCommands p cmd).1 = ProtoError.PROTO_OK ∧
      (Protocol.WriteCommands p cmd).2.command_queue.items = [] ∧
      (Protocol.WriteCommands p cmd).2.serial.written
        = p.serial.written ++ pre.map (fun c => [c])) ∧
    (∀ (bad : Nat) (rest : List Nat), post = bad :: rest → ¬ (0x30 ≤ bad ∧ bad ≤ 0x33) →
      (Protocol.WriteCommands p cmd).1 = ProtoError.PROTO_COMMAND ∧
      (Protocol.WriteCommands p cmd).2.command_queue.items = rest ∧
      (Protocol.WriteCommands p cmd).2.serial.written
        = p.serial.written ++ pre.map (fun c => [c])) ∧
    (∀ (c : Nat) (rest : List Nat) (r : Int) (rs : List Int), post = c :: rest →
      (0x30 ≤ c ∧ c ≤ 0x33) → p.serial.wres.drop pre.length = r :: rs → r ≠ 1 →
      (Protocol.WriteCommands p cmd).1 = ProtoError.PROTO_WRITE ∧
      (Protocol.WriteCommands p cmd).2.command_queue.items = rest ∧
      (Protocol.WriteCommands p cmd).2.serial.written
        = p.serial.written ++ (pre ++ [c]).map (fun c => [c])) := by
  obtain ⟨cmd1, hrun⟩ := WriteCommands_run pre p cmd post hq hrange hw
  refine ⟨WriteCommands_ok_iff (pre ++ post) p cmd hq, ?_, ?_, ?_⟩
  · intro hpost
    subst hpost
    rw [hrun, WriteCommands_nil _ _ rfl]
    exact ⟨rfl, rfl, rfl⟩
  · intro bad rest hpost hbad
    subst hpost
    rw [hrun, WriteCommands_cons _ cmd1 bad rest rfl, if_neg hbad]
    exact ⟨rfl, rfl, rfl⟩
  · intro c rest r rs hpost hc hs hr
    subst hpost
    rw [hrun, WriteCommands_cons _ cmd1 c rest rfl, if_pos hc,
      WriteByte_fails
        { p with command_queue := { items := rest },
                 serial := { p.serial with
                   wres := p.serial.wres.drop pre.length,
                   written := p.serial.written ++ pre.map (fun c => [c]) } }
        c hc r rs hs hr]
    simp

/-- C23 at a concrete queue: of the commands 0x31, 0x40, 0x32 only the first is written,
the result is `PROTO_COMMAND` and 0x32 is still queued. -/
theorem WriteCommands_contract_witness :
    (Protocol.WriteCommands { command_queue := { items := [0x31, 0x40, 0x32] } } 0).1
      = ProtoError.PROTO_COMMAND ∧
    (Protocol.WriteCommands
      { command_queue := { items := [0x31, 0x40, 0x32] } } 0).2.command_queue.items = [0x32] ∧
    (Protocol.WriteCommands
      { command_queue := { items := [0x31, 0x40, 0x32] } } 0).2.serial.written
      = ({ command_queue := { items := [0x31, 0x40, 0x32] } } : Protocol).serial.written
          ++ [0x31].map (fun c => [c]) :=
  (WriteCommands_contract { command_queue := { items := [0x31, 0x40, 0x32] } } 0
    [0x31] [0x40, 0x32] rfl (by decide) (by decide)).2.2.1 0x40 [0x32] rfl (by decide)

/-- The result of `ReadDataNumberX1` after a successful head/tail read. -/
theorem ReadDataNumberX1_eq (p : Protocol) (head tail h t : Nat)
    (rest : List (Option (Nat × Nat))) (hs : p.script.headTails = some (h, t) :: rest) :
    (Protocol.ReadDataNumberX1 p head tail).1
      = Int.tdiv (Int.tmod (((h % 65536 : Nat) : Int) + 0x8000 - ((t % 65536 : Nat) : Int))
          0x8000) 8 := by
  simp [Protocol.ReadDataNumberX1, Protocol.ReadHeadTailX1, hs]

/-- C27, counterexample: with head 0 and tail 0x8008 delivered by a successful read,
`ReadDataNumberX1` returns -1; with head 0 and tail 0xc000 it returns -2048, which is not in
0..4095 and is not ((head + 0x8000 - tail) mod 0x8000) / 8 = 2048. -/
theorem ReadDataNumberX1_negative_counterexample :
    (Protocol.ReadHeadTailX1 { script := { headTails := [some (0, 0x8008)] } } 0 0).1 = true ∧
    (Protocol.ReadDataNumberX1 { script := { headTails := [some (0, 0x8008)] } } 0 0).1 = -1 ∧
    (Protocol.ReadHeadTailX1 { script := { headTails := [some (0, 0xc000)] } } 0 0).1 = true ∧
    (Protocol.ReadDataNumberX1 { script := { headTails := [some (0, 0xc000)] } } 0 0).1
      = -2048 ∧
    (0 + 0x8000 - 0xc000 : Int) % 0x8000 / 8 = 2048 := by
  decide

/-- C27, amended: for 16-bit head and tail values delivered by a successful read with
`tail ≤ head + 0x8000` (so whenever the tail is at most 0x8000), `ReadDataNumberX1` returns
((head + 0x8000 - tail) mod 0x8000) / 8, a value in 0..4095; with `tail > head + 0x8000` it
returns minus (tail - head - 0x8000) / 8, a value in -4095..0; when the head/tail read fails
it returns -1. -/
theorem ReadDataNumberX1_count (p : Protocol) (head tail : Nat) :
    (∀ (h t : Nat) (rest : List (Option (Nat × Nat))),
      p.script.headTails = some (h, t) :: rest → h < 65536 → t < 65536 →
      (t ≤ h + 0x8000 →
        (Protocol.ReadDataNumberX1 p head tail).1
          = (((h + 0x8000 - t) % 0x8000 / 8 : Nat) : Int) ∧
        0 ≤ (Protocol.ReadDataNumberX1 p head tail).1 ∧
        (Protocol.ReadDataNumberX1 p head tail).1 ≤ 4095) ∧
      (h + 0x8000 < t →
        (Protocol.ReadDataNumberX1 p head tail).1
          = - (((t - h - 0x8000) / 8 : Nat) : Int) ∧
        -4095 ≤ (Protocol.ReadDataNumberX1 p head tail).1 ∧
        (Protocol.ReadDataNumberX1 p head tail).1 ≤ 0)) ∧
    ((Protocol.ReadHeadTailX1 p head tail).1 = false →
      (Protocol.ReadDataNumberX1 p head tail).1 = -1) := by
  constructor
  · intro h t rest hs hh ht
    rw [ReadDataNumberX1_eq p head tail h t rest hs, Nat.mod_eq_of_lt hh, Nat.mod_eq_of_lt ht]
    constructor
    · intro hle
      have e : ((h : Int) + 0x8000 - (t : Int)) = ((h + 0x8000 - t : Nat) : Int) := by
        omega
      rw [e]
      have e2 : Int.tdiv (Int.tmod ((h + 0x8000 - t : Nat) : Int) 0x8000) 8
          = (((h + 0x8000 - t) % 0x8000 / 8 : Nat) : Int) := by
        rw [show (0x8000 : Int) = ((0x8000 : Nat) : Int) from rfl,
          show (8 : Int) = ((8 : Nat) : Int) from rfl]
        rw [← Int.ofNat_tmod, ← Int.ofNat_tdiv]
      rw [e2]
      omega
    · intro hlt
      have e : ((h : Int) + 0x8000 - (t : Int)) = - ((t - h - 0x8000 : Nat) : Int) := by
        omega
      rw [e]
      have hsmall : t - h - 0x8000 < 0x8000 := by omega
      have e2 : Int.tdiv (Int.tmod (- ((t - h - 0x8000 : Nat) : Int)) 0x8000) 8
          = - (((t - h - 0x8000) / 8 : Nat) : Int) := by
        have hm : Int.tmod (- ((t - h - 0x8000 : Nat) : Int)) 0x8000
            = - ((t - h - 0x8000 : Nat) : Int) := by
          rw [Int.tmod_def, Int.neg_tdiv,
            show (0x8000 : Int) = ((0x8000 : Nat) : Int) from rfl, ← Int.ofNat_tdiv,
            Nat.div_eq_of_lt hsmall]
          simp
        rw [hm, Int.neg_tdiv, show (8 : Int) = ((8 : Nat) : Int) from rfl, ← Int.ofNat_tdiv]
      rw [e2]
      omega
  · intro hfail
    unfold Protocol.ReadDataNumberX1
    simp [hfail]

/-- C27 at concrete values: head 0x0010 and tail 0x7ff0 give (0x8020 mod 0x8000) / 8 = 4. -/
theorem ReadDataNumberX1_count_witness :
    (Protocol.ReadDataNumberX1 { script := { headTails := [some (0x0010, 0x7ff0)] } } 0 0).1
      = (((0x0010 + 0x8000 - 0x7ff0) % 0x8000 / 8 : Nat) : Int) :=
  ((ReadDataNumberX1_count { script := { headTails := [some (0x0010, 0x7ff0)] } } 0 0).1
    0x0010 0x7ff0 [] rfl (by decide) (by decide)).1 (by decide) |>.1

/-- A status read appends one `Read8000` operation to the trace. -/
theorem Read8000_trace (p : Protocol) (mode : Nat) :
    ∃ o : Option Nat, (p.Read8000 mode).2.2.trace = p.trace ++ [ProtoOp.Read8000 o] := by
  unfold Protocol.Read8000
  split
  · exact ⟨none, rfl⟩
  · exact ⟨none, rfl⟩
  · exact ⟨_, rfl⟩

/-- The first loop of `toggleCalib` only reads the status. -/
theorem toggleCalibReadLoop_trace :
    ∀ (n : Nat) (p : Protocol) (mode : Nat),
      ∃ ops : List ProtoOp,
        (DistoX.toggleCalibReadLoop n p mode).2.trace = p.trace ++ ops ∧
        ops.all innerOp = true ∧ sentBytes ops = []
  | 0, p, mode => ⟨[], by simp [DistoX.toggleCalibReadLoop], rfl, rfl⟩
  | n + 1, p, mode => by
    obtain ⟨o, ho⟩ := Read8000_trace p mode
    simp only [DistoX.toggleCalibReadLoop]
    split
    · exact ⟨[ProtoOp.Read8000 o], ho, rfl, rfl⟩
    · obtain ⟨ops, h1, h2, h3⟩ :=
        toggleCalibReadLoop_trace n (p.Read8000 mode).2.2 (p.Read8000 mode).2.1
      refine ⟨ProtoOp.Read8000 o :: ops, ?_, ?_, ?_⟩
      · rw [h1, ho]; simp
      · simpa [innerOp] using h2
      · simpa [sentBytes] using h3

/-- The second loop of `toggleCalib` sends command bytes and reads the status; a loop of at
least one round begins with the command byte. -/
theorem toggleCalibSendLoop_trace (mode : Nat) :
    ∀ (n : Nat) (p : Protocol) (mode1 : Nat),
      ∃ ops : List ProtoOp,
        (DistoX.toggleCalibSendLoop mode n p mode1).2.trace = p.trace ++ ops ∧
        ops.all innerOp = true ∧
        (0 < n → ∃ rest, ops = ProtoOp.SendCommandByte
          (if (mode &&& STATUS_CALIB) != 0 then 0x30 else 0x31) :: rest)
  | 0, p, mode1 => ⟨[], by simp [DistoX.toggleCalibSendLoop], rfl, by simp⟩
  | n + 1, p, mode1 => by
    have hsend : ∃ q : Protocol,
        (if (mode &&& STATUS_CALIB) != 0 then p.SendCommandByte 0x30
          else p.SendCommandByte 0x31) = (true, q) ∧
        q.trace = p.trace ++ [ProtoOp.SendCommandByte
          (if (mode &&& STATUS_CALIB) != 0 then 0x30 else 0x31)] := by
      by_cases hc : ((mode &&& STATUS_CALIB) != 0) = true
      · exact ⟨_, by rw [if_pos hc]; rfl, by rw [if_pos hc]; rfl⟩
      · exact ⟨_, by rw [if_neg hc]; rfl, by rw [if_neg hc]; rfl⟩
    obtain ⟨q, hq, hqt⟩ := hsend
    obtain ⟨o, ho⟩ := Read8000_trace q mode1
    simp only [DistoX.toggleCalibSendLoop, hq]
    split
    · exact ⟨[ProtoOp.SendCommandByte (if (mode &&& STATUS_CALIB) != 0 then 0x30 else 0x31),
          ProtoOp.Read8000 o], by rw [ho, hqt]; simp, rfl, fun _ => ⟨_, rfl⟩⟩
    · obtain ⟨ops, h1, h2, _⟩ :=
        toggleCalibSendLoop_trace mode n (q.Read8000 mode1).2.2 (q.Read8000 mode1).2.1
      refine ⟨ProtoOp.SendCommandByte (if (mode &&& STATUS_CALIB) != 0 then 0x30 else 0x31)
        :: ProtoOp.Read8000 o :: ops, ?_, ?_, fun _ => ⟨_, rfl⟩⟩
      · rw [h1, ho, hqt]; simp
      · simpa [innerOp] using h2

/-- C30: on an open line, when the first status read of `toggleCalib` that succeeds (after
`k < 3` failed ones) delivers the byte 0x00, `toggleCalib` returns -1 having sent no command
byte and made no further status read: it opens, reads `k + 1` times and closes. The same
result -1, with no command byte sent, is returned when all three initial reads fail. When
the first successful read delivers a non-zero byte, at least one command byte is sent, the
first being 0x30 if the calibration bit of that byte is set and 0x31 otherwise. -/
theorem toggleCalib_zero_status (p : Protocol) (hopen : p.serial.opens = true) :
    (∀ (k m : Nat) (rest : List (Option Nat)), k < 3 →
      p.status = List.replicate k none ++ some m :: rest → toByte m = 0 →
      (DistoX.toggleCalib p).1 = -1 ∧
      performed p (DistoX.toggleCalib p).2
        = ProtoOp.Open true :: List.replicate k (ProtoOp.Read8000 none)
            ++ [ProtoOp.Read8000 (some 0), ProtoOp.Close]) ∧
    ((∀ k < 3, outcomeAt p.status k = none) →
      (DistoX.toggleCalib p).1 = -1 ∧
      performed p (DistoX.toggleCalib p).2
        = [ProtoOp.Open true, ProtoOp.Read8000 none, ProtoOp.Read8000 none,
           ProtoOp.Read8000 none, ProtoOp.Close]) ∧
    (∀ (k m : Nat) (rest : List (Option Nat)), k < 3 →
      p.status = List.replicate k none ++ some m :: rest → toByte m ≠ 0 →
      ∃ bs : List Nat,
        sentBytes (performed p (DistoX.toggleCalib p).2)
          = (if (toByte m &&& STATUS_CALIB) != 0 then 0x30 else 0x31) :: bs) := by
  obtain ⟨serial, dq, cq, kq, status, trace, script⟩ := p
  simp only at hopen
  refine ⟨?_, ?_, ?_⟩
  · intro k m rest hk hs hm
    simp only at hs
    subst hs
    match k, hk with
    | 0, _ =>
      simp [DistoX.toggleCalib, DistoX.toggleCalibReadLoop, Protocol.Open, Serial.Open, hopen,
        Protocol.Read8000, Protocol.Close, Serial.Close, hm, performed]
    | 1, _ =>
      simp [DistoX.toggleCalib, DistoX.toggleCalibReadLoop, Protocol.Open, Serial.Open, hopen,
        Protocol.Read8000, Protocol.Close, Serial.Close, hm, performed, List.replicate]
    | 2, _ =>
      simp [DistoX.toggleCalib, DistoX.toggleCalibReadLoop, Protocol.Open, Serial.Open, hopen,
        Protocol.Read8000, Protocol.Close, Serial.Close, hm, performed, List.replicate]
  · intro hall
    rw [forall_lt_three] at hall
    obtain ⟨h0, h1, h2⟩ := hall
    simp only [outcomeAt] at h0 h1 h2
    rcases status with _ | ⟨a, _ | ⟨b, _ | ⟨c, rest⟩⟩⟩
    · simp [DistoX.toggleCalib, DistoX.toggleCalibReadLoop, Protocol.Open, Serial.Open, hopen,
        Protocol.Read8000, Protocol.Close, Serial.Close, performed]
    · simp at h0
      subst h0
      simp [DistoX.toggleCalib, DistoX.toggleCalibReadLoop, Protocol.Open, Serial.Open, hopen,
        Protocol.Read8000, Protocol.Close, Serial.Close, performed]
    · simp at h0 h1
      subst h0 h1
      simp [DistoX.toggleCalib, DistoX.toggleCalibReadLoop, Protocol.Open, Serial.Open, hopen,
        Protocol.Read8000, Protocol.Close, Serial.Close, performed]
    · simp at h0 h1 h2
      subst h0 h1 h2
      simp [DistoX.toggleCalib, DistoX.toggleCalibReadLoop, Protocol.Open, Serial.Open, hopen,
        Protocol.Read8000, Protocol.Close, Serial.Close, performed]
  · intro k m rest hk hs hm
    simp only at hs
    subst hs
    have key : ∀ (q : Protocol) (pre : List ProtoOp), sentBytes pre = [] →
        q.trace = trace ++ pre →
        ∃ bs : List Nat,
          sentBytes (performed ⟨serial, dq, cq, kq,
              List.replicate k none ++ some m :: rest, trace, script⟩
            (Protocol.Close (DistoX.toggleCalibSendLoop (toByte m) 3 q 0).2))
            = (if (toByte m &&& STATUS_CALIB) != 0 then 0x30 else 0x31) :: bs := by
      intro q pre hpre hq
      obtain ⟨ops, h1, _, h3⟩ := toggleCalibSendLoop_trace (toByte m) 3 q 0
      obtain ⟨tl, htl⟩ := h3 (by decide)
      refine ⟨sentBytes tl ++ [], ?_⟩
      rw [performed_append _ _ (pre ++ ops ++ [ProtoOp.Close])
        (by simp [Protocol.Close, h1, hq])]
      rw [sentBytes_append, sentBytes_append, hpre, htl]
      simp [sentBytes]
    match k, hk with
    | 0, _ =>
      obtain ⟨bs, hbs⟩ := key
        ⟨serial, dq, cq, kq, rest,
          trace ++ [ProtoOp.Open true] ++ [ProtoOp.Read8000 (some (toByte m))], script⟩
        [ProtoOp.Open true, ProtoOp.Read8000 (some (toByte m))] rfl (by simp)
      refine ⟨bs, ?_⟩
      rw [← hbs]
      simp only [DistoX.toggleCalib, DistoX.toggleCalibReadLoop, Protocol.Open, Serial.Open,
        hopen, Protocol.Read8000, List.replicate, List.nil_append]
      simp [hm]
      split <;> split <;> rfl
    | 1, _ =>
      obtain ⟨bs, hbs⟩ := key
        ⟨serial, dq, cq, kq, rest,
          trace ++ [ProtoOp.Open true] ++ [ProtoOp.Read8000 none]
            ++ [ProtoOp.Read8000 (some (toByte m))], script⟩
        [ProtoOp.Open true, ProtoOp.Read8000 none, ProtoOp.Read8000 (some (toByte m))] rfl
        (by simp)
      refine ⟨bs, ?_⟩
      rw [← hbs]
      simp only [DistoX.toggleCalib, DistoX.toggleCalibReadLoop, Protocol.Open, Serial.Open,
        hopen, Protocol.Read8000, List.replicate, List.nil_append, List.cons_append]
      simp [hm]
      split <;> split <;> rfl
    | 2, _ =>
      obtain ⟨bs, hbs⟩ := key
        ⟨serial, dq, cq, kq, rest,
          trace ++ [ProtoOp.Open true] ++ [ProtoOp.Read8000 none] ++ [ProtoOp.Read8000 none]
            ++ [ProtoOp.Read8000 (some (toByte m))], script⟩
        [ProtoOp.Open true, ProtoOp.Read8000 none, ProtoOp.Read8000 none,
          ProtoOp.Read8000 (some (toByte m))] rfl (by simp)
      refine ⟨bs, ?_⟩
      rw [← hbs]
      simp only [DistoX.toggleCalib, DistoX.toggleCalibReadLoop, Protocol.Open, Serial.Open,
        hopen, Protocol.Read8000, List.replicate, List.nil_append, List.cons_append]
      simp [hm]
      split <;> split <;> rfl

/-- C30 at a concrete script: the first read fails and the second delivers 0x00;
`toggleCalib` returns -1 and has only opened, read twice and closed. -/
theorem toggleCalib_zero_status_witness :
    (DistoX.toggleCalib { status := [none, some 0x00, some 0x08] }).1 = -1 ∧
    performed { status := [none, some 0x00, some 0x08] }
        (DistoX.toggleCalib { status := [none, some 0x00, some 0x08] }).2
      = ProtoOp.Open true :: List.replicate 1 (ProtoOp.Read8000 none)
          ++ [ProtoOp.Read8000 (some 0), ProtoOp.Close] :=
  (toggleCalib_zero_status { status := [none, some 0x00, some 0x08] } rfl).1
    1 0x00 [some 0x08] (by decide) rfl (by decide)

/-- One round of the `while` loop of `download`. -/
theorem downloadWhile_eq (st : DownloadState) :
    DistoX.downloadWhile st =
      if st.number ≠ 0 then
        if st.mProto.ReadData.1 = ProtoError.PROTO_OK then
          if st.number - 1 = 0 then
            { st with number := st.number - 1, cnt := st.cnt + 1, err := st.mProto.ReadData.1,
                      mProto := st.mProto.ReadData.2,
                      mListener := notifyListener st.mListener
                        (ListenerCall.distoxDownload (st.cnt + 1)) }
          else
            DistoX.downloadWhile
              { st with number := st.number - 1, cnt := st.cnt + 1,
                        err := st.mProto.ReadData.1, mProto := st.mProto.ReadData.2,
                        mListener := notifyListener st.mListener
                          (ListenerCall.distoxDownload (st.cnt + 1)) }
        else { st with err := st.mProto.ReadData.1, mProto := st.mProto.ReadData.2 }
      else st := by
  rw [DistoX.downloadWhile]
  simp only [dite_eq_ite]

/-- The `while` loop of `download`: it makes `k` successful reads, each followed by the
callback with the running count, and stops either because `number` has reached zero or at
the first read that fails (`tail` holds its result). -/
theorem downloadWhile_spec :
    ∀ (reads : List ProtoError) (st : DownloadState), st.mProto.script.dataReads = reads →
      ∃ (k : Nat) (tail : List ProtoError),
        DistoX.downloadWhile st =
          { number := st.number - k, cnt := st.cnt + k,
            err := tail.head?.getD (if k = 0 then st.err else ProtoError.PROTO_OK),
            mProto :=
              { st.mProto with
                script := { st.mProto.script with dataReads := reads.drop (k + tail.length) },
                trace := st.mProto.trace ++
                  (List.replicate k ProtoError.PROTO_OK ++ tail).map ProtoOp.ReadData },
            mListener := st.mListener.map (fun l =>
              l ++ (List.range k).map (fun i => ListenerCall.distoxDownload (st.cnt + i + 1))),
            retryChecks := st.retryChecks } ∧
        (tail = [] ∨ ∃ e, tail = [e] ∧ e ≠ ProtoError.PROTO_OK) ∧
        (0 ≤ st.number → ((k + tail.length : Nat) : Int) ≤ st.number)
  | [], st, hr => by
    obtain ⟨number, cnt, err, ⟨serial, dq, cq, kq, status, trace, ⟨dr, dn, ht, cr, cw⟩⟩,
      l, checks⟩ := st
    simp only at hr
    subst hr
    rw [downloadWhile_eq]
    by_cases hnum : number = 0
    · refine ⟨0, [], ?_, Or.inl rfl, fun _ => by simp [hnum]⟩
      cases l <;> simp [hnum]
    · refine ⟨0, [ProtoError.PROTO_TIMEOUT], ?_, Or.inr ⟨_, rfl, by decide⟩,
        fun h => by simp at h ⊢; omega⟩
      cases l <;> simp [hnum, Protocol.ReadData]
  | e :: rest, st, hr => by
    obtain ⟨number, cnt, err, ⟨serial, dq, cq, kq, status, trace, ⟨dr, dn, ht, cr, cw⟩⟩,
      l, checks⟩ := st
    simp only at hr
    subst hr
    rw [downloadWhile_eq]
    by_cases hnum : number = 0
    · refine ⟨0, [], ?_, Or.inl rfl, fun _ => by simp [hnum]⟩
      cases l <;> simp [hnum]
    · have hrd : Protocol.ReadData
            ⟨serial, dq, cq, kq, status, trace, ⟨e :: rest, dn, ht, cr, cw⟩⟩ =
          (e, ⟨serial, dq, cq, kq, status, trace ++ [ProtoOp.ReadData e],
                ⟨rest, dn, ht, cr, cw⟩⟩) := by
        simp [Protocol.ReadData]
      simp only [ne_eq, hnum, not_false_eq_true, if_true, hrd]
      by_cases he : e = ProtoError.PROTO_OK
      · subst he
        simp only [if_true]
        by_cases h1 : number - 1 = 0
        · rw [if_pos h1]
          refine ⟨1, [], ?_, Or.inl rfl, fun _ => by simp; omega⟩
          cases l <;> simp [notifyListener, List.range_succ]
        · rw [if_neg h1]
          obtain ⟨k, tail, hk, htail, hle⟩ := downloadWhile_spec rest
            ⟨number - 1, cnt + 1, ProtoError.PROTO_OK,
              ⟨serial, dq, cq, kq, status, trace ++ [ProtoOp.ReadData ProtoError.PROTO_OK],
                ⟨rest, dn, ht, cr, cw⟩⟩,
              notifyListener l (ListenerCall.distoxDownload (cnt + 1)), checks⟩ rfl
          refine ⟨k + 1, tail, ?_, htail, fun h => ?_⟩
          · simp only at hk
            rw [hk]
            cases l with
            | none =>
              simp [notifyListener, List.replicate_succ, Nat.add_assoc, Nat.add_comm 1,
                sub_sub]
              exact ⟨by omega, by rw [← Nat.add_assoc]; rfl⟩
            | some v =>
              simp [notifyListener, List.replicate_succ, Nat.add_assoc, Nat.add_comm 1,
                sub_sub]
              refine ⟨by omega, by rw [← Nat.add_assoc]; rfl, ?_⟩
              rw [List.range_succ_eq_map]
              simp [List.map_map, Function.comp]
          · simp only at h hle ⊢
            have := hle (by omega)
            push_cast at this ⊢
            omega
      · simp only [if_neg he]
        refine ⟨0, [e], ?_, Or.inr ⟨e, rfl, he⟩, fun h => by simp at h ⊢; omega⟩
        cases l <;> simp

/-- One round of the `for` loop of `download` entered with `retry` equal to 0. -/
theorem downloadFor_succ (ask : Bool) (fuel : Nat) (st : DownloadState) :
    DistoX.downloadFor ask (fuel + 1) 0 st =
      if ask then
        if 0 < (DistoX.downloadWhile st).mProto.ReadDataNumber.1 then
          DistoX.downloadFor ask fuel 0
            { number := (DistoX.downloadWhile st).mProto.ReadDataNumber.1,
              cnt := (DistoX.downloadWhile st).cnt,
              err := (DistoX.downloadWhile st).err,
              mProto := (DistoX.downloadWhile st).mProto.ReadDataNumber.2,
              mListener := (DistoX.downloadWhile st).mListener,
              retryChecks :=
                if (DistoX.downloadWhile st).err = ProtoError.PROTO_TIMEOUT then
                  (DistoX.downloadWhile st).retryChecks ++ [0]
                else (DistoX.downloadWhile st).retryChecks }
        else
          some
            { number := (DistoX.downloadWhile st).mProto.ReadDataNumber.1,
              cnt := (DistoX.downloadWhile st).cnt,
              err := (DistoX.downloadWhile st).err,
              mProto := (DistoX.downloadWhile st).mProto.ReadDataNumber.2,
              mListener := (DistoX.downloadWhile st).mListener,
              retryChecks :=
                if (DistoX.downloadWhile st).err = ProtoError.PROTO_TIMEOUT then
                  (DistoX.downloadWhile st).retryChecks ++ [0]
                else (DistoX.downloadWhile st).retryChecks }
      else
        some
          { number := (DistoX.downloadWhile st).number,
            cnt := (DistoX.downloadWhile st).cnt,
            err := (DistoX.downloadWhile st).err,
            mProto := (DistoX.downloadWhile st).mProto,
            mListener := (DistoX.downloadWhile st).mListener,
            retryChecks :=
              if (DistoX.downloadWhile st).err = ProtoError.PROTO_TIMEOUT then
                (DistoX.downloadWhile st).retryChecks ++ [0]
              else (DistoX.downloadWhile st).retryChecks } := by
  simp only [DistoX.downloadFor, lt_self_iff_false, and_false, if_false, sub_add_cancel,
    gt_iff_lt]
  by_cases he : (DistoX.downloadWhile st).err = ProtoError.PROTO_TIMEOUT
  · simp only [he, if_true]
  · simp only [he, if_false]

/-- The count query appends one `ReadDataNumber` operation and leaves the line alone. -/
theorem ReadDataNumber_eq (p : Protocol) :
    p.ReadDataNumber.2.trace = p.trace ++ [ProtoOp.ReadDataNumber p.ReadDataNumber.1] ∧
    p.ReadDataNumber.2.serial = p.serial ∧
    p.ReadDataNumber.2.script.dataNumbers = p.script.dataNumbers.drop 1 ∧
    (0 < p.ReadDataNumber.1 → p.script.dataNumbers ≠ []) := by
  unfold Protocol.ReadDataNumber
  split <;> simp_all

/-- A successful read at the head of a trace does not matter for `guardedRetries`. -/
theorem guardedRetries_ok_cons (ask : Bool) (rest : List ProtoOp) :
    guardedRetries ask (ProtoOp.ReadData ProtoError.PROTO_OK :: rest)
      = guardedRetries ask rest := by
  simp [guardedRetries]

/-- Successful reads at the head of a trace do not matter for `guardedRetries`. -/
theorem guardedRetries_ok (ask : Bool) (rest : List ProtoOp) :
    ∀ k : Nat, guardedRetries ask
        ((List.replicate k ProtoError.PROTO_OK).map ProtoOp.ReadData ++ rest)
      = guardedRetries ask rest
  | 0 => rfl
  | k + 1 => by
    rw [List.replicate_succ, List.map_cons, List.cons_append, guardedRetries_ok_cons]
    exact guardedRetries_ok ask rest k

/-- The operations of the `while` loop of `download` are `ReadData` calls. -/
theorem readData_all_inner (l : List ProtoError) :
    (l.map ProtoOp.ReadData).all innerOp = true := by
  induction l with
  | nil => rfl
  | cons e t ih => simp [innerOp]

/-- What the `while` loop of `download` leaves alone, and the operations it performs:
successful reads, then at most one failed read. -/
theorem downloadWhile_facts (st : DownloadState) :
    ∃ (k : Nat) (tail : List ProtoError),
      (DistoX.downloadWhile st).mProto.trace
        = st.mProto.trace ++
            ((List.replicate k ProtoError.PROTO_OK).map ProtoOp.ReadData
              ++ tail.map ProtoOp.ReadData) ∧
      (tail = [] ∨ ∃ e, tail = [e] ∧ e ≠ ProtoError.PROTO_OK) ∧
      (DistoX.downloadWhile st).mProto.serial = st.mProto.serial ∧
      (DistoX.downloadWhile st).mProto.script.dataNumbers
        = st.mProto.script.dataNumbers ∧
      (DistoX.downloadWhile st).retryChecks = st.retryChecks := by
  obtain ⟨k, tail, hk, htail, _⟩ := downloadWhile_spec _ st rfl
  refine ⟨k, tail, ?_, htail, ?_, ?_, ?_⟩
  · rw [hk]; simp
  · rw [hk]
  · rw [hk]
  · rw [hk]

/-- The operations after the `while` loop of `download`, up to the `Close`, satisfy the
guard: a failed read at the end of the loop is followed by the end of the session, or by a
count query and then either a positive count or the end. -/
theorem guardedRetries_tail (ask : Bool) (tail : List ProtoError) (after : List ProtoOp)
    (htail : tail = [] ∨ ∃ e, tail = [e] ∧ e ≠ ProtoError.PROTO_OK)
    (hafter : guardedRetries ask after = true)
    (hnext : sessionEnds after = true ∨
      ∃ m rest1, after = ProtoOp.ReadDataNumber m :: rest1 ∧ ask = true ∧
        (0 < m ∨ sessionEnds rest1 = true)) :
    guardedRetries ask (tail.map ProtoOp.ReadData ++ after) = true := by
  rcases htail with h | ⟨e, h, _⟩
  · subst h
    exact hafter
  · subst h
    rcases hnext with h | ⟨m, rest1, h1, h2, h3⟩
    · simp [guardedRetries, h, hafter]
    · subst h1
      subst h2
      simp only [guardedRetries] at hafter
      rcases h3 with h3 | h3
      · simp [guardedRetries, h3, hafter]
      · simp [guardedRetries, h3, hafter]

/-- The `for` loop of `download`, entered with `retry` equal to 0: every value of `retry`
it observes at the test `retry < 0` is 0, the line is left alone, and the operations it
performs are reads and count queries that satisfy the guard. -/
theorem downloadFor_spec (ask : Bool) :
    ∀ (fuel : Nat) (st st1 : DownloadState), DistoX.downloadFor ask fuel 0 st = some st1 →
      (∀ x ∈ st1.retryChecks, x ∈ st.retryChecks ∨ x = 0) ∧
      st1.mProto.serial = st.mProto.serial ∧
      ∃ ops : List ProtoOp,
        st1.mProto.trace = st.mProto.trace ++ ops ∧ ops.all innerOp = true ∧
        guardedRetries ask (ops ++ [ProtoOp.Close]) = true
  | 0, st, st1, h => by simp [DistoX.downloadFor] at h
  | fuel + 1, st, st1, h => by
    rw [downloadFor_succ] at h
    obtain ⟨k, tail, hwt, htail, hws, _, hwc⟩ := downloadWhile_facts st
    have hchk : ∀ x ∈ (if (DistoX.downloadWhile st).err = ProtoError.PROTO_TIMEOUT then
          (DistoX.downloadWhile st).retryChecks ++ [0]
        else (DistoX.downloadWhile st).retryChecks), x ∈ st.retryChecks ∨ x = 0 := by
      intro x hx
      rw [hwc] at hx
      split at hx
      · rcases List.mem_append.1 hx with h1 | h1
        · exact Or.inl h1
        · exact Or.inr (by simpa using h1)
      · exact Or.inl hx
    obtain ⟨hnt, hns, _, _⟩ := ReadDataNumber_eq (DistoX.downloadWhile st).mProto
    cases ask with
    | false =>
      simp only [Bool.false_eq_true, if_false, Option.some.injEq] at h
      subst h
      refine ⟨hchk, hws, _, hwt, ?_, ?_⟩
      · rw [List.all_append, readData_all_inner, readData_all_inner]; rfl
      · rw [List.append_assoc, guardedRetries_ok]
        exact guardedRetries_tail false tail [ProtoOp.Close] htail rfl (Or.inl rfl)
    | true =>
      simp only [if_true] at h
      by_cases hpos : 0 < (DistoX.downloadWhile st).mProto.ReadDataNumber.1
      · rw [if_pos hpos] at h
        obtain ⟨c1, c2, ops, c3, c4, c5⟩ := downloadFor_spec true fuel _ st1 h
        simp only at c1 c2 c3
        refine ⟨fun x hx => ?_, by rw [c2, hns, hws],
          (List.replicate k ProtoError.PROTO_OK).map ProtoOp.ReadData
            ++ tail.map ProtoOp.ReadData
            ++ ProtoOp.ReadDataNumber (DistoX.downloadWhile st).mProto.ReadDataNumber.1 :: ops,
          ?_, ?_, ?_⟩
        · rcases c1 x hx with h1 | h1
          · exact hchk x h1
          · exact Or.inr h1
        · rw [c3, hnt, hwt]; simp
        · rw [List.all_append, List.all_append, readData_all_inner, readData_all_inner]
          simpa [innerOp] using c4
        · rw [List.append_assoc, List.append_assoc, guardedRetries_ok]
          refine guardedRetries_tail true tail _ htail ?_
            (Or.inr ⟨_, ops ++ [ProtoOp.Close], rfl, rfl, Or.inl hpos⟩)
          simpa [guardedRetries] using c5
      · rw [if_neg hpos, Option.some.injEq] at h
        subst h
        refine ⟨hchk, by rw [hns, hws],
          (List.replicate k ProtoError.PROTO_OK).map ProtoOp.ReadData
            ++ tail.map ProtoOp.ReadData
            ++ [ProtoOp.ReadDataNumber (DistoX.downloadWhile st).mProto.ReadDataNumber.1],
          ?_, ?_, ?_⟩
        · simp only
          rw [hnt, hwt]; simp
        · rw [List.all_append, List.all_append, readData_all_inner, readData_all_inner]
          rfl
        · rw [List.append_assoc, List.append_assoc, guardedRetries_ok]
          exact guardedRetries_tail true tail _ htail rfl
            (Or.inr ⟨_, [ProtoOp.Close], rfl, rfl, Or.inr rfl⟩)

/-- The `for` loop of `download` ends: more rounds than scripted counts suffice. -/
theorem downloadFor_total (ask : Bool) :
    ∀ (fuel : Nat) (st : DownloadState), st.mProto.script.dataNumbers.length < fuel →
      ∃ st1, DistoX.downloadFor ask fuel 0 st = some st1
  | 0, _, h => absurd h (Nat.not_lt_zero _)
  | fuel + 1, st, h => by
    rw [downloadFor_succ]
    obtain ⟨_, _, _, _, _, hwn, _⟩ := downloadWhile_facts st
    obtain ⟨_, _, hnn, hne⟩ := ReadDataNumber_eq (DistoX.downloadWhile st).mProto
    cases ask with
    | false => exact ⟨_, rfl⟩
    | true =>
      simp only [if_true]
      by_cases hpos : 0 < (DistoX.downloadWhile st).mProto.ReadDataNumber.1
      · rw [if_pos hpos]
        apply downloadFor_total true fuel
        simp only
        rw [hnn, hwn]
        have := hne hpos
        rw [hwn] at this
        cases hs : st.mProto.script.dataNumbers with
        | nil => exact absurd hs this
        | cons a as =>
          rw [hs] at h
          simp at h ⊢
          omega
      · rw [if_neg hpos]
        exact ⟨_, rfl⟩

/-- The results of reads followed by other operations. -/
theorem dataReadResults_map (l : List ProtoError) (rest : List ProtoOp) :
    dataReadResults (l.map ProtoOp.ReadData ++ rest) = l ++ dataReadResults rest := by
  induction l with
  | nil => rfl
  | cons e t ih => simp [dataReadResults, ih]

/-- The member `download` when `Open` fails: nothing else is done. -/
theorem download_open_fails (fuel : Nat) (p : Protocol)
    (mListener : Option (List ListenerCall)) (number : Int) (hopen : p.serial.opens = false) :
    DistoX.download fuel p mListener number
      = some (false, { p with trace := p.trace ++ [ProtoOp.Open false] }, mListener, []) := by
  simp [DistoX.download, Protocol.Open, Serial.Open, hopen]

/-- The member `download` when `Open` succeeds: the loop runs from the state set up by the
first statements, then the listener is told and the session is closed. -/
theorem download_opened (fuel : Nat) (p : Protocol) (mListener : Option (List ListenerCall))
    (number : Int) (hopen : p.serial.opens = true) :
    DistoX.download fuel p mListener number
      = (DistoX.downloadFor (number == -1) fuel 0
          { number :=
              if number = -1 then
                (Protocol.ReadDataNumber
                  { p with trace := p.trace ++ [ProtoOp.Open true] }).1
              else if number = 0 then -1 else number,
            cnt := 0, err := ProtoError.PROTO_OK,
            mProto :=
              if number = -1 then
                (Protocol.ReadDataNumber
                  { p with trace := p.trace ++ [ProtoOp.Open true] }).2
              else { p with trace := p.trace ++ [ProtoOp.Open true] },
            mListener := mListener }).map
          (fun st => (true, st.mProto.Close,
            notifyListener st.mListener ListenerCall.distoxDone, st.retryChecks)) := by
  obtain ⟨serial, dq, cq, kq, status, trace, script⟩ := p
  simp only at hopen
  simp only [DistoX.download, Protocol.Open, Serial.Open, hopen, Bool.not_true,
    Bool.false_eq_true, if_false]
  by_cases h1 : number = -1
  · subst h1
    simp only [beq_self_eq_true, if_true]
    cases DistoX.downloadFor true fuel 0 _ <;> rfl
  · by_cases h0 : number = 0
    · subst h0
      simp only [show ((0 : Int) == -1) = false from rfl, Bool.false_eq_true, if_false,
        beq_self_eq_true, if_true, show ¬ ((0 : Int) = -1) from by decide]
      cases DistoX.downloadFor false fuel 0 _ <;> rfl
    · have hb1 : (number == -1) = false := by simpa using h1
      have hb0 : (number == 0) = false := by simpa using h0
      simp only [hb1, hb0, Bool.false_eq_true, if_false, h1, h0]
      cases DistoX.downloadFor false fuel 0 _ <;> rfl

/-- C24: for every number n > 0 (and at least one round of the outer loop), when `Open`
succeeds `download(n)` returns true, calls `ReadData` at most n times, and the listener, if
there is one, receives `distoxDownload` with the counts 1, 2, ..., k in this order, where
k ≤ n is the number of `ReadData` calls that returned `PROTO_OK`, followed by one
`distoxDone`; when `Open` fails it returns false and the listener receives nothing; it
returns false exactly when `Open` fails. -/
theorem download_count (p : Protocol) (mListener : Option (List ListenerCall)) (n : Int)
    (fuel : Nat) (hn : 0 < n) (hfuel : 0 < fuel) :
    (p.serial.opens = true →
      ∃ (k : Nat) (r : Bool × Protocol × Option (List ListenerCall) × List Int),
        DistoX.download fuel p mListener n = some r ∧ r.1 = true ∧ (k : Int) ≤ n ∧
        r.2.2.1 = mListener.map (fun l =>
          l ++ (List.range k).map (fun i => ListenerCall.distoxDownload (i + 1))
            ++ [ListenerCall.distoxDone]) ∧
        (dataReadResults (performed p r.2.1)).count ProtoError.PROTO_OK = k ∧
        ((dataReadResults (performed p r.2.1)).length : Int) ≤ n) ∧
    (p.serial.opens = false →
      DistoX.download fuel p mListener n
        = some (false, { p with trace := p.trace ++ [ProtoOp.Open false] }, mListener, [])) ∧
    (∀ r, DistoX.download fuel p mListener n = some r →
      (r.1 = false ↔ p.serial.opens = false)) := by
  have hn1 : ¬ n = -1 := by omega
  have hn0 : ¬ n = 0 := by omega
  have hb1 : (n == -1) = false := by simpa using hn1
  obtain ⟨f, rfl⟩ : ∃ f, fuel = f + 1 := ⟨fuel - 1, by omega⟩
  have hopened : p.serial.opens = true →
      ∃ (k : Nat) (tail : List ProtoError),
        (tail = [] ∨ ∃ e, tail = [e] ∧ e ≠ ProtoError.PROTO_OK) ∧
        ((k + tail.length : Nat) : Int) ≤ n ∧
        DistoX.download (f + 1) p mListener n
          = some (true,
              ({ p with
                  script :=
                    { p.script with dataReads := p.script.dataReads.drop (k + tail.length) },
                  trace := p.trace ++ (ProtoOp.Open true ::
                    (List.replicate k ProtoError.PROTO_OK ++ tail).map ProtoOp.ReadData
                    ++ [ProtoOp.Close]) } : Protocol),
              mListener.map (fun l =>
                l ++ (List.range k).map (fun i => ListenerCall.distoxDownload (i + 1))
                  ++ [ListenerCall.distoxDone]),
              if tail.head?.getD ProtoError.PROTO_OK = ProtoError.PROTO_TIMEOUT
                then [0] else []) := by
    intro hopen
    rw [download_opened _ p mListener n hopen, hb1, downloadFor_succ]
    simp only [hn1, hn0, if_false, Bool.false_eq_true]
    obtain ⟨k, tail, hk, htail, hle⟩ := downloadWhile_spec _
      { number := n, cnt := 0, err := ProtoError.PROTO_OK,
        mProto := { p with trace := p.trace ++ [ProtoOp.Open true] },
        mListener := mListener } rfl
    refine ⟨k, tail, htail, hle (by simp only; omega), ?_⟩
    rw [hk]
    obtain ⟨serial, dq, cq, kq, status, trace, script⟩ := p
    cases mListener <;>
      simp [Protocol.Close, Serial.Close, notifyListener]
  refine ⟨?_, download_open_fails _ p mListener n, ?_⟩
  · intro hopen
    obtain ⟨k, tail, htail, hle, hd⟩ := hopened hopen
    have hres : dataReadResults (ProtoOp.Open true ::
          (List.replicate k ProtoError.PROTO_OK ++ tail).map ProtoOp.ReadData
          ++ [ProtoOp.Close]) = List.replicate k ProtoError.PROTO_OK ++ tail := by
      rw [List.cons_append]
      show dataReadResults (_ ++ [ProtoOp.Close]) = _
      rw [dataReadResults_map]
      simp [dataReadResults]
    refine ⟨k, _, hd, rfl, by push_cast at hle; omega, rfl, ?_, ?_⟩
    · simp only
      rw [performed_append _ _ _ rfl, hres, List.count_append, List.count_replicate_self]
      rcases htail with h | ⟨e, h, he⟩
      · subst h; simp
      · subst h
        simp [List.count_cons, he]
    · simp only
      rw [performed_append _ _ _ rfl, hres, List.length_append, List.length_replicate]
      exact hle
  · intro r hr
    cases hopen : p.serial.opens with
    | true =>
      obtain ⟨k, tail, _, _, hd⟩ := hopened hopen
      rw [hd] at hr
      cases hr
      simp
    | false =>
      rw [download_open_fails _ p mListener n hopen] at hr
      cases hr
      simp

/-- C24 at a concrete script: three data asked, the device delivers two and then times
out. -/
theorem download_count_witness :
    ∃ (k : Nat) (r : Bool × Protocol × Option (List ListenerCall) × List Int),
      DistoX.download 1
        { script := { dataReads := [ProtoError.PROTO_OK, ProtoError.PROTO_OK,
            ProtoError.PROTO_TIMEOUT] } } (some []) 3 = some r ∧ r.1 = true ∧ (k : Int) ≤ 3 ∧
      r.2.2.1 = (some [] : Option (List ListenerCall)).map (fun l =>
        l ++ (List.range k).map (fun i => ListenerCall.distoxDownload (i + 1))
          ++ [ListenerCall.distoxDone]) ∧
      (dataReadResults (performed
        { script := { dataReads := [ProtoError.PROTO_OK, ProtoError.PROTO_OK,
            ProtoError.PROTO_TIMEOUT] } } r.2.1)).count ProtoError.PROTO_OK = k ∧
      ((dataReadResults (performed
        { script := { dataReads := [ProtoError.PROTO_OK, ProtoError.PROTO_OK,
            ProtoError.PROTO_TIMEOUT] } } r.2.1)).length : Int) ≤ 3 :=
  (download_count
    { script := { dataReads := [ProtoError.PROTO_OK, ProtoError.PROTO_OK,
        ProtoError.PROTO_TIMEOUT] } } (some []) 3 1 (by decide) (by decide)).1 rfl

/-- Operations other than reads at the head of a trace do not matter for
`guardedRetries`. -/
theorem guardedRetries_skip (ask : Bool) (rest : List ProtoOp) :
    guardedRetries ask (ProtoOp.Open true :: rest) = guardedRetries ask rest ∧
    (∀ m, guardedRetries ask (ProtoOp.ReadDataNumber m :: rest) = guardedRetries ask rest) :=
  ⟨by simp [guardedRetries], fun m => by simp [guardedRetries]⟩

/-- The state from which the loop of `download` starts on an open line: the trace so far is
the `Open` and, when the count is asked, one count query. -/
theorem download_start (p : Protocol) (number : Int) :
    ∃ pre : List ProtoOp,
      (if number = -1 then
          (Protocol.ReadDataNumber { p with trace := p.trace ++ [ProtoOp.Open true] }).2
        else { p with trace := p.trace ++ [ProtoOp.Open true] }).trace
        = p.trace ++ ProtoOp.Open true :: pre ∧
      pre.all innerOp = true ∧
      (∀ (ask : Bool) (rest : List ProtoOp),
        guardedRetries ask (pre ++ rest) = guardedRetries ask rest) ∧
      (if number = -1 then
          (Protocol.ReadDataNumber { p with trace := p.trace ++ [ProtoOp.Open true] }).2
        else { p with trace := p.trace ++ [ProtoOp.Open true] }).script.dataNumbers.length
        ≤ p.script.dataNumbers.length := by
  by_cases h : number = -1
  · simp only [h, if_true]
    obtain ⟨h1, _, h3, _⟩ :=
      ReadDataNumber_eq { p with trace := p.trace ++ [ProtoOp.Open true] }
    refine ⟨[ProtoOp.ReadDataNumber
      (Protocol.ReadDataNumber { p with trace := p.trace ++ [ProtoOp.Open true] }).1],
      ?_, rfl, fun ask rest => ?_, ?_⟩
    · rw [h1]; simp
    · exact (guardedRetries_skip ask rest).2 _
    · rw [h3]; simp
  · simp only [h, if_false]
    exact ⟨[], by simp, rfl, fun _ _ => rfl, le_refl _⟩

/-- The session of `download` on an open line: the operations it has performed when it
returns. -/
theorem download_session (fuel : Nat) (p : Protocol) (mListener : Option (List ListenerCall))
    (number : Int) (hopen : p.serial.opens = true)
    (r : Bool × Protocol × Option (List ListenerCall) × List Int)
    (hr : DistoX.download fuel p mListener number = some r) :
    r.1 = true ∧ (∀ x ∈ r.2.2.2, x = 0) ∧
    ∃ mid : List ProtoOp,
      performed p r.2.1 = ProtoOp.Open true :: mid ++ [ProtoOp.Close] ∧
      mid.all innerOp = true ∧
      guardedRetries (number == -1) (performed p r.2.1) = true := by
  rw [download_opened fuel p mListener number hopen] at hr
  obtain ⟨pre, hp1, hp2, hp3, _⟩ := download_start p number
  cases hf : DistoX.downloadFor (number == -1) fuel 0
      { number :=
          if number = -1 then
            (Protocol.ReadDataNumber { p with trace := p.trace ++ [ProtoOp.Open true] }).1
          else if number = 0 then -1 else number,
        cnt := 0, err := ProtoError.PROTO_OK,
        mProto :=
          if number = -1 then
            (Protocol.ReadDataNumber { p with trace := p.trace ++ [ProtoOp.Open true] }).2
          else { p with trace := p.trace ++ [ProtoOp.Open true] },
        mListener := mListener } with
  | none => rw [hf] at hr; simp at hr
  | some st =>
    rw [hf] at hr
    simp only [Option.map_some', Option.some.injEq] at hr
    subst hr
    obtain ⟨c1, _, ops, c3, c4, c5⟩ := downloadFor_spec _ fuel _ st hf
    simp only at c1 c3
    have htrace : (Protocol.Close st.mProto).trace
        = p.trace ++ (ProtoOp.Open true :: (pre ++ ops) ++ [ProtoOp.Close]) := by
      simp [Protocol.Close, c3, hp1]
    have hperf := performed_append p (Protocol.Close st.mProto) _ htrace
    refine ⟨rfl, fun x hx => ?_, pre ++ ops, hperf, ?_, ?_⟩
    · rcases c1 x hx with h | h
      · simp at h
      · exact h
    · rw [List.all_append, hp2, c4]; rfl
    · simp only
      rw [hperf, List.cons_append, (guardedRetries_skip _ _).1, List.append_assoc, hp3]
      exact c5

/-- C26: in `download`, for every protocol state (so for every sequence of `ReadData` and
`ReadDataNumber` results), listener and `number`: whenever `download` returns, every value
of `retry` observed at the test `retry < 0` is 0, so the retry-on-timeout branch is never
taken, and every `ReadData` that failed is followed by the end of the session, or, when the
count was asked for (`number == -1`), by a `ReadDataNumber` after which the loop goes on only
if it returned a positive count. With more rounds of the outer loop than scripted counts,
`download` does return. -/
theorem download_retry_zero (p : Protocol) (mListener : Option (List ListenerCall))
    (number : Int) (fuel : Nat) :
    (∀ r, DistoX.download fuel p mListener number = some r →
      (∀ x ∈ r.2.2.2, x = 0) ∧
      guardedRetries (number == -1) (performed p r.2.1) = true) ∧
    (p.script.dataNumbers.length < fuel →
      ∃ r, DistoX.download fuel p mListener number = some r) := by
  cases hopen : p.serial.opens with
  | false =>
    rw [download_open_fails fuel p mListener number hopen]
    refine ⟨fun r hr => ?_, fun _ => ⟨_, rfl⟩⟩
    cases hr
    refine ⟨by simp, ?_⟩
    simp only
    rw [performed_append _ _ [ProtoOp.Open false] rfl]
    rfl
  | true =>
    refine ⟨fun r hr => ?_, fun hfuel => ?_⟩
    · obtain ⟨_, h1, _, _, _, h2⟩ := download_session fuel p mListener number hopen r hr
      exact ⟨h1, h2⟩
    · rw [download_opened fuel p mListener number hopen]
      obtain ⟨_, _, _, _, hlen⟩ := download_start p number
      obtain ⟨st1, hst⟩ := downloadFor_total (number == -1) fuel
        { number :=
            if number = -1 then
              (Protocol.ReadDataNumber { p with trace := p.trace ++ [ProtoOp.Open true] }).1
            else if number = 0 then -1 else number,
          cnt := 0, err := ProtoError.PROTO_OK,
          mProto :=
            if number = -1 then
              (Protocol.ReadDataNumber { p with trace := p.trace ++ [ProtoOp.Open true] }).2
            else { p with trace := p.trace ++ [ProtoOp.Open true] },
          mListener := mListener } (lt_of_le_of_lt hlen hfuel)
      rw [hst]
      exact ⟨_, rfl⟩

/-- C26 at a concrete script: the count is asked for, every read times out and the counts
2, 1, 0 are reported; `download` returns and every observed value of `retry` is 0. -/
theorem download_retry_zero_witness :
    ∃ r, DistoX.download 4
        { script := { dataReads := [ProtoError.PROTO_TIMEOUT, ProtoError.PROTO_TIMEOUT],
                      dataNumbers := [2, 1, 0] } } none (-1) = some r ∧
      (∀ x ∈ r.2.2.2, x = 0) ∧
      guardedRetries ((-1 : Int) == -1) (performed
        { script := { dataReads := [ProtoError.PROTO_TIMEOUT, ProtoError.PROTO_TIMEOUT],
                      dataNumbers := [2, 1, 0] } } r.2.1) = true :=
  (download_retry_zero
    { script := { dataReads := [ProtoError.PROTO_TIMEOUT, ProtoError.PROTO_TIMEOUT],
                  dataNumbers := [2, 1, 0] } } none (-1) 4).2 (by decide) |>.elim
    (fun r hr => ⟨r, hr,
      (download_retry_zero
        { script := { dataReads := [ProtoError.PROTO_TIMEOUT, ProtoError.PROTO_TIMEOUT],
                      dataNumbers := [2, 1, 0] } } none (-1) 4).1 r hr⟩)

/-- The run of `download` at a concrete script, evaluated: the count is asked for, every
read times out, the counts 2, 1, 0 are reported. The test `retry < 0` is reached twice,
each time with `retry` equal to 0. -/
theorem download_retry_observed :
    (DistoX.download 4
        { script := { dataReads := [ProtoError.PROTO_TIMEOUT, ProtoError.PROTO_TIMEOUT],
                      dataNumbers := [2, 1, 0] } } none (-1)).map (fun r => (r.1, r.2.2.2))
      = some (true, [0, 0]) ∧
    (DistoX.download 4
        { script := { dataReads := [ProtoError.PROTO_TIMEOUT, ProtoError.PROTO_TIMEOUT],
                      dataNumbers := [2, 1, 0] } } none (-1)).map
        (fun r => performed
          { script := { dataReads := [ProtoError.PROTO_TIMEOUT, ProtoError.PROTO_TIMEOUT],
                        dataNumbers := [2, 1, 0] } } r.2.1)
      = some [ProtoOp.Open true, ProtoOp.ReadDataNumber 2,
          ProtoOp.ReadData ProtoError.PROTO_TIMEOUT, ProtoOp.ReadDataNumber 1,
          ProtoOp.ReadData ProtoError.PROTO_TIMEOUT, ProtoOp.ReadDataNumber 0,
          ProtoOp.Close] := by
  rw [download_opened _ _ _ _ rfl]
  simp [downloadFor_succ, downloadWhile_eq, Protocol.ReadData, Protocol.ReadDataNumber,
    Protocol.Close, Serial.Close, notifyListener, performed]

/-- No operation extends the trace by nothing. -/
theorem extendsTrace_refl (p : Protocol) : extendsTrace p p :=
  ⟨[], by simp, rfl⟩

/-- Extensions compose. -/
theorem extendsTrace_trans {p q r : Protocol} (h1 : extendsTrace p q)
    (h2 : extendsTrace q r) : extendsTrace p r := by
  obtain ⟨a, ha, ha2⟩ := h1
  obtain ⟨b, hb, hb2⟩ := h2
  exact ⟨a ++ b, by rw [hb, ha, List.append_assoc], by rw [List.all_append, ha2, hb2]; rfl⟩

/-- A status read is neither `Open` nor `Close`. -/
theorem Read8000_extends (p : Protocol) (mode : Nat) :
    extendsTrace p (p.Read8000 mode).2.2 := by
  obtain ⟨o, ho⟩ := Read8000_trace p mode
  exact ⟨_, ho, rfl⟩

/-- A command byte is neither `Open` nor `Close`. -/
theorem SendCommandByte_extends (p : Protocol) (b : Nat) :
    extendsTrace p (p.SendCommandByte b).2 :=
  ⟨_, rfl, rfl⟩

/-- The loop of `readMode` neither opens nor closes. -/
theorem readModeLoop_extends :
    ∀ (n : Nat) (p : Protocol) (mode : Nat) (ret : Int),
      extendsTrace p (DistoX.readModeLoop n p mode ret).2
  | 0, p, _, _ => extendsTrace_refl p
  | n + 1, p, mode, ret => by
    simp only [DistoX.readModeLoop]
    exact extendsTrace_trans (Read8000_extends p mode) (readModeLoop_extends n _ _ _)

/-- The first loop of `toggleCalib` neither opens nor closes. -/
theorem toggleCalibReadLoop_extends (n : Nat) (p : Protocol) (mode : Nat) :
    extendsTrace p (DistoX.toggleCalibReadLoop n p mode).2 := by
  obtain ⟨ops, h1, h2, _⟩ := toggleCalibReadLoop_trace n p mode
  exact ⟨ops, h1, h2⟩

/-- The second loop of `toggleCalib` neither opens nor closes. -/
theorem toggleCalibSendLoop_extends (mode n : Nat) (p : Protocol) (mode1 : Nat) :
    extendsTrace p (DistoX.toggleCalibSendLoop mode n p mode1).2 := by
  obtain ⟨ops, h1, h2, _⟩ := toggleCalibSendLoop_trace mode n p mode1
  exact ⟨ops, h1, h2⟩

/-- An extension on both branches of a conditional. -/
theorem extendsTrace_ite {α : Type} (p : Protocol) (c : Bool) (a b : α × Protocol)
    (ha : extendsTrace p a.2) (hb : extendsTrace p b.2) :
    extendsTrace p (if c = true then a else b).2 := by
  cases c
  · simpa using hb
  · simpa using ha

/-- The loop of `setCalib` neither opens nor closes. -/
theorem setCalibLoop_extends (on' : Bool) (mode2 : Nat) :
    ∀ (n : Nat) (p : Protocol) (mode1 : Nat) (ret : Int),
      extendsTrace p (DistoX.setCalibLoop on' mode2 n p mode1 ret).2
  | 0, p, _, _ => extendsTrace_refl p
  | n + 1, p, mode1, ret => by
    have h := extendsTrace_trans (SendCommandByte_extends p (if on' then 0x31 else 0x30))
      (Read8000_extends (p.SendCommandByte (if on' then 0x31 else 0x30)).2 mode1)
    simp only [DistoX.setCalibLoop]
    exact extendsTrace_ite p _ _ _ h (extendsTrace_trans h (setCalibLoop_extends on' mode2 n _ _ _))

/-- The loop of `setSilent` neither opens nor closes. -/
theorem setSilentLoop_extends (on' : Bool) (mode2 : Nat) :
    ∀ (n : Nat) (p : Protocol) (mode1 : Nat) (ret : Int),
      extendsTrace p (DistoX.setSilentLoop on' mode2 n p mode1 ret).2
  | 0, p, _, _ => extendsTrace_refl p
  | n + 1, p, mode1, ret => by
    have h := extendsTrace_trans (SendCommandByte_extends p (if on' then 0x33 else 0x32))
      (Read8000_extends (p.SendCommandByte (if on' then 0x33 else 0x32)).2 mode1)
    simp only [DistoX.setSilentLoop]
    exact extendsTrace_ite p _ _ _ h (extendsTrace_trans h (setSilentLoop_extends on' mode2 n _ _ _))

/-- Reading the coefficients neither opens nor closes. -/
theorem ReadCalibration_extends (p : Protocol) (byte : List Nat) :
    extendsTrace p (p.ReadCalibration byte).2.2 := by
  unfold Protocol.ReadCalibration
  split
  · exact ⟨_, rfl, rfl⟩
  · exact ⟨_, rfl, rfl⟩

/-- Writing the coefficients neither opens nor closes. -/
theorem WriteCalibration_extends (p : Protocol) (calib : List Nat) :
    extendsTrace p (p.WriteCalibration calib).2 := by
  unfold Protocol.WriteCalibration
  split
  · exact ⟨_, rfl, rfl⟩
  · exact ⟨_, rfl, rfl⟩

/-- A successful `Open`. -/
theorem Open_true (p : Protocol) (hopen : p.serial.opens = true) :
    p.Open = (true, { p with trace := p.trace ++ [ProtoOp.Open true] }) := by
  simp [Protocol.Open, Serial.Open, hopen]

/-- A failed `Open`. -/
theorem Open_false (p : Protocol) (hopen : p.serial.opens = false) :
    p.Open = (false, { p with trace := p.trace ++ [ProtoOp.Open false] }) := by
  simp [Protocol.Open, Serial.Open, hopen]

/-- A session is closed when, after the successful `Open`, operations other than `Open` and
`Close` are followed by the `Close`. -/
theorem closedSession_of_extends (p q : Protocol)
    (h : extendsTrace { p with trace := p.trace ++ [ProtoOp.Open true] } q) :
    closedSession (performed p q.Close) := by
  obtain ⟨ops, h1, h2⟩ := h
  refine ⟨ops, ?_, h2⟩
  apply performed_append
  simp [Protocol.Close, h1]

/-- An extension on both branches of a conditional. -/
theorem extendsTrace_dite {α : Type} (p : Protocol) (c : Prop) [Decidable c]
    (a b : α × Protocol) (ha : extendsTrace p a.2) (hb : extendsTrace p b.2) :
    extendsTrace p (if c then a else b).2 := by
  by_cases h : c
  · rw [if_pos h]; exact ha
  · rw [if_neg h]; exact hb

/-- The session of `readMode` on an open line. -/
theorem readMode_session (p : Protocol) (hopen : p.serial.opens = true) :
    closedSession (performed p (DistoX.readMode p).2) := by
  have h : (DistoX.readMode p).2
      = Protocol.Close (DistoX.readModeLoop 3
          { p with trace := p.trace ++ [ProtoOp.Open true] } 0 (-1)).2 := by
    simp [DistoX.readMode, Open_true p hopen]
  rw [h]
  exact closedSession_of_extends p _ (readModeLoop_extends 3 _ _ _)

/-- The session of `toggleCalib` on an open line. -/
theorem toggleCalib_session (p : Protocol) (hopen : p.serial.opens = true) :
    closedSession (performed p (DistoX.toggleCalib p).2) := by
  have h1 := toggleCalibReadLoop_extends 3 { p with trace := p.trace ++ [ProtoOp.Open true] } 0
  have h2 := toggleCalibSendLoop_extends
    (DistoX.toggleCalibReadLoop 3 { p with trace := p.trace ++ [ProtoOp.Open true] } 0).1 3
    (DistoX.toggleCalibReadLoop 3 { p with trace := p.trace ++ [ProtoOp.Open true] } 0).2 0
  have h : ∃ q, (DistoX.toggleCalib p).2 = Protocol.Close q ∧
      extendsTrace { p with trace := p.trace ++ [ProtoOp.Open true] } q := by
    simp only [DistoX.toggleCalib, Open_true p hopen, Bool.not_true, Bool.false_eq_true,
      if_false]
    exact ⟨_, rfl, extendsTrace_dite _ _ _ _
      (extendsTrace_dite _ _ _ _
        (extendsTrace_dite _ _ _ _ (extendsTrace_trans h1 h2) (extendsTrace_trans h1 h2))
        (extendsTrace_trans h1 h2)) h1⟩
  obtain ⟨q, hq, hext⟩ := h
  rw [hq]
  exact closedSession_of_extends p q hext

/-- The session of `setCalib` on an open line. -/
theorem setCalib_session (p : Protocol) (on' : Bool) (hopen : p.serial.opens = true) :
    closedSession (performed p (DistoX.setCalib p on').2) := by
  have h1 := Read8000_extends { p with trace := p.trace ++ [ProtoOp.Open true] } 0
  have h : ∃ q, (DistoX.setCalib p on').2 = Protocol.Close q ∧
      extendsTrace { p with trace := p.trace ++ [ProtoOp.Open true] } q := by
    simp only [DistoX.setCalib, Open_true p hopen, Bool.not_true, Bool.false_eq_true,
      if_false]
    exact ⟨_, rfl, extendsTrace_dite _ _ _ _
      (extendsTrace_dite _ _ _ _
        (extendsTrace_trans h1 (setCalibLoop_extends _ _ _ _ _ _)) h1) h1⟩
  obtain ⟨q, hq, hext⟩ := h
  rw [hq]
  exact closedSession_of_extends p q hext

/-- The session of `setSilent` on an open line. -/
theorem setSilent_session (p : Protocol) (on' : Bool) (hopen : p.serial.opens = true) :
    closedSession (performed p (DistoX.setSilent p on').2) := by
  have h1 := Read8000_extends { p with trace := p.trace ++ [ProtoOp.Open true] } 0
  have h : ∃ q, (DistoX.setSilent p on').2 = Protocol.Close q ∧
      extendsTrace { p with trace := p.trace ++ [ProtoOp.Open true] } q := by
    simp only [DistoX.setSilent, Open_true p hopen, Bool.not_true, Bool.false_eq_true,
      if_false]
    exact ⟨_, rfl, extendsTrace_dite _ _ _ _
      (extendsTrace_dite _ _ _ _
        (extendsTrace_trans h1 (setSilentLoop_extends _ _ _ _ _ _)) h1) h1⟩
  obtain ⟨q, hq, hext⟩ := h
  rw [hq]
  exact closedSession_of_extends p q hext

/-- The sessions of `readCoeffs` and `writeCoeffs` on an open line. -/
theorem coeffs_session (p : Protocol) (byte : List Nat) (hopen : p.serial.opens = true) :
    closedSession (performed p (DistoX.readCoeffs p byte).2.2) ∧
    closedSession (performed p (DistoX.writeCoeffs p byte).2) := by
  constructor
  · have h : (DistoX.readCoeffs p byte).2.2
        = Protocol.Close (Protocol.ReadCalibration
            { p with trace := p.trace ++ [ProtoOp.Open true] } byte).2.2 := by
      simp [DistoX.readCoeffs, Open_true p hopen]
    rw [h]
    exact closedSession_of_extends p _ (ReadCalibration_extends _ _)
  · have h : (DistoX.writeCoeffs p byte).2
        = Protocol.Close (Protocol.WriteCalibration
            { p with trace := p.trace ++ [ProtoOp.Open true] } byte).2 := by
      simp [DistoX.writeCoeffs, Open_true p hopen]
    rw [h]
    exact closedSession_of_extends p _ (WriteCalibration_extends _ _)

/-- With more rounds of the outer loop than scripted counts, `download` returns. -/
theorem download_returns (fuel : Nat) (p : Protocol) (mListener : Option (List ListenerCall))
    (number : Int) (hfuel : p.script.dataNumbers.length < fuel) :
    ∃ r, DistoX.download fuel p mListener number = some r := by
  cases hopen : p.serial.opens with
  | false => exact ⟨_, download_open_fails fuel p mListener number hopen⟩
  | true =>
    rw [download_opened fuel p mListener number hopen]
    obtain ⟨_, _, _, _, hlen⟩ := download_start p number
    obtain ⟨st1, hst⟩ := downloadFor_total (number == -1) fuel
      { number :=
          if number = -1 then
            (Protocol.ReadDataNumber { p with trace := p.trace ++ [ProtoOp.Open true] }).1
          else if number = 0 then -1 else number,
        cnt := 0, err := ProtoError.PROTO_OK,
        mProto :=
          if number = -1 then
            (Protocol.ReadDataNumber { p with trace := p.trace ++ [ProtoOp.Open true] }).2
          else { p with trace := p.trace ++ [ProtoOp.Open true] },
        mListener := mListener } (lt_of_le_of_lt hlen hfuel)
    rw [hst]
    exact ⟨_, rfl⟩

/-- C28: every session-opening operation of `DistoX` (`readMode`, `toggleCalib`,
`setCalib`, `setSilent`, `readCoeffs`, `writeCoeffs`, `download`) leaves the session closed.
If `Open` fails, the failed `Open` is the only protocol operation performed and the failure
value (-1, or false) is returned. If `Open` succeeds, the operations performed are the
`Open`, then operations other than `Open` and `Close`, then exactly one `Close`, whatever
the device replies; `download` returns as soon as it is given more rounds of its outer loop
than counts are scripted. -/
theorem sessions_closed (p : Protocol) :
    (p.serial.opens = false →
      ((DistoX.readMode p).1 = -1 ∧
        performed p (DistoX.readMode p).2 = [ProtoOp.Open false]) ∧
      ((DistoX.toggleCalib p).1 = -1 ∧
        performed p (DistoX.toggleCalib p).2 = [ProtoOp.Open false]) ∧
      (∀ on' : Bool, (DistoX.setCalib p on').1 = -1 ∧
        performed p (DistoX.setCalib p on').2 = [ProtoOp.Open false]) ∧
      (∀ on' : Bool, (DistoX.setSilent p on').1 = -1 ∧
        performed p (DistoX.setSilent p on').2 = [ProtoOp.Open false]) ∧
      (∀ byte : List Nat, (DistoX.readCoeffs p byte).1 = false ∧
        performed p (DistoX.readCoeffs p byte).2.2 = [ProtoOp.Open false]) ∧
      (∀ byte : List Nat, (DistoX.writeCoeffs p byte).1 = false ∧
        performed p (DistoX.writeCoeffs p byte).2 = [ProtoOp.Open false]) ∧
      (∀ (fuel : Nat) (mListener : Option (List ListenerCall)) (number : Int),
        ∃ r, DistoX.download fuel p mListener number = some r ∧ r.1 = false ∧
          performed p r.2.1 = [ProtoOp.Open false])) ∧
    (p.serial.opens = true →
      closedSession (performed p (DistoX.readMode p).2) ∧
      closedSession (performed p (DistoX.toggleCalib p).2) ∧
      (∀ on' : Bool, closedSession (performed p (DistoX.setCalib p on').2)) ∧
      (∀ on' : Bool, closedSession (performed p (DistoX.setSilent p on').2)) ∧
      (∀ byte : List Nat, closedSession (performed p (DistoX.readCoeffs p byte).2.2)) ∧
      (∀ byte : List Nat, closedSession (performed p (DistoX.writeCoeffs p byte).2)) ∧
      (∀ (fuel : Nat) (mListener : Option (List ListenerCall)) (number : Int) r,
        DistoX.download fuel p mListener number = some r →
        closedSession (performed p r.2.1)) ∧
      (∀ (fuel : Nat) (mListener : Option (List ListenerCall)) (number : Int),
        p.script.dataNumbers.length < fuel →
        ∃ r, DistoX.download fuel p mListener number = some r)) := by
  constructor
  · intro hopen
    have hperf : performed p { p with trace := p.trace ++ [ProtoOp.Open false] }
        = [ProtoOp.Open false] := performed_append _ _ _ rfl
    refine ⟨?_, ?_, fun on' => ?_, fun on' => ?_, fun byte => ?_, fun byte => ?_,
      fun fuel mListener number => ?_⟩
    · simp only [DistoX.readMode, Open_false p hopen]
      exact ⟨rfl, hperf⟩
    · simp only [DistoX.toggleCalib, Open_false p hopen]
      exact ⟨rfl, hperf⟩
    · simp only [DistoX.setCalib, Open_false p hopen]
      exact ⟨rfl, hperf⟩
    · simp only [DistoX.setSilent, Open_false p hopen]
      exact ⟨rfl, hperf⟩
    · simp only [DistoX.readCoeffs, Open_false p hopen]
      exact ⟨rfl, hperf⟩
    · simp only [DistoX.writeCoeffs, Open_false p hopen]
      exact ⟨rfl, hperf⟩
    · exact ⟨_, download_open_fails fuel p mListener number hopen, rfl, hperf⟩
  · intro hopen
    refine ⟨readMode_session p hopen, toggleCalib_session p hopen,
      fun on' => setCalib_session p on' hopen, fun on' => setSilent_session p on' hopen,
      fun byte => (coeffs_session p byte hopen).1, fun byte => (coeffs_session p byte hopen).2,
      fun fuel mListener number r hr => ?_,
      fun fuel mListener number hfuel => download_returns fuel p mListener number hfuel⟩
    obtain ⟨_, _, mid, h1, h2, _⟩ := download_session fuel p mListener number hopen r hr
    exact ⟨mid, h1, h2⟩

/-- C28 at a concrete state: on a line that opens, `toggleCalib` against a device in
calibration mode leaves a closed session; on a line that does not open, it only tries to
open and returns -1. -/
theorem sessions_closed_witness :
    closedSession (performed { status := [some 0x08, some 0x00] }
      (DistoX.toggleCalib { status := [some 0x08, some 0x00] }).2) ∧
    (DistoX.toggleCalib { serial := { opens := false } }).1 = -1 ∧
    performed { serial := { opens := false } }
      (DistoX.toggleCalib { serial := { opens := false } }).2 = [ProtoOp.Open false] :=
  ⟨((sessions_closed { status := [some 0x08, some 0x00] }).2 rfl).2.1,
    ((sessions_closed { serial := { opens := false } }).1 rfl).2.1⟩

end TopoLinux
